import Mathlib

/-!
# gvsoc-core ISS: division handlers, interrupt path, instruction cache, debug unit

A shallow embedding of

* `models/cpu/iss/include/rv32m.hpp` (`div_exec`, `divu_exec`, `rem_exec`, `remu_exec`),
* `models/cpu/iss/include/exceptions.hpp` (`iss_except_raise`),
* `models/cpu/iss/src/irq/irq_external.cpp` (`Irq::check`, `Irq::mret_handle`,
  `Irq::vector_table_set`, `Irq::wfi_handle`, `Irq::irq_req_sync`, ...),
* `models/cpu/iss/src/exec/exec_inorder.cpp` (`Exec::exec_instr_check_all`, ...),
* `models/cpu/iss/src/insn_cache.cpp` (`insn_cache_page_get`,
  `insn_cache_get_insn_from_cache`, `flush_cache`, `iss_cache_flush`),
* `models/cpu/iss/vp/src/iss_wrapper.cpp` (`check_state`, `data_misaligned_req`,
  `dbg_unit_req`, ...),

followed by the properties proved about them.

Conventions. A register word is a natural number below `2 ^ 32`. C integer conversions are
written out: `to_sim` reads a word as `iss_sim_t`, `to_uim` converts back with wrap-around,
`to_ull` is the conversion to `unsigned long long` that the usual arithmetic conversions
apply when a signed operand meets `1ULL << ...`. An expression that C leaves without a value
(`INT_MIN / -1`, `__builtin_clz(0)`, reading through a null pointer) evaluates to `none`.
-/

namespace Gvsoc

/-! ## Machine integers -/

/-- Modelled from the spec: the register width `ISS_REG_WIDTH` comes from the build
configuration of the ISS, not from `rv32m.hpp`; the spec describes a 32-bit core, and
`__builtin_clz` in the division handlers works on 32-bit words. -/
abbrev ISS_REG_WIDTH : Nat := 32

/-- Conversion to the unsigned register type (`iss_reg_t`, `iss_uim_t`, `unsigned int`):
the value modulo `2 ^ ISS_REG_WIDTH`. -/
def to_uim (x : Int) : Nat := (x % (2 : Int) ^ ISS_REG_WIDTH).toNat

/-- Modelled from the spec: `iss_sim_t` is the signed integer type of register width, whose
declaration lives in the ISS type headers. This is the conversion of a register word to it
(two's complement). -/
def to_sim (w : Nat) : Int :=
  if w % 2 ^ ISS_REG_WIDTH < 2 ^ (ISS_REG_WIDTH - 1) then ((w % 2 ^ ISS_REG_WIDTH : Nat) : Int)
  else ((w % 2 ^ ISS_REG_WIDTH : Nat) : Int) - (2 : Int) ^ ISS_REG_WIDTH

/-- Conversion of a signed value to `unsigned long long`, the common type of the comparison
`x == (1ULL << n)` for a signed `x` of lower rank: the value modulo `2 ^ 64`. -/
def to_ull (x : Int) : Nat := (x % (2 : Int) ^ 64).toNat

/-- The operator `~` on a signed integer. -/
def sim_not (x : Int) : Int := -x - 1

/-- The smallest value of `iss_sim_t`. -/
def SIM_MIN : Int := -(2 : Int) ^ (ISS_REG_WIDTH - 1)

/-- The C operator `/` on `iss_sim_t`: truncation toward zero. It has no value when the
divisor is zero or when the quotient is not representable (`SIM_MIN / -1`). -/
def host_div (a b : Int) : Option Int :=
  if b = 0 then none
  else if a = SIM_MIN ∧ b = -1 then none
  else some (Int.tdiv a b)

/-- The C operator `%` on `iss_sim_t`; it has a value exactly when `host_div` has one. -/
def host_rem (a b : Int) : Option Int :=
  if b = 0 then none
  else if a = SIM_MIN ∧ b = -1 then none
  else some (Int.tmod a b)

/-- The C operator `+` on `iss_sim_t`: it has no value when the sum is not representable
(signed overflow). -/
def host_add (a b : Int) : Option Int :=
  if SIM_MIN ≤ a + b ∧ a + b < -SIM_MIN then some (a + b) else none

/-- Leading zero bits of `x` among the lowest `n` bits, scanning from bit `n - 1` down. -/
def clz_from : Nat → Nat → Nat
  | 0, _ => 0
  | n + 1, x => if x / 2 ^ n % 2 = 1 then 0 else clz_from n x + 1

/-- Number of leading zero bits of a 32-bit word (32 for the word 0). -/
def clz32 (x : Nat) : Nat := clz_from 32 (x % 2 ^ 32)

/-- The compiler builtin `__builtin_clz(unsigned int)`: the number of leading zero bits,
and no defined result for the argument 0. -/
def builtin_clz (x : Nat) : Option Nat :=
  if x % 2 ^ 32 = 0 then none else some (clz32 x)

/-! ## rv32m.hpp: the division handlers -/

/-- What a division handler does to its surroundings: `reg_set` is the word handed to
`REG_SET(0, ...)` and `stall` the count handed to `timing.stall_insn_dependency_account`.
Either is `none` when the C expression computing it has no defined value, and `stall` is
`none` as well when the handler does not get as far as the call. -/
structure insn_effect where
  reg_set : Option Nat
  stall : Option Nat
  deriving DecidableEq, Repr

/-- The cycle count shared by `div_exec` and `rem_exec` (rv32m.hpp lines 64-77 and 115-128).
In the last branch `(~divider) + 1` is a signed addition, which has no value for the
smallest divisor. -/
def signed_div_cycles (divider : Int) : Option Nat :=
  if divider = 0 then some 1
  else if divider > 0 then (builtin_clz (to_uim divider)).map (fun c => c + 3)
  else (host_add (sim_not divider) 1).bind
    (fun x => (builtin_clz (to_uim x)).map (fun c => c + 2))

/-- Handler `div_exec`; `reg0` and `reg1` are the words read by `REG_GET(0)` and `REG_GET(1)`.
The cycle count is computed and charged after the division: when the division has no
defined value the handler does not reach `stall_insn_dependency_account`. -/
def div_exec (reg0 reg1 : Nat) : insn_effect :=
  let divider : Int := to_sim reg1
  let dividend : Int := to_sim reg0
  let result : Option Int :=
    if divider = 0 then some (-1)
    else if to_ull divider = 1 <<< (ISS_REG_WIDTH - 1) ∧ dividend = -1 then some 0
    else if to_ull dividend = 1 <<< (ISS_REG_WIDTH - 1) ∧ divider = -1 then
      some (to_sim (1 <<< (ISS_REG_WIDTH - 1)))
    else host_div dividend divider
  { reg_set := result.map to_uim
    stall := result.bind (fun _ => signed_div_cycles divider) }

/-- Handler `divu_exec`. -/
def divu_exec (reg0 reg1 : Nat) : insn_effect :=
  let divider : Nat := reg1 % 2 ^ ISS_REG_WIDTH
  let dividend : Nat := reg0 % 2 ^ ISS_REG_WIDTH
  let result : Nat := if divider = 0 then to_uim (-1) else dividend / divider
  { reg_set := some result, stall := (builtin_clz divider).map (fun c => c + 3) }

/-- Handler `rem_exec`; the cycle count comes after the remainder, as in `div_exec`. -/
def rem_exec (reg0 reg1 : Nat) : insn_effect :=
  let divider : Int := to_sim reg1
  let dividend : Int := to_sim reg0
  let result : Option Int :=
    if divider = 0 then some dividend
    else if to_ull divider = 1 <<< (ISS_REG_WIDTH - 1) ∧ dividend = -1 then some (-1)
    else if to_ull dividend = 1 <<< (ISS_REG_WIDTH - 1) ∧ divider = -1 then some 0
    else host_rem dividend divider
  { reg_set := result.map to_uim
    stall := result.bind (fun _ => signed_div_cycles divider) }

/-- Handler `remu_exec`. -/
def remu_exec (reg0 reg1 : Nat) : insn_effect :=
  let divider : Nat := reg1 % 2 ^ ISS_REG_WIDTH
  let dividend : Nat := reg0 % 2 ^ ISS_REG_WIDTH
  let result : Nat := if divider = 0 then dividend else dividend % divider
  { reg_set := some result, stall := (builtin_clz divider).map (fun c => c + 3) }

/-! ## insn_cache.cpp: the decoded-instruction cache -/

/-- The value of the member `handler` of an entry: the sentinel `iss_decode_pc_handler`
that insn_cache.cpp compares with, or some other handler, named by a number. -/
inductive insn_handler where
  | iss_decode_pc_handler
  | installed (id : Nat)
  deriving DecidableEq, Repr

/-- Modelled from the spec: the record `iss_insn_t` is declared in the ISS type headers;
the spec gives it a guest address that is immutable after initialisation. A value of this
type stands for a pointer `iss_insn_t *`: `page` names the page allocation that holds the
entry, `addr` is the entry's `addr` field and `handler` its `handler` field. A null
pointer is `none`. -/
structure iss_insn_t where
  page : Nat
  addr : Nat
  handler : insn_handler := insn_handler.iss_decode_pc_handler
  deriving DecidableEq, Repr

/-- Modelled from the spec: `insn_init` is defined with the decoder, which is not embedded;
the spec has page creation populate every entry with its address and the undecoded sentinel
handler. The first argument is the page allocation that holds the entry. -/
def insn_init (page addr : Nat) : iss_insn_t :=
  { page := page, addr := addr, handler := insn_handler.iss_decode_pc_handler }

/-- Function `insn_cache_is_decoded`: `insn->handler != iss_decode_pc_handler`. -/
def insn_cache_is_decoded (insn : iss_insn_t) : Bool :=
  decide (insn.handler ≠ insn_handler.iss_decode_pc_handler)

/-- A page `iss_insn_page_t`: `id` is the identity of the allocation made by `new`,
`insns` the array of entries. -/
structure iss_insn_page_t where
  id : Nat
  insns : List iss_insn_t
  deriving DecidableEq, Repr

/-- The cache `iss_insn_cache_t`: the map `pages` from page index to page, the current-page
shortcut, and the number of pages allocated so far, from which `new` draws identities. -/
structure iss_insn_cache_t where
  pages : List (Nat × iss_insn_page_t)
  current_insn_page : Option iss_insn_page_t
  current_insn_page_base : Nat
  allocated : Nat
  deriving DecidableEq, Repr

/-- Modelled from the spec: `INSN_PAGE_SIZE`, the number of entries of a page, is defined
in the ISS headers; a page covers `2 ^ INSN_PAGE_BITS` bytes with entries at
2-byte stride. The constant `INSN_PAGE_BITS` itself is a parameter throughout. -/
def INSN_PAGE_SIZE (INSN_PAGE_BITS : Nat) : Nat := 2 ^ (INSN_PAGE_BITS - 1)

/-- The initialisation loop of `insn_cache_page_get`: `n` entries of page `id` with
addresses `addr`, `addr + 2`, ... -/
def insn_page_init : Nat → Nat → Nat → List iss_insn_t
  | 0, _, _ => []
  | n + 1, id, addr => insn_init id addr :: insn_page_init n id ((addr + 2) % 2 ^ 32)

/-- Function `insn_cache_page_get`: the page of index `paddr >> INSN_PAGE_BITS`, created and
entered into the map when absent. -/
def insn_cache_page_get (INSN_PAGE_BITS : Nat) (cache : iss_insn_cache_t) (paddr : Nat) :
    iss_insn_page_t × iss_insn_cache_t :=
  let index := (paddr % 2 ^ 32) >>> INSN_PAGE_BITS
  match cache.pages.lookup index with
  | some page => (page, cache)
  | none =>
    let page : iss_insn_page_t :=
      { id := cache.allocated
        insns := insn_page_init (INSN_PAGE_SIZE INSN_PAGE_BITS) cache.allocated
          ((index <<< INSN_PAGE_BITS) % 2 ^ 32) }
    (page, { cache with pages := (index, page) :: cache.pages, allocated := cache.allocated + 1 })

/-- Modelled from the spec: `insn_cache_get_insn` is defined in the cache header; it
returns the entry addressed by `vaddr`, here read from the current page at index
`(vaddr - current_insn_page_base) >> 1`. -/
def insn_cache_get_insn (cache : iss_insn_cache_t) (vaddr : Nat) : Option iss_insn_t :=
  match cache.current_insn_page with
  | none => none
  | some page =>
    page.insns.get?
      (((vaddr % 2 ^ 32 + 2 ^ 32 - cache.current_insn_page_base % 2 ^ 32) % 2 ^ 32) >>> 1)

/-- Function `insn_cache_get_insn_from_cache`, without MMU (`paddr = vaddr`). -/
def insn_cache_get_insn_from_cache (INSN_PAGE_BITS : Nat) (cache : iss_insn_cache_t)
    (vaddr : Nat) : Option iss_insn_t × iss_insn_cache_t :=
  let r := insn_cache_page_get INSN_PAGE_BITS cache vaddr
  let cache1 : iss_insn_cache_t :=
    { r.2 with
      current_insn_page := some r.1
      current_insn_page_base := (((vaddr % 2 ^ 32) >>> INSN_PAGE_BITS) <<< INSN_PAGE_BITS) % 2 ^ 32 }
  (insn_cache_get_insn cache1 vaddr, cache1)

/-- Modelled from the spec: `insn_cache_get` is defined in the cache header; it
computes the page index, creates the page if absent and returns the entry addressed by
`vaddr`, which is what `insn_cache_get_insn_from_cache` does. -/
def insn_cache_get (INSN_PAGE_BITS : Nat) (cache : iss_insn_cache_t) (vaddr : Nat) :
    Option iss_insn_t × iss_insn_cache_t :=
  insn_cache_get_insn_from_cache INSN_PAGE_BITS cache vaddr

/-! ## The core state -/

/-- The control and status registers used by the interrupt path, and the performance
counter registers `pcmr`, `pcer` and `pccr[...]` touched on wake-up. -/
structure Csr where
  epc : Nat
  depc : Nat
  mcause : Nat
  pcmr : Nat
  pcer : Nat
  pccr : List Nat
  deriving DecidableEq, Repr

/-- Data members of class `Irq`. The table `vectors` is indexed the way C indexes it, by an
`int`; the declared array is the slots 0 to 34. In `Irq::check`, whose index is the latched
request, an index outside stands for whatever the out-of-range access reads; in
`iss_except_raise`, whose index `32 + id` passes the end of the array for an `id` above 2, a
read outside the array has no defined value. -/
structure Irq where
  vectors : Int → Option iss_insn_t
  irq_enable : Int
  saved_irq_enable : Int
  debug_saved_irq_enable : Int
  req_irq : Int
  req_debug : Bool
  vector_base : Nat
  debug_handler : Option iss_insn_t

/-- The members of `iss.state` used by the interrupt path. -/
structure State where
  debug_mode : Bool
  elw_interrupted : Int
  elw_insn : Option iss_insn_t
  deriving DecidableEq, Repr

/-- The method bound to the loop event `instr_event`. -/
inductive instr_event_meth where
  | exec_instr
  | exec_instr_check_all
  | exec_first_instr
  deriving DecidableEq, Repr

/-- Data members of class `Exec` used here; `stalled` is the stall count. -/
structure Exec where
  current_insn : Option iss_insn_t
  prev_insn : Option iss_insn_t
  instr_event : instr_event_meth
  bootaddr_reg : Nat
  bootaddr_offset : Nat
  clock_active : Bool
  fetch_enable_reg : Bool
  stalled : Int
  wfi : Bool
  deriving DecidableEq, Repr

/-- The member of class `Timing` read by the execution loop. -/
structure Timing where
  stall_cycles : Int
  deriving DecidableEq, Repr

/-- The member of class `DbgUnit` written on a halt. -/
structure DbgUnit where
  halt_cause : Int
  deriving DecidableEq, Repr

/-- Class `Gdbserver`: the member `gdbserver` is a pointer, `true` standing for non-null
(a GDB server is attached). -/
structure Gdbserver where
  gdbserver : Bool
  deriving DecidableEq, Repr

/-- The members of class `Decode` used here; `insn_tables` lists the decoder tables
allocated so far. -/
structure Decode where
  insn_cache : iss_insn_cache_t
  insn_tables : List Nat
  deriving DecidableEq, Repr

/-- The configuration record `iss.config`. -/
structure iss_config_t where
  debug_handler : Nat
  deriving DecidableEq, Repr

/-- A call into a collaborator (port, timing, prefetcher) that is not embedded; calls are
recorded in the order they are made. -/
inductive ext_call where
  | irq_ack_itf_sync (irq : Int)
  | stall_insn_dependency_account (cycles : Int)
  | prefetcher_fetch (insn : Option iss_insn_t)
  | clock_retain
  | clock_release
  | halt_status_itf_sync (halted : Bool)
  | gdbserver_signal
  | insn_exec_profiling
  | insn_exec (insn : Option iss_insn_t)
  | insn_account
  | insn_exec_power (insn : Option iss_insn_t)
  | insn_exec_fast (insn : Option iss_insn_t)
  | insn_terminate
  | prefetcher_flush
  | gdbserver_enable_all_breakpoints
  | data_req_aligned (addr : Nat) (data_ptr : Nat) (size : Int) (is_write : Bool)
  deriving DecidableEq, Repr

/-- The core `Iss`, as far as the interrupt path and the execution loop read or write it,
together with the record `calls` of what it asked of its collaborators. The flag
`halt_status_itf_bound` tells whether the port `halt_status` is connected. -/
structure Iss where
  exec : Exec
  decode : Decode
  irq : Irq
  csr : Csr
  state : State
  config : iss_config_t
  calls : List ext_call
  timing : Timing
  dbgunit : DbgUnit
  gdbserver : Gdbserver
  step_mode : Bool
  do_step : Bool
  halted : Bool
  hit_reg : Nat
  halt_status_itf_bound : Bool
  elw_stalled : Bool

/-- Modelled from the spec: `Exec::switch_to_full_mode` is defined in the Exec header;
it switches the loop back to the slow handler, which checks for pending interrupts. -/
def Exec.switch_to_full_mode (s : Iss) : Iss :=
  { s with exec.instr_event := instr_event_meth.exec_instr_check_all }

/-! ## irq_external.cpp -/

/-- Method `Irq::mret_handle`: returns the pointer it hands back and the new state. -/
def Irq.mret_handle (INSN_PAGE_BITS : Nat) (s : Iss) : Option iss_insn_t × Iss :=
  let s1 := Exec.switch_to_full_mode s
  let s2 : Iss := { s1 with irq.irq_enable := s1.irq.saved_irq_enable }
  let s3 : Iss := { s2 with csr.mcause := 0 }
  let r := insn_cache_get INSN_PAGE_BITS s3.decode.insn_cache s3.csr.epc
  (r.1, { s3 with decode.insn_cache := r.2 })

/-- Method `Irq::dret_handle`. -/
def Irq.dret_handle (INSN_PAGE_BITS : Nat) (s : Iss) : Option iss_insn_t × Iss :=
  let s1 := Exec.switch_to_full_mode s
  let s2 : Iss := { s1 with irq.irq_enable := s1.irq.debug_saved_irq_enable }
  let s3 : Iss := { s2 with state.debug_mode := false }
  let r := insn_cache_get INSN_PAGE_BITS s3.decode.insn_cache s3.csr.depc
  (r.1, { s3 with decode.insn_cache := r.2 })

/-- Method `Irq::check`: the value returned and the new state, or `none` when
`current_insn->addr` is read through a null `current_insn`. Trace messages are left out. -/
def Irq.check (s : Iss) : Option (Int × Iss) :=
  if s.irq.req_debug = true ∧ s.state.debug_mode = false then
    match s.exec.current_insn with
    | none => none
    | some insn =>
      let s1 : Iss := { s with state.debug_mode := true }
      let s2 : Iss := { s1 with csr.depc := insn.addr }
      let s3 : Iss := { s2 with irq.debug_saved_irq_enable := s2.irq.irq_enable }
      let s4 : Iss := { s3 with irq.irq_enable := 0 }
      let s5 : Iss := { s4 with irq.req_debug := false }
      let s6 : Iss := { s5 with exec.current_insn := s5.irq.debug_handler }
      some (1, s6)
  else
    let req_irq := s.irq.req_irq
    if req_irq ≠ -1 ∧ s.irq.irq_enable ≠ 0 then
      match s.exec.current_insn with
      | none => none
      | some insn =>
        let s1 : Iss := { s with csr.epc := insn.addr }
        let s2 : Iss := { s1 with irq.saved_irq_enable := s1.irq.irq_enable }
        let s3 : Iss := { s2 with irq.irq_enable := 0 }
        let s4 : Iss := { s3 with irq.req_irq := -1 }
        let s5 : Iss := { s4 with exec.current_insn := s4.irq.vectors req_irq }
        let s6 : Iss := { s5 with csr.mcause := (1 <<< 31) ||| to_uim req_irq }
        let s7 : Iss := { s6 with calls := s6.calls ++ [ext_call.irq_ack_itf_sync req_irq] }
        let s8 : Iss :=
          { s7 with calls := s7.calls ++ [ext_call.stall_insn_dependency_account 4] }
        let s9 : Iss :=
          { s8 with calls := s8.calls ++ [ext_call.prefetcher_fetch s8.exec.current_insn] }
        some (1, s9)
    else
      some (0, s)

/-- Method `Irq::build`: the loop clears the slots 0 to 31 of the table. -/
def Irq.build (s : Iss) : Iss :=
  { s with irq.vectors := fun i => if 0 ≤ i ∧ i < 32 then none else s.irq.vectors i }

/-- A loop of `Irq::vector_table_set`: for `n` slots starting at slot `i`, the slot gets
`insn_cache_get(&iss, base + i * 4)`. -/
def Irq.vector_table_fill (INSN_PAGE_BITS : Nat) (base : Nat) : Nat → Nat → Iss → Iss
  | 0, _, s => s
  | n + 1, i, s =>
    let r := insn_cache_get INSN_PAGE_BITS s.decode.insn_cache ((base + i * 4) % 2 ^ 32)
    let s1 : Iss := { s with decode.insn_cache := r.2 }
    let s2 : Iss :=
      { s1 with irq.vectors := fun j => if j = (i : Int) then r.1 else s1.irq.vectors j }
    Irq.vector_table_fill INSN_PAGE_BITS base n (i + 1) s2

/-- Method `Irq::vector_table_set`: the loop over the slots 0 to 31, the loop over the
slots 32 to 34, then the assignment of `vector_base`. -/
def Irq.vector_table_set (INSN_PAGE_BITS : Nat) (s : Iss) (base : Nat) : Iss :=
  let s1 := Irq.vector_table_fill INSN_PAGE_BITS base 32 0 s
  let s2 := Irq.vector_table_fill INSN_PAGE_BITS base 3 32 s1
  { s2 with irq.vector_base := base }

/-- Method `Irq::cache_flush`. -/
def Irq.cache_flush (INSN_PAGE_BITS : Nat) (s : Iss) : Iss :=
  let s1 := Irq.vector_table_set INSN_PAGE_BITS s s.irq.vector_base
  let r := insn_cache_get INSN_PAGE_BITS s1.decode.insn_cache s1.config.debug_handler
  let s2 : Iss := { s1 with decode.insn_cache := r.2 }
  { s2 with irq.debug_handler := r.1 }

/-- Method `Irq::reset`; the argument `active` is not used by the method. -/
def Irq.reset (INSN_PAGE_BITS : Nat) (s : Iss) (_active : Bool) : Iss :=
  let s1 : Iss := { s with state.elw_interrupted := 0 }
  let s2 : Iss := { s1 with irq.vector_base := 0 }
  let s3 : Iss := { s2 with irq.irq_enable := 0 }
  let s4 : Iss := { s3 with irq.saved_irq_enable := 0 }
  let s5 : Iss := { s4 with irq.req_irq := -1 }
  let s6 : Iss := { s5 with irq.req_debug := false }
  let r := insn_cache_get INSN_PAGE_BITS s6.decode.insn_cache s6.config.debug_handler
  let s7 : Iss := { s6 with decode.insn_cache := r.2 }
  { s7 with irq.debug_handler := r.1 }

/-! ## exceptions.hpp -/

/-- Function `iss_except_raise`. The flag `PRIV_1_10` tells which side of the conditional
compilation is built and `ISS_EXCEPT_DEBUG` is the identifier of the debug exception; both
come from the build and are parameters. The result is `none` when `current_insn->addr` is
read through a null `current_insn`, and otherwise the pointer returned and the new state.
The pointer returned is `some p` for a pointer `p` (`p = none` being NULL), and `none` when
the slot `32 + id` lies outside the 35 slots of `vectors`: the read has no defined value
then, and the state given is the one reached before the read, with the context saved. -/
def iss_except_raise (PRIV_1_10 : Bool) (ISS_EXCEPT_DEBUG : Int) (INSN_PAGE_BITS : Nat)
    (s : Iss) (id : Int) : Option (Option (Option iss_insn_t) × Iss) :=
  match s.exec.current_insn with
  | none => none
  | some cur =>
    if PRIV_1_10 = true then
      if id = ISS_EXCEPT_DEBUG then
        let s1 : Iss := { s with csr.depc := cur.addr }
        let s2 : Iss := { s1 with irq.debug_saved_irq_enable := s1.irq.irq_enable }
        let s3 : Iss := { s2 with irq.irq_enable := 0 }
        some (some s3.irq.debug_handler, s3)
      else
        let s1 : Iss := { s with csr.epc := cur.addr }
        let s2 : Iss := { s1 with irq.saved_irq_enable := s1.irq.irq_enable }
        let s3 : Iss := { s2 with irq.irq_enable := 0 }
        let s4 : Iss := { s3 with csr.mcause := 0xb }
        match s4.irq.vectors 0 with
        | some insn => some (some (some insn), s4)
        | none =>
          let r := insn_cache_get INSN_PAGE_BITS s4.decode.insn_cache 0
          some (some r.1, { s4 with decode.insn_cache := r.2 })
    else
      let s1 : Iss := { s with csr.epc := cur.addr }
      let s2 : Iss := { s1 with irq.saved_irq_enable := s1.irq.irq_enable }
      let s3 : Iss := { s2 with irq.irq_enable := 0 }
      let s4 : Iss := { s3 with csr.mcause := 0xb }
      if 0 ≤ 32 + id ∧ 32 + id < 35 then
        match s4.irq.vectors (32 + id) with
        | some insn => some (some (some insn), s4)
        | none =>
          let r := insn_cache_get INSN_PAGE_BITS s4.decode.insn_cache 0
          some (some r.1, { s4 with decode.insn_cache := r.2 })
      else
        some (none, s4)

/-! ## exec_inorder.cpp -/

/-- The halt cause `HALT_CAUSE_STEP` (defined next to `HALT_CAUSE_HALT` in iss_wrapper.cpp). -/
def HALT_CAUSE_STEP : Int := 15

/-- The halt cause `HALT_CAUSE_HALT`. -/
def HALT_CAUSE_HALT : Int := 15

/-- Modelled from the spec: `DbgUnit::set_halt_mode` belongs to the debug unit, which is not
embedded; it is taken to act as `iss_wrapper::set_halt_mode`, the same method of the legacy
wrapper: record the cause, retain or release the clock on a change of `halted`, store
`halted` and report it on the port `halt_status` when that port is connected. -/
def DbgUnit.set_halt_mode (s : Iss) (halted : Bool) (cause : Int) : Iss :=
  let s1 : Iss := { s with dbgunit.halt_cause := cause }
  let s2 : Iss :=
    if s1.halted = true ∧ halted = false then
      { s1 with calls := s1.calls ++ [ext_call.clock_release] }
    else if s1.halted = false ∧ halted = true then
      { s1 with calls := s1.calls ++ [ext_call.clock_retain] }
    else s1
  let s3 : Iss := { s2 with halted := halted }
  if s3.halt_status_itf_bound = true then
    { s3 with calls := s3.calls ++ [ext_call.halt_status_itf_sync s3.halted] }
  else s3

/-- Method `Exec::reset`. -/
def Exec.reset (s : Iss) (_active : Bool) : Iss :=
  { s with exec.clock_active := false }

/-- Method `Exec::dbg_unit_step_check`. -/
def Exec.dbg_unit_step_check (s : Iss) : Iss :=
  if s.step_mode = true ∧ s.state.debug_mode = false then
    let s1 : Iss := { s with do_step := false }
    let s2 : Iss := { s1 with hit_reg := s1.hit_reg ||| 1 }
    if s2.gdbserver.gdbserver = true then
      let s3 : Iss := { s2 with halted := true }
      { s3 with calls := s3.calls ++ [ext_call.gdbserver_signal] }
    else
      DbgUnit.set_halt_mode s2 true HALT_CAUSE_STEP
  else s

/-- Method `Exec::pc_set`. -/
def Exec.pc_set (INSN_PAGE_BITS : Nat) (s : Iss) (value : Nat) : Iss :=
  let r := insn_cache_get INSN_PAGE_BITS s.decode.insn_cache value
  let s1 : Iss := { s with decode.insn_cache := r.2 }
  let s2 : Iss := { s1 with exec.current_insn := r.1 }
  { s2 with calls := s2.calls ++ [ext_call.prefetcher_fetch s2.exec.current_insn] }

/-- Modelled from the spec: `Exec::stalled_dec` is defined in the Exec header; the spec has
the rising edge of `fetchen` unstall the core by decrementing the stall count. -/
def Exec.stalled_dec (s : Iss) : Iss := { s with exec.stalled := s.exec.stalled - 1 }

/-- Modelled from the spec: `Exec::stalled_inc` is defined in the Exec header; the falling
edge of `fetchen` stalls the core by incrementing the stall count. -/
def Exec.stalled_inc (s : Iss) : Iss := { s with exec.stalled := s.exec.stalled + 1 }

/-- Method `Exec::fetchen_sync`. -/
def Exec.fetchen_sync (INSN_PAGE_BITS : Nat) (s : Iss) (active : Bool) : Iss :=
  let old_val := s.exec.fetch_enable_reg
  let s1 : Iss := { s with exec.fetch_enable_reg := active }
  if old_val = false ∧ active = true then
    let s2 := Exec.stalled_dec s1
    Exec.pc_set INSN_PAGE_BITS s2 ((s2.exec.bootaddr_reg + s2.exec.bootaddr_offset) % 2 ^ 32)
  else if old_val = true ∧ active = false then
    Exec.stalled_inc s1
  else s1

/-- Method `Exec::bootaddr_sync`: the mask `~((1 << 8) - 1)` is the `int` -256, converted
to the unsigned type of the register value. -/
def Exec.bootaddr_sync (INSN_PAGE_BITS : Nat) (s : Iss) (value : Nat) : Iss :=
  let s1 : Iss := { s with exec.bootaddr_reg := value % 2 ^ 32 }
  Irq.vector_table_set INSN_PAGE_BITS s1
    (s1.exec.bootaddr_reg &&& to_uim (sim_not ((1 <<< 8) - 1)))

/-- The entry of `Exec::exec_instr_check_all` up to the call of `Irq::check`: the loop event
is rebound to the fast handler when `can_switch_to_fast_mode` allows it, and the profiling
hook runs. The parameter stands for the method of that name of the Exec header. -/
def Exec.slow_path_entry (can_switch_to_fast_mode : Iss → Bool) (s : Iss) : Iss :=
  let s1 : Iss :=
    if can_switch_to_fast_mode s = true then
      { s with exec.instr_event := instr_event_meth.exec_instr }
    else s
  { s1 with calls := s1.calls ++ [ext_call.insn_exec_profiling] }

/-- The block of `Exec::exec_instr_check_all` that executes one instruction: run the
handler of `current_insn`, make its result the new `current_insn`, remember the old one in
`prev_insn`, ask the prefetcher for the new one and account one instruction. The parameter
`insn_exec` stands for the method of that name of the Exec header. -/
def Exec.exec_one (insn_exec : Iss → Option iss_insn_t → Option iss_insn_t × Iss) (s : Iss) :
    Iss :=
  let insn := s.exec.current_insn
  let t0 : Iss := { s with calls := s.calls ++ [ext_call.insn_exec insn] }
  let r := insn_exec t0 insn
  let t1 : Iss := { r.2 with exec.current_insn := r.1 }
  let t2 : Iss := { t1 with exec.prev_insn := insn }
  let t3 : Iss :=
    { t2 with calls := t2.calls ++ [ext_call.prefetcher_fetch t2.exec.current_insn] }
  { t3 with calls := t3.calls ++ [ext_call.insn_account] }

/-- Method `Exec::exec_instr_check_all`, the slow-path handler. The result is `none` when
`Irq::check` reads through a null `current_insn`. Trace messages are left out. -/
def Exec.exec_instr_check_all (can_switch_to_fast_mode : Iss → Bool)
    (insn_exec : Iss → Option iss_insn_t → Option iss_insn_t × Iss) (s : Iss) : Option Iss :=
  if s.timing.stall_cycles = 0 then
    let s2 := Exec.slow_path_entry can_switch_to_fast_mode s
    let insn := s2.exec.current_insn
    match Irq.check s2 with
    | none => none
    | some (fired, s3) =>
      let s4 : Iss :=
        if fired = 0 ∧ s3.exec.stalled = 0 then Exec.exec_one insn_exec s3 else s3
      let s5 : Iss := { s4 with calls := s4.calls ++ [ext_call.insn_exec_power insn] }
      some (Exec.dbg_unit_step_check s5)
  else
    some { s with timing.stall_cycles := s.timing.stall_cycles - 1 }

/-- Method `Exec::exec_instr`, the fast handler. The parameter `insn_exec_fast` stands for
the method of that name of the Exec header, which runs the handler of the instruction it
is given; the call is recorded with the pointer handed over. Trace messages are left out. -/
def Exec.exec_instr (insn_exec_fast : Iss → Option iss_insn_t → Option iss_insn_t × Iss)
    (s : Iss) : Iss :=
  if s.timing.stall_cycles = 0 then
    let s1 : Iss := { s with calls := s.calls ++ [ext_call.insn_exec_profiling] }
    let insn := s1.exec.current_insn
    let t0 : Iss := { s1 with calls := s1.calls ++ [ext_call.insn_exec_fast insn] }
    let r := insn_exec_fast t0 insn
    let t1 : Iss := { r.2 with exec.current_insn := r.1 }
    let t2 : Iss := { t1 with exec.prev_insn := insn }
    let t3 : Iss :=
      { t2 with calls := t2.calls ++ [ext_call.prefetcher_fetch t2.exec.current_insn] }
    { t3 with calls := t3.calls ++ [ext_call.insn_exec_power insn] }
  else
    { s with timing.stall_cycles := s.timing.stall_cycles - 1 }

/-! ## irq_external.cpp: WFI and the request line -/

/-- Modelled from the spec: `Exec::insn_stall` is defined in the Exec header; the spec has
`wfi_handle` stall the loop, which is the increment of the stall count. -/
def Exec.insn_stall (s : Iss) : Iss := Exec.stalled_inc s

/-- Modelled from the spec: `Exec::insn_terminate` is defined in the Exec header; the spec
gives it no effect on the state read here, and the call is recorded. -/
def Exec.insn_terminate (s : Iss) : Iss :=
  { s with calls := s.calls ++ [ext_call.insn_terminate] }

/-- Method `Irq::wfi_handle`. -/
def Irq.wfi_handle (s : Iss) : Iss :=
  if s.irq.req_irq = -1 then
    let s1 : Iss := { s with exec.wfi := true }
    Exec.insn_stall s1
  else s

/-- Method `Irq::elw_irq_unstall`. -/
def Irq.elw_irq_unstall (s : Iss) : Iss :=
  let s1 : Iss := { s with exec.current_insn := s.state.elw_insn }
  { s1 with state.elw_interrupted := 1 }

/-- Method `Irq::irq_req_sync`. -/
def Irq.irq_req_sync (s : Iss) (irq : Int) : Iss :=
  let s1 : Iss := { s with irq.req_irq := irq }
  let s2 : Iss :=
    if irq ≠ -1 ∧ s1.exec.wfi = true then
      let t1 : Iss := { s1 with exec.wfi := false }
      let t2 := Exec.stalled_dec t1
      Exec.insn_terminate t2
    else s1
  let s3 : Iss :=
    if s2.elw_stalled = true ∧ irq ≠ -1 ∧ s2.irq.irq_enable ≠ 0 then Irq.elw_irq_unstall s2
    else s2
  Exec.switch_to_full_mode s3

/-! ## insn_cache.cpp: flushing -/

/-- Function `iss_cache_vflush`, built without `CONFIG_GVSOC_ISS_UNTIMED_LOOP`: it clears
the current-page shortcut. -/
def iss_cache_vflush (s : Iss) : Iss :=
  { s with decode.insn_cache.current_insn_page := none }

/-- Function `flush_cache`: the prefetcher is flushed, every page is deleted and the map
cleared, the shortcut is cleared by `iss_cache_vflush`, and the decoder tables are deleted
and their list cleared. -/
def flush_cache (s : Iss) : Iss :=
  let s1 : Iss := { s with calls := s.calls ++ [ext_call.prefetcher_flush] }
  let s2 : Iss := { s1 with decode.insn_cache.pages := [] }
  let s3 := iss_cache_vflush s2
  { s3 with decode.insn_tables := [] }

/-- Function `iss_cache_flush`. -/
def iss_cache_flush (INSN_PAGE_BITS : Nat) (s : Iss) : Iss :=
  let s1 := flush_cache s
  let s2 : Iss := { s1 with calls := s1.calls ++ [ext_call.gdbserver_enable_all_breakpoints] }
  Irq.cache_flush INSN_PAGE_BITS s2

/-- Method `Decode::flush_cache_sync`; the argument `active` is not used by the method. -/
def Decode.flush_cache_sync (INSN_PAGE_BITS : Nat) (s : Iss) (_active : Bool) : Iss :=
  iss_cache_flush INSN_PAGE_BITS s

/-! ## iss_wrapper.cpp: the legacy wrapper -/

/-- The clock events created by `iss_wrapper::build`: the event bound to `exec_first_instr`
(the first value of `current_event`), `instr_event`, `check_all_event` and
`misaligned_event`. -/
inductive wrapper_event where
  | first_instr_event
  | instr_event
  | check_all_event
  | misaligned_event
  deriving DecidableEq, Repr

/-- Data members of class `iss_wrapper`. Modelled from the spec: the legacy core record
`cpu` is declared in headers that are not embedded; it is taken to be the core state `Iss`
of the spec's data model, `cpu.current_insn` and `cpu.prev_insn` being the instruction
pointers of `cpu.exec`. The list `queue` holds the enqueued clock events with their delay
in cycles; `calls` records the calls to the clock, to the port `halt_status` and to the
data port; `misaligned_data` is the buffer pointer as an address and `io_req_latency` the
latency of the member `io_req`. -/
structure iss_wrapper where
  cpu : Iss
  bootaddr_reg : Nat
  bootaddr_offset : Nat
  fetch_enable_reg : Bool
  is_active_reg : Bool
  stalled : Bool
  wfi : Bool
  misaligned_access : Bool
  halted : Bool
  step_mode : Bool
  do_step : Bool
  irq_req : Int
  wakeup_latency : Int
  misaligned_latency : Int
  hit_reg : Nat
  halt_cause : Int
  npc : Nat
  ppc : Nat
  current_event : wrapper_event
  queue : List (wrapper_event × Int)
  halt_status_itf_bound : Bool
  calls : List ext_call
  misaligned_size : Int
  misaligned_data : Nat
  misaligned_addr : Nat
  misaligned_is_write : Bool
  io_req_latency : Int

/-- Framework call `event_enqueue(event, cycles)`. -/
def iss_wrapper.event_enqueue (w : iss_wrapper) (event : wrapper_event) (cycles : Int) :
    iss_wrapper :=
  { w with queue := w.queue ++ [(event, cycles)] }

/-- Framework query `event->is_enqueued()`. -/
def iss_wrapper.is_enqueued (w : iss_wrapper) (event : wrapper_event) : Bool :=
  w.queue.any (fun e => decide (e.1 = event))

/-- Framework call `event_cancel(event)`. -/
def iss_wrapper.event_cancel (w : iss_wrapper) (event : wrapper_event) : iss_wrapper :=
  { w with queue := w.queue.filter (fun e => decide (e.1 ≠ event)) }

/-- Modelled from the spec: `iss_wrapper::enqueue_next_instr` is defined in the wrapper
header; it re-enqueues the loop event, that is `current_event`, the given number of cycles
ahead. -/
def iss_wrapper.enqueue_next_instr (w : iss_wrapper) (cycles : Int) : iss_wrapper :=
  iss_wrapper.event_enqueue w w.current_event cycles

/-- Method `iss_wrapper::set_halt_mode`. -/
def iss_wrapper.set_halt_mode (w : iss_wrapper) (halted : Bool) (cause : Int) : iss_wrapper :=
  let w1 : iss_wrapper := { w with halt_cause := cause }
  let w2 : iss_wrapper :=
    if w1.halted = true ∧ halted = false then
      { w1 with calls := w1.calls ++ [ext_call.clock_release] }
    else if w1.halted = false ∧ halted = true then
      { w1 with calls := w1.calls ++ [ext_call.clock_retain] }
    else w1
  let w3 : iss_wrapper := { w2 with halted := halted }
  if w3.halt_status_itf_bound = true then
    { w3 with calls := w3.calls ++ [ext_call.halt_status_itf_sync w3.halted] }
  else w3

/-- Method `iss_wrapper::halt_core`; `none` when `cpu.current_insn` is null. -/
def iss_wrapper.halt_core (w : iss_wrapper) : Option iss_wrapper :=
  let w1 : iss_wrapper :=
    match w.cpu.exec.prev_insn with
    | none => { w with ppc := 0 }
    | some prev => { w with ppc := prev.addr }
  match w1.cpu.exec.current_insn with
  | none => none
  | some cur => some { w1 with npc := cur.addr }

/-- The update of the cycle counter in `iss_wrapper::check_state`:
`if (pcmr & CSR_PCMR_ACTIVE && pcer & (1 << CSR_PCER_CYCLES)) pccr[CSR_PCER_CYCLES] += n`.
The two constants come from the CSR header and are parameters. -/
def pccr_cycles_account (CSR_PCMR_ACTIVE CSR_PCER_CYCLES : Nat) (csr : Csr) (n : Int) : Csr :=
  if csr.pcmr &&& CSR_PCMR_ACTIVE ≠ 0 ∧ csr.pcer &&& (1 <<< CSR_PCER_CYCLES) ≠ 0 then
    { csr with
      pccr := csr.pccr.set CSR_PCER_CYCLES
        (to_uim ((csr.pccr.getD CSR_PCER_CYCLES 0 : Nat) + n)) }
  else csr

/-- Method `iss_wrapper::check_state`; `none` when `halt_core` reads through a null
`cpu.current_insn`. -/
def iss_wrapper.check_state (CSR_PCMR_ACTIVE CSR_PCER_CYCLES : Nat) (w : iss_wrapper) :
    Option iss_wrapper :=
  let event := w.current_event
  let w0 : iss_wrapper := { w with current_event := wrapper_event.check_all_event }
  if w0.is_active_reg = false then
    if w0.halted = false ∧ w0.fetch_enable_reg = true ∧ w0.stalled = false ∧
        (w0.wfi = false ∨ w0.irq_req ≠ -1) then
      let w1 : iss_wrapper := { w0 with wfi := false }
      let w2 : iss_wrapper := { w1 with is_active_reg := true }
      let w3 : iss_wrapper := if w2.step_mode = true then { w2 with do_step := true } else w2
      let w4 := iss_wrapper.enqueue_next_instr w3 (1 + w3.wakeup_latency)
      let w5 : iss_wrapper :=
        { w4 with
          cpu.csr := pccr_cycles_account CSR_PCMR_ACTIVE CSR_PCER_CYCLES w4.cpu.csr
            (1 + w4.wakeup_latency) }
      some { w5 with wakeup_latency := 0 }
    else some w0
  else
    let r : Option iss_wrapper :=
      if w0.halted = true ∧ w0.do_step = false then
        iss_wrapper.halt_core { w0 with is_active_reg := false }
      else if w0.wfi = true then
        if w0.irq_req = -1 then some { w0 with is_active_reg := false }
        else some { w0 with wfi := false }
      else some w0
    match r with
    | none => none
    | some w1 =>
      if w1.is_active_reg = false then
        if iss_wrapper.is_enqueued w1 event = true then
          some (iss_wrapper.event_cancel w1 event)
        else some w1
      else some w1

/-- Modelled from the spec: `iss_irq_set_vector_table` belongs to the legacy core API, which
is not embedded; it is taken to be the spec's `vector_table_set(base)`, embedded as
`Irq.vector_table_set`. -/
def iss_irq_set_vector_table (INSN_PAGE_BITS : Nat) (w : iss_wrapper) (base : Nat) :
    iss_wrapper :=
  { w with cpu := Irq.vector_table_set INSN_PAGE_BITS w.cpu base }

/-- Modelled from the spec: `iss_pc_set` belongs to the legacy core API, which is not
embedded; it is taken to set the program counter as `Exec::pc_set` does. -/
def iss_pc_set (INSN_PAGE_BITS : Nat) (w : iss_wrapper) (value : Nat) : iss_wrapper :=
  { w with cpu := Exec.pc_set INSN_PAGE_BITS w.cpu (value % 2 ^ 32) }

/-- Method `iss_wrapper::bootaddr_sync`. -/
def iss_wrapper.bootaddr_sync (INSN_PAGE_BITS : Nat) (w : iss_wrapper) (value : Nat) :
    iss_wrapper :=
  let w1 : iss_wrapper := { w with bootaddr_reg := value % 2 ^ 32 }
  iss_irq_set_vector_table INSN_PAGE_BITS w1 w1.bootaddr_reg

/-- Method `iss_wrapper::reset`. The parameter `iss_reset` stands for the function of that
name of the legacy core API, used on the active edge; the trace events reset there are
left out. -/
def iss_wrapper.reset (CSR_PCMR_ACTIVE CSR_PCER_CYCLES INSN_PAGE_BITS : Nat)
    (iss_reset : iss_wrapper → iss_wrapper) (w : iss_wrapper) (active : Bool) :
    Option iss_wrapper :=
  if active = true then
    let w1 : iss_wrapper := { w with irq_req := -1 }
    let w2 : iss_wrapper := { w1 with wakeup_latency := 0 }
    some (iss_reset w2)
  else
    let w1 := iss_pc_set INSN_PAGE_BITS w (w.bootaddr_reg + 0x80)
    let w2 := iss_irq_set_vector_table INSN_PAGE_BITS w1 w1.bootaddr_reg
    iss_wrapper.check_state CSR_PCMR_ACTIVE CSR_PCER_CYCLES w2

/-- The body of the macro `EXEC_INSTR_COMMON`; `func` is the step function handed to it,
which returns the cycle count. Trace and power events are left out. -/
def iss_wrapper.exec_instr_common (func : iss_wrapper → Int × iss_wrapper) (w : iss_wrapper) :
    iss_wrapper :=
  let r := func w
  let cycles := r.1
  let w1 := r.2
  if cycles ≥ 0 then
    iss_wrapper.enqueue_next_instr w1 cycles
  else if w1.misaligned_access = true then
    iss_wrapper.event_enqueue w1 wrapper_event.misaligned_event w1.misaligned_latency
  else
    let w2 : iss_wrapper := { w1 with is_active_reg := false }
    { w2 with stalled := true }

/-- Method `iss_wrapper::exec_instr_check_all`. The parameters stand for the functions
`iss_exec_switch_to_fast` and `iss_exec_step_nofetch_perf` of the legacy core API. -/
def iss_wrapper.exec_instr_check_all (CSR_PCMR_ACTIVE CSR_PCER_CYCLES : Nat)
    (iss_exec_switch_to_fast : iss_wrapper → Bool)
    (iss_exec_step_nofetch_perf : iss_wrapper → Int × iss_wrapper) (w : iss_wrapper) :
    Option iss_wrapper :=
  let w1 : iss_wrapper :=
    if iss_exec_switch_to_fast w = true then
      { w with current_event := wrapper_event.instr_event }
    else w
  let w2 := iss_wrapper.exec_instr_common iss_exec_step_nofetch_perf w1
  if w2.step_mode = true then
    let w3 : iss_wrapper := { w2 with do_step := false }
    let w4 : iss_wrapper := { w3 with hit_reg := w3.hit_reg ||| 1 }
    let w5 := iss_wrapper.set_halt_mode w4 true HALT_CAUSE_HALT
    iss_wrapper.check_state CSR_PCMR_ACTIVE CSR_PCER_CYCLES w5
  else some w2

/-! ## iss_wrapper.cpp: misaligned accesses -/

/-- Modelled from the spec: the status codes `vp::io_req_status_e` of the framework, which
the spec lists as `OK | PENDING | INVALID`; the framework also has `DENIED`. -/
inductive io_req_status where
  | IO_REQ_OK
  | IO_REQ_INVALID
  | IO_REQ_DENIED
  | IO_REQ_PENDING
  deriving DecidableEq, Repr

/-- Modelled from the spec: the macro `ADDR_MASK` is defined in the wrapper header; it
clears the address bits below the register width in bytes, `~(ISS_REG_WIDTH / 8 - 1)`,
which is `~3` for the 32-bit core, converted to the unsigned address type. -/
def ADDR_MASK : Nat := to_uim (sim_not (ISS_REG_WIDTH / 8 - 1))

/-- The split computed at the head of `iss_wrapper::data_misaligned_req`: the values of
`addr1`, `size0` and `size1`. The sum `addr + size - 1` and the difference `addr1 - addr`
are taken in the unsigned 32-bit address type, and the difference is then read as `int`. -/
def misaligned_split (addr : Nat) (size : Int) : Nat × Int × Int :=
  let addr1 : Nat := to_uim (((addr % 2 ^ 32 : Nat) : Int) + size - 1) &&& ADDR_MASK
  let size0 : Int := to_sim ((addr1 + 2 ^ 32 - addr % 2 ^ 32) % 2 ^ 32)
  let size1 : Int := size - size0
  (addr1, size0, size1)

/-- Method `iss_wrapper::data_misaligned_req`. The parameter stands for the method
`data_req_aligned` of the wrapper header, which performs one aligned access and returns its
status; the call is recorded before it is made. The value returned is `none` when control
reaches the end of the function without a `return` statement, which is what happens when
the first access does not return `IO_REQ_OK`. The trace event is left out. -/
def iss_wrapper.data_misaligned_req
    (data_req_aligned : iss_wrapper → Nat → Nat → Int → Bool → io_req_status × iss_wrapper)
    (w : iss_wrapper) (addr : Nat) (data_ptr : Nat) (size : Int) (is_write : Bool) :
    Option io_req_status × iss_wrapper :=
  let sp := misaligned_split addr size
  let addr1 := sp.1
  let size0 := sp.2.1
  let size1 := sp.2.2
  let w1 : iss_wrapper := { w with misaligned_access := true }
  let w2 : iss_wrapper := { w1 with misaligned_size := size1 }
  let w3 : iss_wrapper := { w2 with misaligned_data := ((data_ptr : Int) + size0).toNat }
  let w4 : iss_wrapper := { w3 with misaligned_addr := addr1 }
  let w5 : iss_wrapper := { w4 with misaligned_is_write := is_write }
  let w6 : iss_wrapper :=
    { w5 with calls := w5.calls ++ [ext_call.data_req_aligned addr data_ptr size0 is_write] }
  let r := data_req_aligned w6 addr data_ptr size0 is_write
  if r.1 = io_req_status.IO_REQ_OK then
    (some io_req_status.IO_REQ_PENDING,
      { r.2 with misaligned_latency := r.2.io_req_latency + 1 })
  else
    (none, r.2)

/-! ## iss_wrapper.cpp: the debug unit -/

/-- Modelled from the spec: the request `vp::io_req` of the framework, as far as
`dbg_unit_req` reads it: the offset `get_addr()`, the size `get_size()`, the direction
`get_is_write()`, and the register word `*(iss_reg_t *)data` held by the buffer. -/
structure io_req where
  addr : Nat
  data : Nat
  size : Nat
  (is_write : Bool)
  deriving DecidableEq, Repr

/-- The functions and the constant of the legacy core API that `dbg_unit_req` uses and that
are not part of the embedded sources; they are parameters. The two CSR accesses return the
error flag; the read takes the word in the buffer and returns the word it leaves there. -/
structure core_api where
  iss_csr_write : iss_wrapper → Nat → Nat → Bool × iss_wrapper
  iss_csr_read : iss_wrapper → Nat → Nat → Bool × Nat × iss_wrapper
  iss_set_reg : iss_wrapper → Int → Nat → iss_wrapper
  iss_get_reg : iss_wrapper → Int → Nat
  ISS_NB_REGS : Int

/-- Modelled from the spec: the legacy `iss_cache_flush(iss_t *)` is declared in headers
that are not embedded; it is taken to be the function `iss_cache_flush` of insn_cache.cpp
on the core record. -/
def iss_wrapper.iss_cache_flush (INSN_PAGE_BITS : Nat) (w : iss_wrapper) : iss_wrapper :=
  { w with cpu := Gvsoc.iss_cache_flush INSN_PAGE_BITS w.cpu }

/-- Method `iss_wrapper::dbg_unit_req`: the status returned, the register word in the
buffer afterwards, and the new state; `none` when `check_state` has none. Trace messages
and warnings are left out. -/
def iss_wrapper.dbg_unit_req (api : core_api)
    (CSR_PCMR_ACTIVE CSR_PCER_CYCLES INSN_PAGE_BITS : Nat) (w : iss_wrapper) (req : io_req) :
    Option (io_req_status × Nat × iss_wrapper) :=
  let offset := req.addr
  let data := req.data
  let size := req.size
  if size ≠ ISS_REG_WIDTH / 8 then some (io_req_status.IO_REQ_INVALID, data, w)
  else if offset ≥ 0x4000 then
    let offset := offset - 0x4000
    if size ≠ 4 then some (io_req_status.IO_REQ_INVALID, data, w)
    else if req.is_write = true then
      let r := api.iss_csr_write w (offset / 4) (data % 2 ^ 32)
      if r.1 = true then some (io_req_status.IO_REQ_INVALID, data, r.2)
      else some (io_req_status.IO_REQ_OK, data, r.2)
    else
      let r := api.iss_csr_read w (offset / 4) data
      if r.1 = true then some (io_req_status.IO_REQ_INVALID, r.2.1, r.2.2)
      else some (io_req_status.IO_REQ_OK, r.2.1, r.2.2)
  else if offset ≥ 0x2000 then
    if w.halted = false then some (io_req_status.IO_REQ_INVALID, data, w)
    else if offset = 0x2000 then
      if req.is_write = true then
        let w1 := iss_wrapper.iss_cache_flush INSN_PAGE_BITS w
        let w2 : iss_wrapper := { w1 with npc := data % 2 ^ 32 }
        let w3 := iss_pc_set INSN_PAGE_BITS w2 w2.npc
        let w4 : iss_wrapper := { w3 with wfi := false }
        match iss_wrapper.check_state CSR_PCMR_ACTIVE CSR_PCER_CYCLES w4 with
        | none => none
        | some w5 => some (io_req_status.IO_REQ_OK, data, w5)
      else some (io_req_status.IO_REQ_OK, w.npc, w)
    else if offset = 0x2004 then
      if req.is_write = true then some (io_req_status.IO_REQ_OK, data, w)
      else some (io_req_status.IO_REQ_OK, w.ppc, w)
    else some (io_req_status.IO_REQ_INVALID, data, w)
  else if offset ≥ 0x400 then
    let offset := offset - 0x400
    let reg_id : Int := ((offset / 4 : Nat) : Int)
    if w.halted = false then some (io_req_status.IO_REQ_INVALID, data, w)
    else if reg_id ≥ api.ISS_NB_REGS then some (io_req_status.IO_REQ_INVALID, data, w)
    else if req.is_write = true then
      some (io_req_status.IO_REQ_OK, data, api.iss_set_reg w reg_id (data % 2 ^ 32))
    else some (io_req_status.IO_REQ_OK, api.iss_get_reg w reg_id, w)
  else if offset < 0x80 then
    if offset = 0x00 then
      if req.is_write = true then
        let step_mode : Bool := decide ((data % 2 ^ 32) &&& 1 ≠ 0)
        let halt_mode : Bool := decide (((data % 2 ^ 32) >>> 16) &&& 1 ≠ 0)
        let w1 := iss_wrapper.set_halt_mode w halt_mode HALT_CAUSE_HALT
        let w2 : iss_wrapper := { w1 with step_mode := step_mode }
        match iss_wrapper.check_state CSR_PCMR_ACTIVE CSR_PCER_CYCLES w2 with
        | none => none
        | some w3 => some (io_req_status.IO_REQ_OK, data, w3)
      else
        some (io_req_status.IO_REQ_OK,
          ((if w.halted = true then 1 else 0) <<< 16) ||| (if w.step_mode = true then 1 else 0),
          w)
    else if offset = 0x04 then
      if req.is_write = true then
        some (io_req_status.IO_REQ_OK, data, { w with hit_reg := data % 2 ^ 32 })
      else some (io_req_status.IO_REQ_OK, w.hit_reg, w)
    else if offset = 0x0C then
      if req.is_write = true then some (io_req_status.IO_REQ_INVALID, data, w)
      else some (io_req_status.IO_REQ_OK, to_uim w.halt_cause, w)
    else some (io_req_status.IO_REQ_OK, data, w)
  else some (io_req_status.IO_REQ_INVALID, data, w)

/-! ## iss_wrapper.cpp: the interrupt request line -/

/-- Method `iss_wrapper::irq_check`. -/
def iss_wrapper.irq_check (w : iss_wrapper) : iss_wrapper :=
  { w with current_event := wrapper_event.check_all_event }

/-- Modelled from the spec: `iss_irq_req` belongs to the legacy core API, which is not
embedded; it is taken to be the spec's `irq_req_sync(irq)` of the interrupt component,
embedded as `Irq.irq_req_sync`, on the core record. -/
def iss_irq_req (w : iss_wrapper) (irq : Int) : iss_wrapper :=
  { w with cpu := Irq.irq_req_sync w.cpu irq }

/-- Method `iss_wrapper::irq_req_sync`; `none` when `check_state` has none. -/
def iss_wrapper.irq_req_sync (CSR_PCMR_ACTIVE CSR_PCER_CYCLES : Nat) (w : iss_wrapper)
    (irq : Int) : Option iss_wrapper :=
  let w1 : iss_wrapper := { w with irq_req := irq }
  let w2 := iss_wrapper.irq_check w1
  let w3 := iss_irq_req w2 irq
  let w4 : iss_wrapper := { w3 with wfi := false }
  iss_wrapper.check_state CSR_PCMR_ACTIVE CSR_PCER_CYCLES w4

/-! ## Auxiliary notions for the vector-table proofs -/

/-- The entry that `insn_cache_get_insn_from_cache` hands back for `vaddr` once the page of
`vaddr` is `page`: the slot `(vaddr - page base) >> 1` of the page. -/
def page_entry (INSN_PAGE_BITS : Nat) (page : iss_insn_page_t) (vaddr : Nat) :
    Option iss_insn_t :=
  page.insns.get?
    (((vaddr % 2 ^ 32 + 2 ^ 32 -
        ((((vaddr % 2 ^ 32) >>> INSN_PAGE_BITS) <<< INSN_PAGE_BITS) % 2 ^ 32) % 2 ^ 32)
      % 2 ^ 32) >>> 1)

/-- Slot `i` of the vector table is resolved for `base` in state `s`: the page of
`base + 4 * i` is in the cache and the slot points to the entry of that address. -/
def vector_resolved (INSN_PAGE_BITS : Nat) (s : Iss) (base i : Nat) : Prop :=
  ∃ page,
    s.decode.insn_cache.pages.lookup ((((base + i * 4) % 2 ^ 32) % 2 ^ 32) >>> INSN_PAGE_BITS)
      = some page ∧
    s.irq.vectors (i : Int) = page_entry INSN_PAGE_BITS page ((base + i * 4) % 2 ^ 32)

/-! ## Auxiliary notions for the cache proofs -/

/-- A call on the cache made between two flushes. -/
inductive cache_call where
  | page_get (paddr : Nat)
  | get_insn_from_cache (vaddr : Nat)
  deriving DecidableEq, Repr

/-- The cache after one call. -/
def cache_call.run (INSN_PAGE_BITS : Nat) (cache : iss_insn_cache_t) :
    cache_call → iss_insn_cache_t
  | cache_call.page_get paddr => (insn_cache_page_get INSN_PAGE_BITS cache paddr).2
  | cache_call.get_insn_from_cache vaddr =>
    (insn_cache_get_insn_from_cache INSN_PAGE_BITS cache vaddr).2

/-- The cache after a sequence of calls, made in order. -/
def cache_calls_run (INSN_PAGE_BITS : Nat) (cache : iss_insn_cache_t)
    (calls : List cache_call) : iss_insn_cache_t :=
  calls.foldl (cache_call.run INSN_PAGE_BITS) cache

/-- Every page of the cache is as `insn_cache_page_get` created it: the page of index `k`
holds the entries initialised from address `k << INSN_PAGE_BITS`. -/
def pages_fresh (INSN_PAGE_BITS : Nat) (cache : iss_insn_cache_t) : Prop :=
  ∀ k page, cache.pages.lookup k = some page →
    page.insns = insn_page_init (INSN_PAGE_SIZE INSN_PAGE_BITS) page.id
      ((k <<< INSN_PAGE_BITS) % 2 ^ 32)

/-! ## Auxiliary notions for the wrapper proofs -/

/-- A sequence of calls `set_halt_mode(h, cause)`, made in order. -/
def set_halt_mode_seq (w : iss_wrapper) (l : List (Bool × Int)) : iss_wrapper :=
  l.foldl (fun v p => iss_wrapper.set_halt_mode v p.1 p.2) w

/-- The number of `retain()` calls minus the number of `release()` calls in a record of
calls. -/
def clock_balance (calls : List ext_call) : Int :=
  (calls.count ext_call.clock_retain : Int) - (calls.count ext_call.clock_release : Int)

/-- The wake condition of `iss_wrapper::check_state`. -/
def wake_condition (w : iss_wrapper) : Prop :=
  w.halted = false ∧ w.fetch_enable_reg = true ∧ w.stalled = false ∧
    (w.wfi = false ∨ w.irq_req ≠ -1)

/-- Every page of the cache was allocated at or after allocation number `n`, and before
the current allocation count. -/
def pages_since (n : Nat) (cache : iss_insn_cache_t) : Prop :=
  n ≤ cache.allocated ∧
  ∀ k page, cache.pages.lookup k = some page → n ≤ page.id ∧ page.id < cache.allocated

/-- The pointer refers to an entry of a page that is in the cache: the cache maps some index
to the page allocation the pointer names, and that page holds the entry. -/
def insn_in_cache (cache : iss_insn_cache_t) (insn : iss_insn_t) : Prop :=
  ∃ k page, cache.pages.lookup k = some page ∧ page.id = insn.page ∧ insn ∈ page.insns

/-! ## Concrete states -/

/-- The state of the spec's WFI scenario when `Irq::check` runs: the core stands at the
instruction at `0x1C008100`, request 7 is latched, interrupts are enabled, no debug request
is pending, and the vector table has been resolved from base `0x1C008000`. -/
def scenario_irq7 : Iss :=
  { exec :=
      { current_insn := some { page := 0, addr := 0x1C008100 }
        prev_insn := none
        instr_event := instr_event_meth.exec_instr_check_all
        bootaddr_reg := 0x1C008080
        bootaddr_offset := 0x80
        clock_active := true
        fetch_enable_reg := true
        stalled := 0
        wfi := false }
    decode :=
      { insn_cache :=
          { pages := []
            current_insn_page := none
            current_insn_page_base := 0
            allocated := 1 }
        insn_tables := [] }
    irq :=
      { vectors := fun i =>
          if 0 ≤ i ∧ i < 35 then some { page := 0, addr := 0x1C008000 + 4 * i.toNat } else none
        irq_enable := 1
        saved_irq_enable := 0
        debug_saved_irq_enable := 0
        req_irq := 7
        req_debug := false
        vector_base := 0x1C008000
        debug_handler := some { page := 0, addr := 0x1C0080F0 } }
    csr := { epc := 0, depc := 0, mcause := 0, pcmr := 0, pcer := 0, pccr := [] }
    state := { debug_mode := false, elw_interrupted := 0, elw_insn := none }
    config := { debug_handler := 0x1C0080F0 }
    calls := []
    timing := { stall_cycles := 0 }
    dbgunit := { halt_cause := 0 }
    gdbserver := { gdbserver := false }
    step_mode := false
    do_step := false
    halted := false
    hit_reg := 0
    halt_status_itf_bound := true
    elw_stalled := false }

/-- The state `scenario_irq7` once the interrupt has been accepted. -/
def scenario_irq7_taken : Iss :=
  { scenario_irq7 with
    csr := { scenario_irq7.csr with epc := 0x1C008100, mcause := 0x80000007 }
    irq := { scenario_irq7.irq with saved_irq_enable := 1, irq_enable := 0, req_irq := -1 }
    exec := { scenario_irq7.exec with current_insn := some { page := 0, addr := 0x1C00801C } }
    calls := [ext_call.irq_ack_itf_sync 7, ext_call.stall_insn_dependency_account 4,
      ext_call.prefetcher_fetch (some { page := 0, addr := 0x1C00801C })] }

/-- The state `scenario_irq7_taken` after the handler has run up to its `mret` and a new
request 9 has been latched meanwhile. -/
def scenario_irq7_handler : Iss :=
  { scenario_irq7_taken with
    irq := { scenario_irq7_taken.irq with req_irq := 9 }
    exec :=
      { scenario_irq7_taken.exec with current_insn := some { page := 0, addr := 0x1C008204 } } }

/-- The state `scenario_irq7` with a debug request pending as well. -/
def scenario_debug : Iss :=
  { scenario_irq7 with irq := { scenario_irq7.irq with req_debug := true } }

/-- The state `scenario_irq7` after `Exec::bootaddr_sync(0x1C008080)` with pages of
`2 ^ 8` bytes: the vector table is resolved through the cache from base `0x1C008000`. -/
def scenario_booted : Iss := Exec.bootaddr_sync 8 scenario_irq7 0x1C008080

/-- The state `scenario_irq7` with fetch disabled, one stall pending and no current
instruction yet. -/
def scenario_fetch_off : Iss :=
  { scenario_irq7 with
    exec :=
      { scenario_irq7.exec with fetch_enable_reg := false, stalled := 1, current_insn := none } }

/-- The state `scenario_irq7` resumed for a single step: `step_mode` and `do_step` are set
while request 7 is pending and enabled. -/
def scenario_step_irq : Iss :=
  { scenario_irq7 with step_mode := true, do_step := true, hit_reg := 6 }

/-- The state `scenario_step_irq` without a pending request. -/
def scenario_step : Iss :=
  { scenario_step_irq with irq := { scenario_step_irq.irq with req_irq := -1 } }

/-- The state `scenario_step` with a GDB server attached and halt cause 0 recorded. -/
def scenario_step_gdb : Iss :=
  { scenario_step with gdbserver := { gdbserver := true } }

/-- An instruction handler for the concrete runs: it leaves the state alone and hands back
the entry two bytes further in the same page. -/
def insn_exec_next (s : Iss) (insn : Option iss_insn_t) : Option iss_insn_t × Iss :=
  (insn.map (fun i => { i with addr := i.addr + 2 }), s)

/-- A sleeping legacy wrapper around the core `scenario_irq7`: inactive, fetch enabled, not
halted, not stalled, no interrupt pending, wake-up latency 3, nothing enqueued. -/
def wrapper_idle : iss_wrapper :=
  { cpu := scenario_irq7
    bootaddr_reg := 0x1C008080
    bootaddr_offset := 0x80
    fetch_enable_reg := true
    is_active_reg := false
    stalled := false
    wfi := false
    misaligned_access := false
    halted := false
    step_mode := false
    do_step := false
    irq_req := -1
    wakeup_latency := 3
    misaligned_latency := 0
    hit_reg := 0
    halt_cause := 0
    npc := 0
    ppc := 0
    current_event := wrapper_event.instr_event
    queue := []
    halt_status_itf_bound := true
    calls := []
    misaligned_size := 0
    misaligned_data := 0
    misaligned_addr := 0
    misaligned_is_write := false
    io_req_latency := 0 }

/-- The wrapper `wrapper_idle` with `do_step` left set from an earlier step although
`step_mode` is clear. -/
def wrapper_stale_step : iss_wrapper := { wrapper_idle with do_step := true }

/-- A running wrapper that is halted while a step is in progress and has just executed a
`wfi` with no interrupt pending. -/
def wrapper_step_wfi : iss_wrapper :=
  { wrapper_idle with
    is_active_reg := true, halted := true, step_mode := true, do_step := true, wfi := true
    queue := [(wrapper_event.instr_event, 1)] }

/-- A running wrapper that is halted with no step in progress. -/
def wrapper_halted : iss_wrapper :=
  { wrapper_idle with
    is_active_reg := true, halted := true
    queue := [(wrapper_event.instr_event, 1)] }

/-- A step function for the concrete runs: one cycle, state unchanged. -/
def step_one_cycle (w : iss_wrapper) : Int × iss_wrapper := (1, w)

/-- The scenario state asleep in WFI: no request latched, `wfi` set and the loop stalled
once. -/
def scenario_wfi : Iss :=
  { scenario_irq7 with
    irq := { scenario_irq7.irq with req_irq := -1 }
    exec := { scenario_irq7.exec with wfi := true, stalled := 1 } }

/-- A data port for the concrete runs: every aligned access is refused. -/
def data_port_invalid (w : iss_wrapper) (_addr _data_ptr : Nat) (_size : Int)
    (_is_write : Bool) : io_req_status × iss_wrapper :=
  (io_req_status.IO_REQ_INVALID, w)

/-- A data port for the concrete runs: every aligned access is granted with latency 2. -/
def data_port_ok (w : iss_wrapper) (_addr _data_ptr : Nat) (_size : Int)
    (_is_write : Bool) : io_req_status × iss_wrapper :=
  (io_req_status.IO_REQ_OK, { w with io_req_latency := 2 })

/-- A running wrapper: `wrapper_idle` once woken. -/
def wrapper_running : iss_wrapper :=
  { wrapper_idle with is_active_reg := true, queue := [] }

/-- A core API for the concrete runs: 32 registers that read as 0, writes that leave the
state alone, and CSR accesses that report an error. -/
def api_scenario : core_api :=
  { iss_csr_write := fun w _ _ => (true, w)
    iss_csr_read := fun w _ data => (true, data, w)
    iss_set_reg := fun w _ _ => w
    iss_get_reg := fun _ _ => 0
    ISS_NB_REGS := 32 }

/-- The wrapper `wrapper_idle` asleep in WFI: inactive, not halted, `wfi` set, no interrupt
pending. -/
def wrapper_wfi_asleep : iss_wrapper := { wrapper_idle with wfi := true }

/-- The wrapper `wrapper_idle` halted and stopped. -/
def wrapper_stopped : iss_wrapper := { wrapper_idle with halted := true }

/-- A core as constructed, before `Irq::build` has run: the table `vectors` has no
initialiser, so it holds whatever the memory held, here the same stray non-null pointer in
every slot. -/
def scenario_unbuilt : Iss :=
  { scenario_irq7 with
    irq := { scenario_irq7.irq with vectors := fun _ => some { page := 99, addr := 0xBAD0 } } }

/-- The core `scenario_irq7` after `Exec::pc_set(0x1C008100)` with pages of `2 ^ 8` bytes:
the current instruction is an entry of the page the lookup created. -/
def scenario_fetched : Iss := Exec.pc_set 8 scenario_irq7 0x1C008100

/-! ## Lemmas on the integer conversions -/

theorem to_sim_zero : to_sim 0 = 0 := by decide

theorem to_sim_of_lt_half (w : Nat) (h : w < 2 ^ 31) : to_sim w = (w : Int) := by
  have h1 : w % 2 ^ 32 = w := Nat.mod_eq_of_lt (by omega)
  simp only [to_sim, ISS_REG_WIDTH, h1]
  rw [if_pos (by omega)]

theorem to_sim_of_ge_half (w : Nat) (h : 2 ^ 31 ≤ w) (h2 : w < 2 ^ 32) :
    to_sim w = (w : Int) - 2 ^ 32 := by
  have h1 : w % 2 ^ 32 = w := Nat.mod_eq_of_lt h2
  simp only [to_sim, ISS_REG_WIDTH, h1]
  rw [if_neg (by omega)]

theorem to_sim_range (w : Nat) : -(2 : Int) ^ 31 ≤ to_sim w ∧ to_sim w < 2 ^ 31 := by
  have h1 : w % 2 ^ 32 < 2 ^ 32 := Nat.mod_lt _ (by norm_num)
  simp only [to_sim, ISS_REG_WIDTH]
  split <;> constructor <;> omega

theorem to_uim_to_sim (w : Nat) : to_uim (to_sim w) = w % 2 ^ 32 := by
  have h1 : w % 2 ^ 32 < 2 ^ 32 := Nat.mod_lt _ (by norm_num)
  simp only [to_sim, to_uim, ISS_REG_WIDTH]
  split <;> omega

theorem xor_all_ones (d : Nat) (h : d < 2 ^ 32) : d ^^^ 0xFFFFFFFF = 2 ^ 32 - 1 - d := by
  have h1 := @BitVec.toNat_not 32 (BitVec.ofNat 32 d)
  have h2 : (~~~ (BitVec.ofNat 32 d)) = BitVec.ofNat 32 d ^^^ BitVec.allOnes 32 := by
    rw [BitVec.not_def, BitVec.xor_comm]
  rw [h2, BitVec.toNat_xor, BitVec.toNat_allOnes, BitVec.toNat_ofNat, Nat.mod_eq_of_lt h] at h1
  simpa using h1

/-- A 32-bit signed value converted to `unsigned long long` is never `1ULL << 31`: a
non-negative value stays below `2 ^ 31` and a negative one lands at `2 ^ 64 - 2 ^ 31` or
above. The two overflow guards of `div_exec` and `rem_exec` are therefore never taken. -/
theorem to_ull_to_sim_ne (w : Nat) : to_ull (to_sim w) ≠ 1 <<< (ISS_REG_WIDTH - 1) := by
  have hr := to_sim_range w
  have hs : (1 : Nat) <<< (ISS_REG_WIDTH - 1) = 2147483648 := by decide
  rw [hs]
  unfold to_ull
  omega

/-- The guard is written for a signed type as wide as `unsigned long long`: there the
smallest signed value does convert to `1ULL << 63`. -/
theorem to_ull_min_64 : to_ull (-(2 : Int) ^ 63) = 1 <<< 63 := by decide

/-- The scan `clz_from` counts the leading zeros of a non-zero `n`-bit number: the highest
set bit sits at position `n - 1 - clz_from n x`. -/
theorem clz_from_spec (n x : Nat) (hx : x < 2 ^ n) (h0 : 0 < x) :
    clz_from n x < n ∧ 2 ^ (n - 1 - clz_from n x) ≤ x ∧ x < 2 ^ (n - clz_from n x) := by
  induction n with
  | zero => simp at hx; omega
  | succ n ih =>
    have hpos : 0 < 2 ^ n := Nat.two_pow_pos n
    have hq : x / 2 ^ n < 2 := by
      rw [Nat.div_lt_iff_lt_mul hpos]
      rw [pow_succ] at hx
      omega
    simp only [clz_from]
    by_cases hb : x / 2 ^ n % 2 = 1
    · rw [if_pos hb]
      have h1 : x / 2 ^ n = 1 := by
        generalize x / 2 ^ n = q at hq hb
        omega
      have h2 : 2 ^ n ≤ x := by
        by_contra hlt
        rw [Nat.div_eq_of_lt (by omega)] at h1
        omega
      refine ⟨by omega, ?_, ?_⟩
      · simpa using h2
      · simpa using hx
    · rw [if_neg hb]
      have h1 : x / 2 ^ n = 0 := by
        generalize x / 2 ^ n = q at hq hb
        omega
      have h2 : x < 2 ^ n := by
        by_contra hge
        have : 1 ≤ x / 2 ^ n := (Nat.one_le_div_iff hpos).2 (by omega)
        omega
      obtain ⟨ih1, ih2, ih3⟩ := ih h2
      refine ⟨by omega, ?_, ?_⟩
      · have e : n + 1 - 1 - (clz_from n x + 1) = n - 1 - clz_from n x := by omega
        rw [e]; exact ih2
      · have e : n + 1 - (clz_from n x + 1) = n - clz_from n x := by omega
        rw [e]; exact ih3

/-- The function `clz32` is the number of leading zero bits of a non-zero 32-bit word. -/
theorem clz32_spec (x : Nat) (hx : x < 2 ^ 32) (h0 : 0 < x) :
    clz32 x < 32 ∧ 2 ^ (31 - clz32 x) ≤ x ∧ x < 2 ^ (32 - clz32 x) := by
  have h := clz_from_spec 32 x hx h0
  have e : x % 2 ^ 32 = x := Nat.mod_eq_of_lt hx
  unfold clz32
  rw [e]
  exact h

theorem builtin_clz_of_pos (x : Nat) (hx : x < 2 ^ 32) (h0 : 0 < x) :
    builtin_clz x = some (clz32 x) := by
  unfold builtin_clz
  rw [if_neg]
  rw [Nat.mod_eq_of_lt hx]
  omega

theorem signed_div_cycles_zero : signed_div_cycles 0 = some 1 := by decide

theorem signed_div_cycles_pos (d : Nat) (h0 : 0 < d) (h : d < 2 ^ 31) :
    signed_div_cycles (to_sim d) = some (clz32 d + 3) := by
  have e : to_sim d = (d : Int) := to_sim_of_lt_half d h
  have hu : to_uim (d : Int) = d := by unfold to_uim; simp only [ISS_REG_WIDTH]; omega
  unfold signed_div_cycles
  rw [e, if_neg (by omega), if_pos (by omega), hu, builtin_clz_of_pos d (by omega) h0]
  rfl

theorem signed_div_cycles_neg (d : Nat) (h : 2 ^ 31 < d) (h2 : d < 2 ^ 32) :
    signed_div_cycles (to_sim d) = some (clz32 ((d ^^^ 0xFFFFFFFF) + 1) + 2) := by
  have e : to_sim d = (d : Int) - 2 ^ 32 := to_sim_of_ge_half d (by omega) h2
  have hx : (d ^^^ 0xFFFFFFFF) + 1 = 2 ^ 32 - d := by rw [xor_all_ones d h2]; omega
  have hu : to_uim (sim_not ((d : Int) - 2 ^ 32) + 1) = 2 ^ 32 - d := by
    unfold to_uim sim_not; simp only [ISS_REG_WIDTH]; omega
  have ha : host_add (sim_not ((d : Int) - 2 ^ 32)) 1
      = some (sim_not ((d : Int) - 2 ^ 32) + 1) := by
    unfold host_add SIM_MIN sim_not
    simp only [ISS_REG_WIDTH]
    rw [if_pos (by omega)]
  unfold signed_div_cycles
  rw [e, if_neg (by omega), if_neg (by omega), ha, Option.some_bind, hu, hx,
    builtin_clz_of_pos (2 ^ 32 - d) (by omega) (by omega)]
  rfl

/-- For the smallest divisor `(~divider) + 1` overflows the signed type: the count has no
defined value. -/
theorem signed_div_cycles_min : signed_div_cycles (to_sim 0x80000000) = none := by decide

/-- The stall count of `div_exec` and `rem_exec` is `signed_div_cycles` of the divisor
whenever the division is not the overflowing `SIM_MIN / -1`, and is absent in that case. -/
theorem div_rem_stall_eq (w0 w1 : Nat) :
    (¬ (to_sim w0 = SIM_MIN ∧ to_sim w1 = -1) →
      (div_exec w0 w1).stall = signed_div_cycles (to_sim w1) ∧
      (rem_exec w0 w1).stall = signed_div_cycles (to_sim w1)) ∧
    ((to_sim w0 = SIM_MIN ∧ to_sim w1 = -1) →
      (div_exec w0 w1).stall = none ∧ (rem_exec w0 w1).stall = none) := by
  have hn0 := to_ull_to_sim_ne w0
  have hn1 := to_ull_to_sim_ne w1
  constructor
  · intro hov
    by_cases hb : to_sim w1 = 0
    · constructor
      · simp only [div_exec, hb, if_true, Option.some_bind]
      · simp only [rem_exec, hb, if_true, Option.some_bind]
    · constructor
      · simp only [div_exec, host_div, if_neg hb, hn0, hn1, false_and, if_false, if_neg hov,
          Option.some_bind]
      · simp only [rem_exec, host_rem, if_neg hb, hn0, hn1, false_and, if_false, if_neg hov,
          Option.some_bind]
  · intro hov
    have hb : to_sim w1 ≠ 0 := by rw [hov.2]; decide
    constructor
    · simp only [div_exec, host_div, if_neg hb, hn0, hn1, false_and, if_false, if_pos hov,
        Option.none_bind]
    · simp only [rem_exec, host_rem, if_neg hb, hn0, hn1, false_and, if_false, if_pos hov,
        Option.none_bind]

/-! ## Division handlers -/

/-- Claim C1. Division by zero: for every dividend word, `div_exec` with divisor 0 hands
`0xFFFFFFFF` (that is, -1) to `REG_SET`, and `rem_exec` with divisor 0 hands over the
dividend unchanged. -/
theorem div_rem_by_zero (dividend : Nat) (h : dividend < 2 ^ 32) :
    (div_exec dividend 0).reg_set = some 0xFFFFFFFF ∧
    (rem_exec dividend 0).reg_set = some dividend := by
  constructor
  · simp only [div_exec, to_sim_zero, if_true, Option.map_some']
    rfl
  · simp only [rem_exec, to_sim_zero, if_true, Option.map_some', to_uim_to_sim]
    rw [Nat.mod_eq_of_lt h]

theorem div_rem_by_zero_witness :
    (0x80000000 : Nat) < 2 ^ 32 ∧
    ((div_exec 0x80000000 0).reg_set = some 0xFFFFFFFF ∧
     (rem_exec 0x80000000 0).reg_set = some 0x80000000) :=
  ⟨by decide, div_rem_by_zero 0x80000000 (by decide)⟩

/-- Claim C2, evaluated on the code. With dividend `0x80000000` and divisor `0xFFFFFFFF`
neither overflow guard matches (the sign-extended dividend is `0xFFFFFFFF80000000`, not
`1ULL << 31`), so `div_exec` and `rem_exec` reach the host operators `/` and `%` on
`INT_MIN` and `-1`, which have no defined value: nothing definite is handed to `REG_SET`. -/
theorem div_rem_overflow_reaches_host_division :
    to_ull (to_sim 0x80000000) = 0xFFFFFFFF80000000 ∧
    (div_exec 0x80000000 0xFFFFFFFF).reg_set = none ∧
    (rem_exec 0x80000000 0xFFFFFFFF).reg_set = none := by
  decide

/-- Stall cycles of `div_exec` and `rem_exec` wherever the handlers get as far as charging
them with a defined count: both charge the same count for every input, which is 1 for
divisor zero, `clz(divisor) + 3` for a positive divisor and `clz(~divisor + 1) + 2` for a
negative one other than `0x80000000`, with `clz` the number of leading zero bits of the
32-bit word, the dividend `0x80000000` with divisor `0xFFFFFFFF` apart; for divisor
`0xFFFFFFFF` and any other dividend the count is 33. -/
theorem div_rem_stall_defined (dividend divider : Nat) (hd : divider < 2 ^ 32) :
    (rem_exec dividend divider).stall = (div_exec dividend divider).stall ∧
    (divider = 0 → (div_exec dividend divider).stall = some 1) ∧
    (0 < divider → divider < 2 ^ 31 →
      (div_exec dividend divider).stall = some (clz32 divider + 3)) ∧
    (2 ^ 31 < divider → ¬ (dividend % 2 ^ 32 = 0x80000000 ∧ divider = 0xFFFFFFFF) →
      (div_exec dividend divider).stall = some (clz32 ((divider ^^^ 0xFFFFFFFF) + 1) + 2)) ∧
    (divider = 0xFFFFFFFF → dividend % 2 ^ 32 ≠ 0x80000000 →
      (div_exec dividend divider).stall = some 33) := by
  have hs := div_rem_stall_eq dividend divider
  have hmin : to_sim dividend = SIM_MIN → dividend % 2 ^ 32 = 0x80000000 := by
    intro h
    have h1 : dividend % 2 ^ 32 < 2 ^ 32 := Nat.mod_lt _ (by norm_num)
    simp only [to_sim, SIM_MIN, ISS_REG_WIDTH] at h
    split at h <;> omega
  have hm1 : to_sim divider = -1 → divider = 0xFFFFFFFF := by
    intro h
    have h1 : divider % 2 ^ 32 = divider := Nat.mod_eq_of_lt hd
    simp only [to_sim, ISS_REG_WIDTH, h1] at h
    split at h <;> omega
  refine ⟨?_, ?_, ?_, ?_, ?_⟩
  · by_cases hov : to_sim dividend = SIM_MIN ∧ to_sim divider = -1
    · rw [(hs.2 hov).1, (hs.2 hov).2]
    · rw [(hs.1 hov).1, (hs.1 hov).2]
  · intro h0
    have hov : ¬ (to_sim dividend = SIM_MIN ∧ to_sim divider = -1) := by
      rintro ⟨_, h2⟩
      have := hm1 h2
      omega
    rw [(hs.1 hov).1, h0, to_sim_zero, signed_div_cycles_zero]
  · intro h0 h1
    have hov : ¬ (to_sim dividend = SIM_MIN ∧ to_sim divider = -1) := by
      rintro ⟨_, h2⟩
      have := hm1 h2
      omega
    rw [(hs.1 hov).1, signed_div_cycles_pos divider h0 h1]
  · intro h1 hne
    have hov : ¬ (to_sim dividend = SIM_MIN ∧ to_sim divider = -1) :=
      fun h => hne ⟨hmin h.1, hm1 h.2⟩
    rw [(hs.1 hov).1, signed_div_cycles_neg divider h1 hd]
  · intro h1 hne
    have hov : ¬ (to_sim dividend = SIM_MIN ∧ to_sim divider = -1) :=
      fun h => hne (hmin h.1)
    rw [(hs.1 hov).1, h1]
    decide

/-- Claim C3, evaluated on the code. With dividend `0x80000000` and divisor `0xFFFFFFFF`
`div_exec` and `rem_exec` reach the host division of `INT_MIN` by `-1`, which stands before
the cycle count in both handlers and has no defined value: no stall count is charged, where
the claim has 33. For the same divisor and the dividend `0x7FFFFFFF` the count is 33. -/
theorem div_rem_stall_not_charged_at_overflow :
    (div_exec 0x80000000 0xFFFFFFFF).reg_set = none ∧
    (div_exec 0x80000000 0xFFFFFFFF).stall = none ∧
    (rem_exec 0x80000000 0xFFFFFFFF).reg_set = none ∧
    (rem_exec 0x80000000 0xFFFFFFFF).stall = none ∧
    signed_div_cycles (to_sim 0xFFFFFFFF) = some 33 ∧
    (div_exec 0x7FFFFFFF 0xFFFFFFFF).stall = some 33 ∧
    (rem_exec 0x7FFFFFFF 0xFFFFFFFF).stall = some 33 := by
  decide

/-- Claim C4. Unsigned division: for all words, `divu_exec` hands `0xFFFFFFFF` to `REG_SET`
when the divisor is 0 and the floor of dividend / divisor otherwise; `remu_exec` hands over
the dividend when the divisor is 0 and dividend mod divisor otherwise. -/
theorem divu_remu_result (dividend divider : Nat)
    (h0 : dividend < 2 ^ 32) (h1 : divider < 2 ^ 32) :
    (divu_exec dividend divider).reg_set
      = some (if divider = 0 then 0xFFFFFFFF else dividend / divider) ∧
    (remu_exec dividend divider).reg_set
      = some (if divider = 0 then dividend else dividend % divider) := by
  have e0 : dividend % 2 ^ 32 = dividend := Nat.mod_eq_of_lt h0
  have e1 : divider % 2 ^ 32 = divider := Nat.mod_eq_of_lt h1
  have em : to_uim (-1) = 0xFFFFFFFF := by decide
  constructor
  · simp only [divu_exec, ISS_REG_WIDTH, e0, e1, em]
  · simp only [remu_exec, ISS_REG_WIDTH, e0, e1]

theorem divu_remu_result_witness :
    (7 : Nat) < 2 ^ 32 ∧ (2 : Nat) < 2 ^ 32 ∧
    ((divu_exec 7 2).reg_set = some (if (2 : Nat) = 0 then 0xFFFFFFFF else 7 / 2) ∧
     (remu_exec 7 2).reg_set = some (if (2 : Nat) = 0 then 7 else 7 % 2)) :=
  ⟨by decide, by decide, divu_remu_result 7 2 (by decide) (by decide)⟩

/-- Stall cycles of `divu_exec` and `remu_exec` for a non-zero divisor: `clz(divisor) + 3`. -/
theorem divu_remu_stall_nonzero (dividend divider : Nat)
    (h0 : 0 < divider) (h1 : divider < 2 ^ 32) :
    (divu_exec dividend divider).stall = some (clz32 divider + 3) ∧
    (remu_exec dividend divider).stall = some (clz32 divider + 3) := by
  have e1 : divider % 2 ^ 32 = divider := Nat.mod_eq_of_lt h1
  have hc := builtin_clz_of_pos divider h1 h0
  constructor
  · simp only [divu_exec, ISS_REG_WIDTH, e1, hc, Option.map_some']
  · simp only [remu_exec, ISS_REG_WIDTH, e1, hc, Option.map_some']

/-- Claim C5, evaluated on the code. For divisor 0 and every dividend, `divu_exec` and
`remu_exec` compute their stall count as `__builtin_clz(0) + 3`: the count-leading-zeros of
0 is evaluated and the count charged has no defined value, where `div_exec` and `rem_exec`
charge 1 for the same divisor. -/
theorem divu_remu_zero_divisor_stall (dividend : Nat) :
    (divu_exec dividend 0).stall = none ∧ (remu_exec dividend 0).stall = none ∧
    (div_exec dividend 0).stall = some 1 ∧ (rem_exec dividend 0).stall = some 1 := by
  have hov : ¬ (to_sim dividend = SIM_MIN ∧ to_sim 0 = -1) := by
    rintro ⟨_, h⟩
    rw [to_sim_zero] at h
    cases h
  have hs := (div_rem_stall_eq dividend 0).1 hov
  rw [to_sim_zero, signed_div_cycles_zero] at hs
  exact ⟨rfl, rfl, hs.1, hs.2⟩

/-! ## The interrupt path -/

/-- The debug branch of `Irq::check` is not entered when no debug entry is due. -/
theorem no_debug_due (s : Iss) (hdbg : s.irq.req_debug = false ∨ s.state.debug_mode = true) :
    ¬ (s.irq.req_debug = true ∧ s.state.debug_mode = false) := by
  rintro ⟨h1, h2⟩
  rcases hdbg with h | h
  · rw [h] at h1; cases h1
  · rw [h] at h2; cases h2

/-- What `Irq::check` computes on the interrupt branch. -/
theorem check_accept_eq (s : Iss) (insn : iss_insn_t)
    (hcur : s.exec.current_insn = some insn)
    (hdbg : s.irq.req_debug = false ∨ s.state.debug_mode = true)
    (hreq : s.irq.req_irq ≠ -1) (hen : s.irq.irq_enable ≠ 0) :
    Irq.check s = some (1,
      { s with
        csr := { s.csr with epc := insn.addr, mcause := (1 <<< 31) ||| to_uim s.irq.req_irq }
        irq := { s.irq with saved_irq_enable := s.irq.irq_enable, irq_enable := 0, req_irq := -1 }
        exec := { s.exec with current_insn := s.irq.vectors s.irq.req_irq }
        calls := s.calls ++ [ext_call.irq_ack_itf_sync s.irq.req_irq] ++
          [ext_call.stall_insn_dependency_account 4] ++
          [ext_call.prefetcher_fetch (s.irq.vectors s.irq.req_irq)] }) := by
  unfold Irq.check
  rw [if_neg (no_debug_due s hdbg)]
  simp only [hcur]
  rw [if_pos ⟨hreq, hen⟩]

/-- What `Irq::check` computes on the debug branch. -/
theorem check_debug_eq (s : Iss) (insn : iss_insn_t)
    (hcur : s.exec.current_insn = some insn)
    (hreq : s.irq.req_debug = true) (hmode : s.state.debug_mode = false) :
    Irq.check s = some (1,
      { s with
        state := { s.state with debug_mode := true }
        csr := { s.csr with depc := insn.addr }
        irq := { s.irq with
          debug_saved_irq_enable := s.irq.irq_enable, irq_enable := 0, req_debug := false }
        exec := { s.exec with current_insn := s.irq.debug_handler } }) := by
  unfold Irq.check
  rw [if_pos ⟨hreq, hmode⟩]
  simp only [hcur]

theorem bit31_of_or (x : Nat) :
    ((1 <<< 31) ||| x).testBit 31 = true ∧ ((1 <<< 31) ||| x) &&& (1 <<< 31) ≠ 0 := by
  have h0 : Nat.testBit (1 <<< 31) 31 = true := by decide
  have h1 : ((1 <<< 31) ||| x).testBit 31 = true := by
    rw [Nat.testBit_or, h0]; rfl
  refine ⟨h1, ?_⟩
  intro hz
  have h2 : (((1 <<< 31) ||| x) &&& (1 <<< 31)).testBit 31 = true := by
    rw [Nat.testBit_and, h1, h0]; rfl
  rw [hz] at h2
  simp at h2

theorem to_uim_of_small (r : Int) (h0 : 0 ≤ r) (h1 : r < 32) : to_uim r = r.toNat := by
  unfold to_uim
  simp only [ISS_REG_WIDTH]
  omega

theorem or_bit31_small (n : Nat) (h : n < 32) : (1 <<< 31) ||| n = 2 ^ 31 + n := by
  interval_cases n <;> rfl

/-- With no debug entry due and no enabled request, `Irq::check` returns 0 and leaves the
state as it was. -/
theorem check_fires_nothing_aux (s : Iss)
    (hdbg : s.irq.req_debug = false ∨ s.state.debug_mode = true)
    (h : s.irq.req_irq = -1 ∨ s.irq.irq_enable = 0) : Irq.check s = some (0, s) := by
  unfold Irq.check
  rw [if_neg (no_debug_due s hdbg)]
  simp only
  rw [if_neg]
  rintro ⟨h1, h2⟩
  rcases h with h | h
  · exact h1 h
  · exact h2 h

/-- Claim C6. An accepted interrupt saves the interrupted context: in every state in which
no debug entry is due, `req_irq` is not -1 and `irq_enable` is non-zero, `Irq::check` leaves
`saved_irq_enable` equal to the earlier `irq_enable`, `irq_enable` equal to 0, `epc` equal to
the address of the earlier `current_insn`, and `mcause` with bit 31 set. -/
theorem irq_accept_saves_context (s : Iss) (insn : iss_insn_t)
    (hcur : s.exec.current_insn = some insn)
    (hdbg : s.irq.req_debug = false ∨ s.state.debug_mode = true)
    (hreq : s.irq.req_irq ≠ -1) (hen : s.irq.irq_enable ≠ 0) :
    ∃ s1 : Iss, Irq.check s = some (1, s1) ∧
      s1.irq.saved_irq_enable = s.irq.irq_enable ∧
      s1.irq.irq_enable = 0 ∧
      s1.csr.epc = insn.addr ∧
      s1.csr.mcause &&& (1 <<< 31) ≠ 0 ∧ s1.csr.mcause.testBit 31 = true :=
  ⟨_, check_accept_eq s insn hcur hdbg hreq hen, rfl, rfl, rfl,
    (bit31_of_or (to_uim s.irq.req_irq)).2, (bit31_of_or (to_uim s.irq.req_irq)).1⟩

/-- Claim C7. An accepted interrupt takes its vector: for a request number `r` with
`0 ≤ r < 32`, `Irq::check` returns 1, makes `current_insn` the table slot `vectors[r]`
(slot `r` lies within the 35 slots), sets `mcause` to `2 ^ 31 | r` (`0x80000007` for
`r = 7`), resets `req_irq` to -1, sends `r` on the acknowledge port, charges 4 stall cycles
and asks the prefetcher for the vector. -/
theorem irq_accept_takes_vector (s : Iss) (insn : iss_insn_t) (r : Int)
    (hcur : s.exec.current_insn = some insn)
    (hdbg : s.irq.req_debug = false ∨ s.state.debug_mode = true)
    (hr0 : 0 ≤ r) (hr1 : r < 32) (hreq : s.irq.req_irq = r) (hen : s.irq.irq_enable ≠ 0) :
    ∃ s1 : Iss, Irq.check s = some (1, s1) ∧
      s1.exec.current_insn = s.irq.vectors r ∧ r < 35 ∧
      s1.csr.mcause = (1 <<< 31) ||| r.toNat ∧
      s1.csr.mcause = 2 ^ 31 + r.toNat ∧
      (r = 7 → s1.csr.mcause = 0x80000007) ∧
      s1.irq.req_irq = -1 ∧
      s1.calls = s.calls ++ [ext_call.irq_ack_itf_sync r,
        ext_call.stall_insn_dependency_account 4,
        ext_call.prefetcher_fetch (s.irq.vectors r)] := by
  have hne : s.irq.req_irq ≠ -1 := by rw [hreq]; omega
  have hu : to_uim s.irq.req_irq = r.toNat := by rw [hreq]; exact to_uim_of_small r hr0 hr1
  have hm : (1 <<< 31) ||| r.toNat = 2 ^ 31 + r.toNat := or_bit31_small r.toNat (by omega)
  refine ⟨_, check_accept_eq s insn hcur hdbg hne hen, ?_, by omega, ?_, ?_, ?_, rfl, ?_⟩
  · show s.irq.vectors s.irq.req_irq = s.irq.vectors r
    rw [hreq]
  · show (1 <<< 31) ||| to_uim s.irq.req_irq = (1 <<< 31) ||| r.toNat
    rw [hu]
  · show (1 <<< 31) ||| to_uim s.irq.req_irq = 2 ^ 31 + r.toNat
    rw [hu, hm]
  · intro h7
    show (1 <<< 31) ||| to_uim s.irq.req_irq = 0x80000007
    rw [hu, h7]
    rfl
  · show s.calls ++ [ext_call.irq_ack_itf_sync s.irq.req_irq] ++
        [ext_call.stall_insn_dependency_account 4] ++
        [ext_call.prefetcher_fetch (s.irq.vectors s.irq.req_irq)] = _
    rw [hreq]
    simp

/-- Claim C8. `Irq::check` fires nothing when nothing is due: with no debug entry due and
either `req_irq = -1` or `irq_enable = 0` it returns 0 and leaves the whole state as it was
(so `epc`, `depc`, `mcause`, `irq_enable`, `saved_irq_enable`, `debug_saved_irq_enable`,
`req_irq`, `debug_mode` and `current_insn` are unchanged). In particular, after an
acceptance any state that still has the cleared `irq_enable` and the same debug flags,
whatever request has arrived meanwhile, is left alone: interrupts do not nest. -/
theorem check_fires_nothing (s : Iss)
    (hdbg : s.irq.req_debug = false ∨ s.state.debug_mode = true) :
    ((s.irq.req_irq = -1 ∨ s.irq.irq_enable = 0) → Irq.check s = some (0, s)) ∧
    (∀ s1 : Iss, s.irq.req_irq ≠ -1 → s.irq.irq_enable ≠ 0 → Irq.check s = some (1, s1) →
      ∀ t : Iss, t.irq.irq_enable = s1.irq.irq_enable →
        t.irq.req_debug = s1.irq.req_debug → t.state.debug_mode = s1.state.debug_mode →
        Irq.check t = some (0, t)) := by
  have idle : ∀ u : Iss, (u.irq.req_debug = false ∨ u.state.debug_mode = true) →
      (u.irq.req_irq = -1 ∨ u.irq.irq_enable = 0) → Irq.check u = some (0, u) := by
    intro u hd h
    unfold Irq.check
    rw [if_neg (no_debug_due u hd)]
    simp only
    rw [if_neg]
    rintro ⟨h1, h2⟩
    rcases h with h | h
    · exact h1 h
    · exact h2 h
  refine ⟨idle s hdbg, ?_⟩
  intro s1 hreq hen hchk t hte htd htm
  cases hcur : s.exec.current_insn with
  | none =>
    unfold Irq.check at hchk
    rw [if_neg (no_debug_due s hdbg)] at hchk
    simp only [hcur] at hchk
    rw [if_pos ⟨hreq, hen⟩] at hchk
    cases hchk
  | some insn =>
    rw [check_accept_eq s insn hcur hdbg hreq hen] at hchk
    injection hchk with hchk
    injection hchk with _ hs1
    subst hs1
    apply idle t
    · rw [htd, htm]; exact hdbg
    · right; rw [hte]

/-- Claim C9. Debug entry has priority in `Irq::check`: whenever `req_debug` is set and
`debug_mode` is clear, whatever interrupt is pending or enabled, `check` returns 1, sets
`debug_mode`, stores the address of the earlier `current_insn` in `depc`, copies the earlier
`irq_enable` into `debug_saved_irq_enable`, clears `irq_enable` and `req_debug`, makes
`current_insn` the `debug_handler`, and leaves `epc`, `mcause`, `saved_irq_enable` and
`req_irq` unchanged. -/
theorem debug_entry_has_priority (s : Iss) (insn : iss_insn_t)
    (hcur : s.exec.current_insn = some insn)
    (hreq : s.irq.req_debug = true) (hmode : s.state.debug_mode = false) :
    ∃ s1 : Iss, Irq.check s = some (1, s1) ∧
      s1.state.debug_mode = true ∧
      s1.csr.depc = insn.addr ∧
      s1.irq.debug_saved_irq_enable = s.irq.irq_enable ∧
      s1.irq.irq_enable = 0 ∧
      s1.irq.req_debug = false ∧
      s1.exec.current_insn = s.irq.debug_handler ∧
      s1.csr.epc = s.csr.epc ∧
      s1.csr.mcause = s.csr.mcause ∧
      s1.irq.saved_irq_enable = s.irq.saved_irq_enable ∧
      s1.irq.req_irq = s.irq.req_irq ∧
      s1.calls = s.calls := by
  exact ⟨_, check_debug_eq s insn hcur hreq hmode,
    rfl, rfl, rfl, rfl, rfl, rfl, rfl, rfl, rfl, rfl, rfl⟩

/-- Claim C10. Interrupt entry followed by `mret` is a round trip: if `Irq::check` accepts an
interrupt in state `s`, and `t` is any later state whose `epc` and `saved_irq_enable` are
still the ones written by the acceptance, then `Irq::mret_handle` in `t` restores
`irq_enable` to its value in `s` and returns what `insn_cache_get` yields for the address of
the instruction that was current in `s`. -/
theorem irq_entry_mret_round_trip (INSN_PAGE_BITS : Nat) (s s1 t : Iss) (insn : iss_insn_t)
    (hcur : s.exec.current_insn = some insn)
    (hdbg : s.irq.req_debug = false ∨ s.state.debug_mode = true)
    (hreq : s.irq.req_irq ≠ -1) (hen : s.irq.irq_enable ≠ 0)
    (hchk : Irq.check s = some (1, s1))
    (hepc : t.csr.epc = s1.csr.epc)
    (hsaved : t.irq.saved_irq_enable = s1.irq.saved_irq_enable) :
    (Irq.mret_handle INSN_PAGE_BITS t).2.irq.irq_enable = s.irq.irq_enable ∧
    (Irq.mret_handle INSN_PAGE_BITS t).1
      = (insn_cache_get INSN_PAGE_BITS t.decode.insn_cache insn.addr).1 ∧
    (Irq.mret_handle INSN_PAGE_BITS t).2.csr.mcause = 0 := by
  rw [check_accept_eq s insn hcur hdbg hreq hen] at hchk
  injection hchk with hchk
  injection hchk with _ hs1
  subst hs1
  refine ⟨?_, ?_, rfl⟩
  · show t.irq.saved_irq_enable = s.irq.irq_enable
    rw [hsaved]
  · show (insn_cache_get INSN_PAGE_BITS t.decode.insn_cache t.csr.epc).1 = _
    rw [hepc]

/-! ## The properties at the concrete states -/

theorem scenario_irq7_check : Irq.check scenario_irq7 = some (1, scenario_irq7_taken) := rfl

theorem irq_accept_saves_context_witness :
    scenario_irq7.exec.current_insn = some { page := 0, addr := 0x1C008100 } ∧
    (scenario_irq7.irq.req_debug = false ∨ scenario_irq7.state.debug_mode = true) ∧
    scenario_irq7.irq.req_irq ≠ -1 ∧ scenario_irq7.irq.irq_enable ≠ 0 ∧
    ∃ s1 : Iss, Irq.check scenario_irq7 = some (1, s1) ∧
      s1.irq.saved_irq_enable = scenario_irq7.irq.irq_enable ∧
      s1.irq.irq_enable = 0 ∧
      s1.csr.epc = 0x1C008100 ∧
      s1.csr.mcause &&& (1 <<< 31) ≠ 0 ∧ s1.csr.mcause.testBit 31 = true :=
  ⟨rfl, Or.inl rfl, by decide, by decide,
    irq_accept_saves_context scenario_irq7 { page := 0, addr := 0x1C008100 } rfl (Or.inl rfl)
      (by decide) (by decide)⟩

theorem irq_accept_takes_vector_witness :
    scenario_irq7.exec.current_insn = some { page := 0, addr := 0x1C008100 } ∧
    (scenario_irq7.irq.req_debug = false ∨ scenario_irq7.state.debug_mode = true) ∧
    (0 : Int) ≤ 7 ∧ (7 : Int) < 32 ∧ scenario_irq7.irq.req_irq = 7 ∧
    scenario_irq7.irq.irq_enable ≠ 0 ∧
    ∃ s1 : Iss, Irq.check scenario_irq7 = some (1, s1) ∧
      s1.exec.current_insn = scenario_irq7.irq.vectors 7 ∧ (7 : Int) < 35 ∧
      s1.csr.mcause = (1 <<< 31) ||| (7 : Int).toNat ∧
      s1.csr.mcause = 2 ^ 31 + (7 : Int).toNat ∧
      ((7 : Int) = 7 → s1.csr.mcause = 0x80000007) ∧
      s1.irq.req_irq = -1 ∧
      s1.calls = scenario_irq7.calls ++ [ext_call.irq_ack_itf_sync 7,
        ext_call.stall_insn_dependency_account 4,
        ext_call.prefetcher_fetch (scenario_irq7.irq.vectors 7)] :=
  ⟨rfl, Or.inl rfl, by decide, by decide, rfl, by decide,
    irq_accept_takes_vector scenario_irq7 { page := 0, addr := 0x1C008100 } 7 rfl (Or.inl rfl)
      (by decide) (by decide) rfl (by decide)⟩

theorem check_fires_nothing_witness :
    (scenario_irq7.irq.req_debug = false ∨ scenario_irq7.state.debug_mode = true) ∧
    scenario_irq7.irq.req_irq ≠ -1 ∧ scenario_irq7.irq.irq_enable ≠ 0 ∧
    Irq.check scenario_irq7 = some (1, scenario_irq7_taken) ∧
    scenario_irq7_handler.irq.req_irq = 9 ∧
    scenario_irq7_handler.irq.irq_enable = scenario_irq7_taken.irq.irq_enable ∧
    scenario_irq7_handler.irq.req_debug = scenario_irq7_taken.irq.req_debug ∧
    scenario_irq7_handler.state.debug_mode = scenario_irq7_taken.state.debug_mode ∧
    Irq.check scenario_irq7_handler = some (0, scenario_irq7_handler) :=
  ⟨Or.inl rfl, by decide, by decide, scenario_irq7_check, rfl, rfl, rfl, rfl,
    (check_fires_nothing scenario_irq7 (Or.inl rfl)).2 scenario_irq7_taken (by decide)
      (by decide) scenario_irq7_check scenario_irq7_handler rfl rfl rfl⟩

theorem debug_entry_has_priority_witness :
    scenario_debug.exec.current_insn = some { page := 0, addr := 0x1C008100 } ∧
    scenario_debug.irq.req_debug = true ∧ scenario_debug.state.debug_mode = false ∧
    ∃ s1 : Iss, Irq.check scenario_debug = some (1, s1) ∧
      s1.state.debug_mode = true ∧
      s1.csr.depc = 0x1C008100 ∧
      s1.irq.debug_saved_irq_enable = scenario_debug.irq.irq_enable ∧
      s1.irq.irq_enable = 0 ∧
      s1.irq.req_debug = false ∧
      s1.exec.current_insn = scenario_debug.irq.debug_handler ∧
      s1.csr.epc = scenario_debug.csr.epc ∧
      s1.csr.mcause = scenario_debug.csr.mcause ∧
      s1.irq.saved_irq_enable = scenario_debug.irq.saved_irq_enable ∧
      s1.irq.req_irq = scenario_debug.irq.req_irq ∧
      s1.calls = scenario_debug.calls :=
  ⟨rfl, rfl, rfl,
    debug_entry_has_priority scenario_debug { page := 0, addr := 0x1C008100 } rfl rfl rfl⟩

theorem irq_entry_mret_round_trip_witness :
    scenario_irq7.exec.current_insn = some { page := 0, addr := 0x1C008100 } ∧
    (scenario_irq7.irq.req_debug = false ∨ scenario_irq7.state.debug_mode = true) ∧
    scenario_irq7.irq.req_irq ≠ -1 ∧ scenario_irq7.irq.irq_enable ≠ 0 ∧
    Irq.check scenario_irq7 = some (1, scenario_irq7_taken) ∧
    scenario_irq7_handler.csr.epc = scenario_irq7_taken.csr.epc ∧
    scenario_irq7_handler.irq.saved_irq_enable = scenario_irq7_taken.irq.saved_irq_enable ∧
    (Irq.mret_handle 8 scenario_irq7_handler).2.irq.irq_enable = 1 ∧
    (Irq.mret_handle 8 scenario_irq7_handler).1
      = (insn_cache_get 8 scenario_irq7_handler.decode.insn_cache 0x1C008100).1 ∧
    (Irq.mret_handle 8 scenario_irq7_handler).2.csr.mcause = 0 :=
  ⟨rfl, Or.inl rfl, by decide, by decide, scenario_irq7_check, rfl, rfl,
    irq_entry_mret_round_trip 8 scenario_irq7 scenario_irq7_taken scenario_irq7_handler
      { page := 0, addr := 0x1C008100 } rfl (Or.inl rfl) (by decide) (by decide)
      scenario_irq7_check rfl rfl⟩

/-- In the scenario the `mret` hands back the entry of address `0x1C008100`, the
instruction that was interrupted. -/
theorem scenario_mret_returns_to_epc :
    (Irq.mret_handle 8 scenario_irq7_handler).1 = some { page := 1, addr := 0x1C008100 } := by
  decide

/-! ## Stability of cache lookups and the vector table -/

theorem insn_cache_get_eq (P : Nat) (c : iss_insn_cache_t) (a : Nat) :
    (insn_cache_get P c a).1 = page_entry P (insn_cache_page_get P c a).1 a ∧
    (insn_cache_get P c a).2.pages = (insn_cache_page_get P c a).2.pages :=
  ⟨rfl, rfl⟩

theorem page_get_lookup (P : Nat) (c : iss_insn_cache_t) (a : Nat) :
    (insn_cache_page_get P c a).2.pages.lookup ((a % 2 ^ 32) >>> P)
      = some (insn_cache_page_get P c a).1 := by
  unfold insn_cache_page_get
  generalize (a % 2 ^ 32) >>> P = idx
  cases h : c.pages.lookup idx with
  | some page => simp only [h]
  | none => simp only [h, List.lookup_cons, beq_self_eq_true]

theorem page_get_of_lookup (P : Nat) (c : iss_insn_cache_t) (a : Nat) (page : iss_insn_page_t)
    (h : c.pages.lookup ((a % 2 ^ 32) >>> P) = some page) :
    insn_cache_page_get P c a = (page, c) := by
  unfold insn_cache_page_get
  generalize (a % 2 ^ 32) >>> P = idx at h
  simp only [h]

theorem page_get_preserves (P : Nat) (c : iss_insn_cache_t) (b k : Nat) (page : iss_insn_page_t)
    (h : c.pages.lookup k = some page) :
    (insn_cache_page_get P c b).2.pages.lookup k = some page := by
  unfold insn_cache_page_get
  generalize (b % 2 ^ 32) >>> P = idx
  cases hb : c.pages.lookup idx with
  | some pg => simp only [hb, h]
  | none =>
    have hne : k ≠ idx := by
      intro e
      rw [e, hb] at h
      cases h
    have hbeq : (k == idx) = false := by simpa using hne
    simp only [hb, List.lookup_cons, hbeq, h]

/-- A page that is in the cache stays in the cache through a lookup. -/
theorem insn_cache_get_preserves (P : Nat) (c : iss_insn_cache_t) (b k : Nat)
    (page : iss_insn_page_t) (h : c.pages.lookup k = some page) :
    (insn_cache_get P c b).2.pages.lookup k = some page :=
  page_get_preserves P c b k page h

/-- A lookup whose page is in the cache returns the entry of that page. -/
theorem insn_cache_get_of_lookup (P : Nat) (c : iss_insn_cache_t) (a : Nat)
    (page : iss_insn_page_t) (h : c.pages.lookup ((a % 2 ^ 32) >>> P) = some page) :
    (insn_cache_get P c a).1 = page_entry P page a := by
  rw [(insn_cache_get_eq P c a).1, page_get_of_lookup P c a page h]

theorem vector_resolved_get (P : Nat) (s : Iss) (base i : Nat) (h : vector_resolved P s base i) :
    s.irq.vectors (i : Int)
      = (insn_cache_get P s.decode.insn_cache ((base + i * 4) % 2 ^ 32)).1 := by
  obtain ⟨page, h1, h2⟩ := h
  rw [h2, insn_cache_get_of_lookup P _ _ page h1]

/-- The loop of `Irq::vector_table_set` resolves the slots it runs over, keeps the slots
resolved before resolved, and touches `irq` only in `vectors`. -/
theorem vector_table_fill_resolved (P base : Nat) :
    ∀ (n i : Nat) (s : Iss), (∀ j, j < i → vector_resolved P s base j) →
      ∀ j, j < i + n → vector_resolved P (Irq.vector_table_fill P base n i s) base j := by
  intro n
  induction n with
  | zero => intro i s h j hj; exact h j (by omega)
  | succ n ih =>
    intro i s h j hj
    simp only [Irq.vector_table_fill]
    apply ih (i + 1) _ _ j (by omega)
    intro k hk
    by_cases hki : k = i
    · subst hki
      refine ⟨(insn_cache_page_get P s.decode.insn_cache ((base + k * 4) % 2 ^ 32)).1, ?_, ?_⟩
      · exact page_get_lookup P s.decode.insn_cache ((base + k * 4) % 2 ^ 32)
      · simp only [if_true]
        rfl
    · obtain ⟨page, h1, h2⟩ := h k (by omega)
      refine ⟨page, ?_, ?_⟩
      · exact page_get_preserves P s.decode.insn_cache _ _ page h1
      · have hne : ((k : Nat) : Int) ≠ (i : Int) := by
          intro e; exact hki (by exact_mod_cast e)
        simp only [if_neg hne]
        exact h2

theorem vector_table_set_resolved (P : Nat) (s : Iss) (base : Nat) :
    ∀ j, j < 35 → vector_resolved P (Irq.vector_table_set P s base) base j := by
  intro j hj
  have h1 := vector_table_fill_resolved P base 32 0 s (fun j hj => absurd hj (by omega))
  have h2 := vector_table_fill_resolved P base 3 32
    (Irq.vector_table_fill P base 32 0 s) (fun j hj => h1 j (by omega)) j (by omega)
  exact h2

/-- After `Irq::vector_table_set(base)` the stored `vector_base` is `base` and every slot
`i` of the 35 slots equals `insn_cache_get(base + 4 * i)`. -/
theorem vector_table_set_invariant (P : Nat) (s : Iss) (base : Nat) :
    (Irq.vector_table_set P s base).irq.vector_base = base ∧
    ∀ i : Nat, i < 35 →
      (Irq.vector_table_set P s base).irq.vectors (i : Int)
        = (insn_cache_get P (Irq.vector_table_set P s base).decode.insn_cache
            (((Irq.vector_table_set P s base).irq.vector_base + i * 4) % 2 ^ 32)).1 := by
  refine ⟨rfl, ?_⟩
  intro i hi
  exact vector_resolved_get P _ base i (vector_table_set_resolved P s base i hi)

/-- After `Irq::cache_flush` every slot `i` of the 35 slots equals
`insn_cache_get(vector_base + 4 * i)` for the stored `vector_base`, which is unchanged. -/
theorem cache_flush_invariant (P : Nat) (s : Iss) :
    (Irq.cache_flush P s).irq.vector_base = s.irq.vector_base ∧
    ∀ i : Nat, i < 35 →
      (Irq.cache_flush P s).irq.vectors (i : Int)
        = (insn_cache_get P (Irq.cache_flush P s).decode.insn_cache
            (((Irq.cache_flush P s).irq.vector_base + i * 4) % 2 ^ 32)).1 := by
  have hvb := (vector_table_set_invariant P s s.irq.vector_base).1
  have hres := vector_table_set_resolved P s s.irq.vector_base
  unfold Irq.cache_flush
  generalize Irq.vector_table_set P s s.irq.vector_base = s1 at hvb hres
  refine ⟨hvb, ?_⟩
  intro i hi
  obtain ⟨page, h1, h2⟩ := hres i hi
  have h3 := insn_cache_get_preserves P s1.decode.insn_cache s1.config.debug_handler _ page h1
  show s1.irq.vectors (i : Int) = _
  rw [h2]
  show _ = (insn_cache_get P (insn_cache_get P s1.decode.insn_cache s1.config.debug_handler).2
    ((s1.irq.vector_base + i * 4) % 2 ^ 32)).1
  rw [hvb]
  exact (insn_cache_get_of_lookup P _ _ page h3).symm


/-! ## Exceptions -/

/-- Claim C11, amended. `iss_except_raise` saves the faulting context. For every exception
id that takes the ordinary path (every id other than `ISS_EXCEPT_DEBUG`, and every id at
all in a build without `PRIV_1_10`) it stores the address of the current instruction in
`epc`, copies `irq_enable` into `saved_irq_enable`, clears `irq_enable` and writes
`mcause = 11` (bit 31 clear), leaving `depc` and `debug_saved_irq_enable` alone. For
`ISS_EXCEPT_DEBUG` in a build with `PRIV_1_10` it stores the address in `depc`, copies
`irq_enable` into `debug_saved_irq_enable`, clears `irq_enable` and leaves `epc`,
`saved_irq_enable` and `mcause` unchanged. -/
theorem except_raise_saves_context (PRIV_1_10 : Bool) (ISS_EXCEPT_DEBUG : Int) (P : Nat)
    (s : Iss) (cur : iss_insn_t) (id : Int) (hcur : s.exec.current_insn = some cur) :
    ((PRIV_1_10 = false ∨ id ≠ ISS_EXCEPT_DEBUG) →
      ∃ r, iss_except_raise PRIV_1_10 ISS_EXCEPT_DEBUG P s id = some r ∧
        r.2.csr.epc = cur.addr ∧
        r.2.irq.saved_irq_enable = s.irq.irq_enable ∧
        r.2.irq.irq_enable = 0 ∧
        r.2.csr.mcause = 11 ∧ r.2.csr.mcause.testBit 31 = false ∧
        r.2.csr.depc = s.csr.depc ∧
        r.2.irq.debug_saved_irq_enable = s.irq.debug_saved_irq_enable) ∧
    (PRIV_1_10 = true → id = ISS_EXCEPT_DEBUG →
      ∃ r, iss_except_raise PRIV_1_10 ISS_EXCEPT_DEBUG P s id = some r ∧
        r.2.csr.depc = cur.addr ∧
        r.2.irq.debug_saved_irq_enable = s.irq.irq_enable ∧
        r.2.irq.irq_enable = 0 ∧
        r.2.csr.epc = s.csr.epc ∧
        r.2.irq.saved_irq_enable = s.irq.saved_irq_enable ∧
        r.2.csr.mcause = s.csr.mcause) := by
  have hbit : Nat.testBit 11 31 = false := by decide
  constructor
  · intro h
    unfold iss_except_raise
    simp only [hcur]
    cases PRIV_1_10 with
    | false =>
      simp only [Bool.false_eq_true, if_false]
      by_cases hb : 0 ≤ 32 + id ∧ 32 + id < 35
      · simp only [if_pos hb]
        cases hv : s.irq.vectors (32 + id) with
        | none => exact ⟨_, rfl, rfl, rfl, rfl, rfl, hbit, rfl, rfl⟩
        | some v => exact ⟨_, rfl, rfl, rfl, rfl, rfl, hbit, rfl, rfl⟩
      · simp only [if_neg hb]
        exact ⟨_, rfl, rfl, rfl, rfl, rfl, hbit, rfl, rfl⟩
    | true =>
      have hid : id ≠ ISS_EXCEPT_DEBUG := by
        rcases h with h | h
        · cases h
        · exact h
      simp only [if_true, if_neg hid]
      cases hv : s.irq.vectors 0 with
      | none => exact ⟨_, rfl, rfl, rfl, rfl, rfl, hbit, rfl, rfl⟩
      | some v => exact ⟨_, rfl, rfl, rfl, rfl, rfl, hbit, rfl, rfl⟩
  · intro hp hid
    unfold iss_except_raise
    simp only [hcur, hp, hid, if_true]
    exact ⟨_, rfl, rfl, rfl, rfl, rfl, rfl, rfl⟩

theorem except_raise_saves_context_witness :
    scenario_irq7.exec.current_insn = some { page := 0, addr := 0x1C008100 } ∧
    (2 : Int) ≠ 3 ∧
    (∃ r, iss_except_raise true 3 8 scenario_irq7 2 = some r ∧
        r.2.csr.epc = 0x1C008100 ∧
        r.2.irq.saved_irq_enable = scenario_irq7.irq.irq_enable ∧
        r.2.irq.irq_enable = 0 ∧
        r.2.csr.mcause = 11 ∧ r.2.csr.mcause.testBit 31 = false ∧
        r.2.csr.depc = scenario_irq7.csr.depc ∧
        r.2.irq.debug_saved_irq_enable = scenario_irq7.irq.debug_saved_irq_enable) ∧
    (∃ r, iss_except_raise true 3 8 scenario_irq7 3 = some r ∧
        r.2.csr.depc = 0x1C008100 ∧
        r.2.irq.debug_saved_irq_enable = scenario_irq7.irq.irq_enable ∧
        r.2.irq.irq_enable = 0 ∧
        r.2.csr.epc = scenario_irq7.csr.epc ∧
        r.2.irq.saved_irq_enable = scenario_irq7.irq.saved_irq_enable ∧
        r.2.csr.mcause = scenario_irq7.csr.mcause) :=
  ⟨rfl, by decide,
    (except_raise_saves_context true 3 8 scenario_irq7 { page := 0, addr := 0x1C008100 } 2
      rfl).1 (Or.inr (by decide)),
    (except_raise_saves_context true 3 8 scenario_irq7 { page := 0, addr := 0x1C008100 } 3
      rfl).2 rfl rfl⟩

/-- Claim C11 fails as stated: in a build without `PRIV_1_10` the debug exception takes
the ordinary path. In the scenario state (`epc = depc = mcause = 0`, `irq_enable = 1`,
current instruction at `0x1C008100`) raising `ISS_EXCEPT_DEBUG` leaves `depc` and
`debug_saved_irq_enable` at 0 and writes `epc`, `saved_irq_enable` and `mcause`. -/
theorem except_raise_debug_without_priv :
    (iss_except_raise false 3 8 scenario_irq7 3).map
        (fun r => (r.2.csr.depc, r.2.irq.debug_saved_irq_enable, r.2.csr.epc,
          r.2.irq.saved_irq_enable, r.2.csr.mcause))
      = some (0, 0, 0x1C008100, 1, 11) ∧
    scenario_irq7.csr.epc = 0 ∧ scenario_irq7.csr.mcause = 0 ∧
    scenario_irq7.irq.saved_irq_enable = 0 ∧ scenario_irq7.irq.irq_enable = 1 := by
  decide

/-- In a build without `PRIV_1_10`, an exception id whose slot `32 + id` lies outside the
35-slot table makes `iss_except_raise` read outside the array: the context is saved and the
pointer returned has no defined value. -/
theorem except_raise_outside_table (ISS_EXCEPT_DEBUG : Int) (P : Nat)
    (s : Iss) (cur : iss_insn_t) (id : Int) (hcur : s.exec.current_insn = some cur)
    (hout : ¬ (0 ≤ 32 + id ∧ 32 + id < 35)) :
    ∃ r, iss_except_raise false ISS_EXCEPT_DEBUG P s id = some r ∧ r.1 = none ∧
      r.2.csr.epc = cur.addr ∧ r.2.decode = s.decode := by
  unfold iss_except_raise
  simp only [hcur, Bool.false_eq_true, if_false, if_neg hout]
  exact ⟨_, rfl, rfl, rfl, rfl⟩

/-- Claim C13, evaluated on the code. Take the state whose table was resolved from base
`0x1C008000` and run `Irq::reset`: `vector_base` becomes 0 while the slots are not
re-resolved, so slot 0 still points to the entry of `0x1C008000` and slot 34 to the entry of
`0x1C008088`, whereas `insn_cache_get(vector_base + 4 * i)` yields the entries of addresses
0 and `0x88`. The method re-resolves `debug_handler` only. -/
theorem irq_reset_leaves_stale_vectors :
    (Irq.reset 8 scenario_booted true).irq.vector_base = 0 ∧
    (Irq.reset 8 scenario_booted true).irq.vectors 0
      = some { page := 1, addr := 0x1C008000 } ∧
    (insn_cache_get 8 (Irq.reset 8 scenario_booted true).decode.insn_cache (0 + 0 * 4)).1
      = some { page := 2, addr := 0 } ∧
    (Irq.reset 8 scenario_booted true).irq.vectors 34
      = some { page := 1, addr := 0x1C008088 } ∧
    (insn_cache_get 8 (Irq.reset 8 scenario_booted true).decode.insn_cache (0 + 34 * 4)).1
      = some { page := 2, addr := 0x88 } ∧
    (Irq.reset 8 scenario_booted true).irq.debug_handler
      = (insn_cache_get 8 scenario_booted.decode.insn_cache 0x1C0080F0).1 := by
  decide

/-- The loop of `Irq::vector_table_set` writes the table and the cache only. -/
theorem vector_table_fill_frame (P base : Nat) :
    ∀ (n i : Nat) (s : Iss),
      (Irq.vector_table_fill P base n i s).exec = s.exec ∧
      (Irq.vector_table_fill P base n i s).csr = s.csr ∧
      (Irq.vector_table_fill P base n i s).config = s.config ∧
      (Irq.vector_table_fill P base n i s).calls = s.calls ∧
      (Irq.vector_table_fill P base n i s).irq.vector_base = s.irq.vector_base := by
  intro n
  induction n with
  | zero => intro i s; exact ⟨rfl, rfl, rfl, rfl, rfl⟩
  | succ n ih =>
    intro i s
    simp only [Irq.vector_table_fill]
    exact ih (i + 1) _

theorem vector_table_set_frame (P : Nat) (s : Iss) (base : Nat) :
    (Irq.vector_table_set P s base).exec = s.exec ∧
    (Irq.vector_table_set P s base).csr = s.csr ∧
    (Irq.vector_table_set P s base).config = s.config ∧
    (Irq.vector_table_set P s base).calls = s.calls := by
  have h1 := vector_table_fill_frame P base 32 0 s
  have h2 := vector_table_fill_frame P base 3 32 (Irq.vector_table_fill P base 32 0 s)
  refine ⟨?_, ?_, ?_, ?_⟩
  · show (Irq.vector_table_fill P base 3 32 (Irq.vector_table_fill P base 32 0 s)).exec = _
    rw [h2.1, h1.1]
  · show (Irq.vector_table_fill P base 3 32 (Irq.vector_table_fill P base 32 0 s)).csr = _
    rw [h2.2.1, h1.2.1]
  · show (Irq.vector_table_fill P base 3 32 (Irq.vector_table_fill P base 32 0 s)).config = _
    rw [h2.2.2.1, h1.2.2.1]
  · show (Irq.vector_table_fill P base 3 32 (Irq.vector_table_fill P base 32 0 s)).calls = _
    rw [h2.2.2.2.1, h1.2.2.2.1]

theorem and_mask_high (v : Nat) (h : v < 2 ^ 32) : v &&& 0xFFFFFF00 = v - v % 256 := by
  have hm : (0xFFFFFF00 : Nat) = (2 ^ 24 - 1) <<< 8 := by decide
  have hv : v - v % 256 = (v >>> 8) <<< 8 := by
    rw [Nat.shiftLeft_eq, Nat.shiftRight_eq_div_pow]
    omega
  rw [hv, hm]
  apply Nat.eq_of_testBit_eq
  intro i
  rw [Nat.testBit_and, Nat.testBit_shiftLeft, Nat.testBit_shiftLeft, Nat.testBit_shiftRight,
    Nat.testBit_two_pow_sub_one]
  by_cases h8 : 8 ≤ i
  · by_cases h32 : i < 32
    · have : i - 8 < 24 := by omega
      simp [h8, this]
    · have hlt : v < 2 ^ i := lt_of_lt_of_le h (Nat.pow_le_pow_right (by norm_num) (by omega))
      have e1 : v.testBit i = false := Nat.testBit_lt_two_pow hlt
      have e2 : 8 + (i - 8) = i := by omega
      simp [e1, e2]
  · simp [h8]

theorem bootaddr_mask_value : to_uim (sim_not ((1 <<< 8) - 1)) = 0xFFFFFF00 := by decide

/-- Claim C14. For every 32-bit value, `Exec::bootaddr_sync(value)` stores `value` as the
boot address and sets the vector table with base `value & ~0xFF`: `vector_base` is
`value & 0xFFFFFF00`, that is `value` with its low 8 bits cleared, and each of the 35 slots
holds `insn_cache_get(vector_base + 4 * i)`. For `0x1C008080` the base is `0x1C008000`. -/
theorem bootaddr_sync_masks_vector_base (P : Nat) (s : Iss) (value : Nat)
    (hv : value < 2 ^ 32) :
    (Exec.bootaddr_sync P s value).exec.bootaddr_reg = value ∧
    (Exec.bootaddr_sync P s value).irq.vector_base = value &&& 0xFFFFFF00 ∧
    (Exec.bootaddr_sync P s value).irq.vector_base = value - value % 256 ∧
    (Exec.bootaddr_sync P s value).irq.vector_base % 256 = 0 ∧
    (value = 0x1C008080 → (Exec.bootaddr_sync P s value).irq.vector_base = 0x1C008000) ∧
    ∀ i : Nat, i < 35 →
      (Exec.bootaddr_sync P s value).irq.vectors (i : Int)
        = (insn_cache_get P (Exec.bootaddr_sync P s value).decode.insn_cache
            (((Exec.bootaddr_sync P s value).irq.vector_base + i * 4) % 2 ^ 32)).1 := by
  have hmod : value % 2 ^ 32 = value := Nat.mod_eq_of_lt hv
  have hdef : Exec.bootaddr_sync P s value
      = Irq.vector_table_set P { s with exec.bootaddr_reg := value } (value &&& 0xFFFFFF00) := by
    unfold Exec.bootaddr_sync
    simp only [bootaddr_mask_value, hmod]
  have hinv := vector_table_set_invariant P { s with exec.bootaddr_reg := value }
    (value &&& 0xFFFFFF00)
  rw [hdef]
  generalize hs1 : Irq.vector_table_set P { s with exec.bootaddr_reg := value }
    (value &&& 0xFFFFFF00) = s1 at hinv
  have hreg : s1.exec.bootaddr_reg = value := by
    rw [← hs1, (vector_table_set_frame P _ _).1]
  have hbase : s1.irq.vector_base = value - value % 256 := by
    rw [hinv.1, and_mask_high value hv]
  refine ⟨hreg, hinv.1, hbase, ?_, ?_, hinv.2⟩
  · rw [hbase]; omega
  · intro h; rw [hbase, h]


theorem bootaddr_sync_masks_vector_base_witness :
    (0x1C008080 : Nat) < 2 ^ 32 ∧
    (Exec.bootaddr_sync 8 scenario_irq7 0x1C008080).exec.bootaddr_reg = 0x1C008080 ∧
    (Exec.bootaddr_sync 8 scenario_irq7 0x1C008080).irq.vector_base = 0x1C008000 ∧
    (Exec.bootaddr_sync 8 scenario_irq7 0x1C008080).irq.vector_base % 256 = 0 :=
  ⟨by decide,
    (bootaddr_sync_masks_vector_base 8 scenario_irq7 0x1C008080 (by decide)).1,
    (bootaddr_sync_masks_vector_base 8 scenario_irq7 0x1C008080 (by decide)).2.2.2.2.1 rfl,
    (bootaddr_sync_masks_vector_base 8 scenario_irq7 0x1C008080 (by decide)).2.2.2.1⟩

/-! ## Fetch enable -/

/-- Claim C16. Fetch-enable edges. `Exec::fetchen_sync(true)` while `fetch_enable` was false
makes `current_insn` the cache entry of `bootaddr + bootaddr_offset`, asks the prefetcher
for it and decrements the stall count; `fetchen_sync(false)` while `fetch_enable` was true
increments the stall count and leaves `current_insn` unchanged; a call that does not change
the level leaves the whole state as it was. -/
theorem fetchen_sync_edges (P : Nat) (s : Iss) :
    (s.exec.fetch_enable_reg = false →
      (Exec.fetchen_sync P s true).exec.current_insn
        = (insn_cache_get P s.decode.insn_cache
            ((s.exec.bootaddr_reg + s.exec.bootaddr_offset) % 2 ^ 32)).1 ∧
      (Exec.fetchen_sync P s true).exec.stalled = s.exec.stalled - 1 ∧
      (Exec.fetchen_sync P s true).exec.fetch_enable_reg = true ∧
      (Exec.fetchen_sync P s true).calls
        = s.calls ++ [ext_call.prefetcher_fetch (Exec.fetchen_sync P s true).exec.current_insn]) ∧
    (s.exec.fetch_enable_reg = true →
      (Exec.fetchen_sync P s false).exec.stalled = s.exec.stalled + 1 ∧
      (Exec.fetchen_sync P s false).exec.current_insn = s.exec.current_insn ∧
      (Exec.fetchen_sync P s false).exec.fetch_enable_reg = false ∧
      (Exec.fetchen_sync P s false).calls = s.calls) ∧
    (∀ active : Bool, s.exec.fetch_enable_reg = active → Exec.fetchen_sync P s active = s) := by
  refine ⟨?_, ?_, ?_⟩
  · intro h
    unfold Exec.fetchen_sync
    simp only [h, and_self, if_true]
    exact ⟨rfl, rfl, rfl, rfl⟩
  · intro h
    unfold Exec.fetchen_sync
    simp only [h, Bool.true_eq_false, false_and, and_self, if_false, if_true]
    exact ⟨rfl, rfl, rfl, rfl⟩
  · intro active h
    unfold Exec.fetchen_sync
    cases active with
    | false =>
      simp only [h, Bool.false_eq_true, and_false, false_and, if_false]
      rw [← h]
    | true =>
      simp only [h, Bool.true_eq_false, and_false, false_and, if_false]
      rw [← h]

theorem fetchen_sync_edges_witness :
    scenario_fetch_off.exec.fetch_enable_reg = false ∧
    scenario_fetch_off.exec.bootaddr_reg = 0x1C008080 ∧
    scenario_fetch_off.exec.bootaddr_offset = 0x80 ∧
    scenario_fetch_off.exec.stalled = 1 ∧
    (Exec.fetchen_sync 8 scenario_fetch_off true).exec.current_insn
      = some { page := 1, addr := 0x1C008100 } ∧
    (Exec.fetchen_sync 8 scenario_fetch_off true).exec.stalled = 0 ∧
    scenario_irq7.exec.fetch_enable_reg = true ∧
    (Exec.fetchen_sync 8 scenario_irq7 false).exec.stalled = scenario_irq7.exec.stalled + 1 ∧
    (Exec.fetchen_sync 8 scenario_irq7 false).exec.current_insn
      = scenario_irq7.exec.current_insn ∧
    Exec.fetchen_sync 8 scenario_irq7 true = scenario_irq7 :=
  ⟨rfl, rfl, rfl, rfl,
    ((fetchen_sync_edges 8 scenario_fetch_off).1 rfl).1.trans (by decide),
    ((fetchen_sync_edges 8 scenario_fetch_off).1 rfl).2.1.trans (by decide),
    rfl,
    ((fetchen_sync_edges 8 scenario_irq7).2.1 rfl).1,
    ((fetchen_sync_edges 8 scenario_irq7).2.1 rfl).2.1,
    (fetchen_sync_edges 8 scenario_irq7).2.2 true rfl⟩

/-! ## Single stepping -/

theorem or_one_bits (h : Nat) :
    (h ||| 1).testBit 0 = true ∧ ∀ i, 0 < i → (h ||| 1).testBit i = h.testBit i := by
  refine ⟨?_, ?_⟩
  · rw [Nat.testBit_or]
    have : Nat.testBit 1 0 = true := by decide
    rw [this, Bool.or_true]
  · intro i hi
    rw [Nat.testBit_or]
    have : Nat.testBit 1 i = false := by
      cases i with
      | zero => omega
      | succ j => simp [Nat.testBit_succ]
    rw [this, Bool.or_false]

/-- The fields that `DbgUnit::set_halt_mode` writes and some that it leaves alone. -/
theorem set_halt_mode_fields (s : Iss) (halted : Bool) (cause : Int) :
    (DbgUnit.set_halt_mode s halted cause).halted = halted ∧
    (DbgUnit.set_halt_mode s halted cause).dbgunit.halt_cause = cause ∧
    (DbgUnit.set_halt_mode s halted cause).do_step = s.do_step ∧
    (DbgUnit.set_halt_mode s halted cause).hit_reg = s.hit_reg ∧
    (DbgUnit.set_halt_mode s halted cause).exec = s.exec ∧
    (DbgUnit.set_halt_mode s halted cause).state = s.state ∧
    (DbgUnit.set_halt_mode s halted cause).step_mode = s.step_mode := by
  unfold DbgUnit.set_halt_mode
  simp only []
  split_ifs <;> exact ⟨rfl, rfl, rfl, rfl, rfl, rfl, rfl⟩

/-- The two cases of `Exec::dbg_unit_step_check`: the step halt, with and without a GDB
server, and the case in which nothing changes. -/
theorem dbg_unit_step_check_cases (s : Iss) :
    (s.step_mode = true → s.state.debug_mode = false →
      (Exec.dbg_unit_step_check s).do_step = false ∧
      (Exec.dbg_unit_step_check s).hit_reg = s.hit_reg ||| 1 ∧
      (Exec.dbg_unit_step_check s).hit_reg.testBit 0 = true ∧
      (∀ i, 0 < i → (Exec.dbg_unit_step_check s).hit_reg.testBit i = s.hit_reg.testBit i) ∧
      (Exec.dbg_unit_step_check s).halted = true ∧
      (s.gdbserver.gdbserver = false →
        (Exec.dbg_unit_step_check s).dbgunit.halt_cause = 15) ∧
      (s.gdbserver.gdbserver = true →
        (Exec.dbg_unit_step_check s).dbgunit.halt_cause = s.dbgunit.halt_cause ∧
        (Exec.dbg_unit_step_check s).calls = s.calls ++ [ext_call.gdbserver_signal])) ∧
    ((s.step_mode = false ∨ s.state.debug_mode = true) → Exec.dbg_unit_step_check s = s) := by
  constructor
  · intro h1 h2
    have hb := or_one_bits s.hit_reg
    cases hg : s.gdbserver.gdbserver with
    | true =>
      have e : Exec.dbg_unit_step_check s
          = { s with
              do_step := false, hit_reg := s.hit_reg ||| 1, halted := true
              calls := s.calls ++ [ext_call.gdbserver_signal] } := by
        unfold Exec.dbg_unit_step_check
        simp only [h1, h2, hg, and_self, if_true]
      rw [e]
      exact ⟨rfl, rfl, hb.1, hb.2, rfl, fun h => (by cases h), fun _ => ⟨rfl, rfl⟩⟩
    | false =>
      have e : Exec.dbg_unit_step_check s
          = DbgUnit.set_halt_mode { s with do_step := false, hit_reg := s.hit_reg ||| 1 }
              true HALT_CAUSE_STEP := by
        unfold Exec.dbg_unit_step_check
        simp only [h1, h2, hg, and_self, if_true, Bool.false_eq_true, if_false]
      rw [e]
      have hf := set_halt_mode_fields { s with do_step := false, hit_reg := s.hit_reg ||| 1 }
        true HALT_CAUSE_STEP
      refine ⟨hf.2.2.1, hf.2.2.2.1, ?_, ?_, hf.1, fun _ => hf.2.1, fun h => (by cases h)⟩
      · rw [hf.2.2.2.1]; exact hb.1
      · rw [hf.2.2.2.1]; exact hb.2
  · intro h
    unfold Exec.dbg_unit_step_check
    rw [if_neg]
    rintro ⟨h1, h2⟩
    rcases h with h | h
    · rw [h] at h1; cases h1
    · rw [h] at h2; cases h2

/-- Claim C17, amended. Step halt. When `Exec::dbg_unit_step_check` runs with `step_mode`
set and `debug_mode` clear, afterwards `do_step` is false, bit 0 of `hit_reg` is set with
all other bits unchanged and the core is halted. Without a GDB server the halt goes through
the debug unit and the halt cause is STEP (15); with a GDB server attached the server is
signalled and the halt cause is left as it was. When `step_mode` is clear or `debug_mode`
is set nothing changes. -/
theorem dbg_unit_step_check_effect (s : Iss) :
    (s.step_mode = true → s.state.debug_mode = false →
      (Exec.dbg_unit_step_check s).do_step = false ∧
      (Exec.dbg_unit_step_check s).hit_reg = s.hit_reg ||| 1 ∧
      (Exec.dbg_unit_step_check s).hit_reg.testBit 0 = true ∧
      (∀ i, 0 < i → (Exec.dbg_unit_step_check s).hit_reg.testBit i = s.hit_reg.testBit i) ∧
      (Exec.dbg_unit_step_check s).halted = true ∧
      (s.gdbserver.gdbserver = false →
        (Exec.dbg_unit_step_check s).dbgunit.halt_cause = 15) ∧
      (s.gdbserver.gdbserver = true →
        (Exec.dbg_unit_step_check s).dbgunit.halt_cause = s.dbgunit.halt_cause ∧
        (Exec.dbg_unit_step_check s).calls = s.calls ++ [ext_call.gdbserver_signal])) ∧
    ((s.step_mode = false ∨ s.state.debug_mode = true) → Exec.dbg_unit_step_check s = s) :=
  dbg_unit_step_check_cases s


theorem dbg_unit_step_check_effect_witness :
    scenario_step.step_mode = true ∧ scenario_step.state.debug_mode = false ∧
    scenario_step.gdbserver.gdbserver = false ∧ scenario_step.hit_reg = 6 ∧
    (Exec.dbg_unit_step_check scenario_step).do_step = false ∧
    (Exec.dbg_unit_step_check scenario_step).hit_reg = 7 ∧
    (Exec.dbg_unit_step_check scenario_step).halted = true ∧
    (Exec.dbg_unit_step_check scenario_step).dbgunit.halt_cause = 15 ∧
    (scenario_irq7.step_mode = false ∨ scenario_irq7.state.debug_mode = true) ∧
    Exec.dbg_unit_step_check scenario_irq7 = scenario_irq7 :=
  ⟨rfl, rfl, rfl, rfl,
    ((dbg_unit_step_check_effect scenario_step).1 rfl rfl).1,
    ((dbg_unit_step_check_effect scenario_step).1 rfl rfl).2.1,
    ((dbg_unit_step_check_effect scenario_step).1 rfl rfl).2.2.2.2.1,
    ((dbg_unit_step_check_effect scenario_step).1 rfl rfl).2.2.2.2.2.1 rfl,
    Or.inl rfl,
    (dbg_unit_step_check_effect scenario_irq7).2 (Or.inl rfl)⟩

/-- Claim C17 fails as stated: with a GDB server attached the step halt sets `halted` and
signals the server, and the halt cause keeps its earlier value 0 instead of STEP (15). -/
theorem step_check_gdb_keeps_halt_cause :
    scenario_step_gdb.step_mode = true ∧ scenario_step_gdb.state.debug_mode = false ∧
    scenario_step_gdb.gdbserver.gdbserver = true ∧
    scenario_step_gdb.dbgunit.halt_cause = 0 ∧
    (Exec.dbg_unit_step_check scenario_step_gdb).halted = true ∧
    (Exec.dbg_unit_step_check scenario_step_gdb).dbgunit.halt_cause = 0 ∧
    (Exec.dbg_unit_step_check scenario_step_gdb).dbgunit.halt_cause ≠ HALT_CAUSE_STEP ∧
    (Exec.dbg_unit_step_check scenario_step_gdb).calls = [ext_call.gdbserver_signal] := by
  decide


theorem slow_path_entry_fields (c : Iss → Bool) (s : Iss) :
    (Exec.slow_path_entry c s).irq = s.irq ∧ (Exec.slow_path_entry c s).state = s.state ∧
    (Exec.slow_path_entry c s).exec.current_insn = s.exec.current_insn ∧
    (Exec.slow_path_entry c s).exec.stalled = s.exec.stalled ∧
    (Exec.slow_path_entry c s).csr = s.csr ∧
    (Exec.slow_path_entry c s).calls = s.calls ++ [ext_call.insn_exec_profiling] ∧
    (Exec.slow_path_entry c s).step_mode = s.step_mode ∧
    (Exec.slow_path_entry c s).do_step = s.do_step ∧
    (Exec.slow_path_entry c s).halted = s.halted ∧
    (Exec.slow_path_entry c s).hit_reg = s.hit_reg ∧
    (Exec.slow_path_entry c s).gdbserver = s.gdbserver := by
  unfold Exec.slow_path_entry
  simp only []
  split <;> exact ⟨rfl, rfl, rfl, rfl, rfl, rfl, rfl, rfl, rfl, rfl, rfl⟩

/-- The slow-path handler when `Irq::check` fires nothing and the core is not stalled: one
instruction is executed, then the power hook and the step check run. -/
theorem slow_path_idle_eq (c : Iss → Bool)
    (h : Iss → Option iss_insn_t → Option iss_insn_t × Iss) (s : Iss)
    (hst : s.timing.stall_cycles = 0)
    (hdbg : s.irq.req_debug = false ∨ s.state.debug_mode = true)
    (hidle : s.irq.req_irq = -1 ∨ s.irq.irq_enable = 0) (hns : s.exec.stalled = 0) :
    Exec.exec_instr_check_all c h s
      = some (Exec.dbg_unit_step_check
          { Exec.exec_one h (Exec.slow_path_entry c s) with
            calls := (Exec.exec_one h (Exec.slow_path_entry c s)).calls ++
              [ext_call.insn_exec_power s.exec.current_insn] }) := by
  have hf := slow_path_entry_fields c s
  have hchk : Irq.check (Exec.slow_path_entry c s) = some (0, Exec.slow_path_entry c s) :=
    (check_fires_nothing_aux (Exec.slow_path_entry c s)
      (by rw [hf.1, hf.2.1]; exact hdbg) (by rw [hf.1]; exact hidle))
  unfold Exec.exec_instr_check_all
  rw [if_pos hst]
  simp only [hchk]
  rw [if_pos ⟨trivial, by rw [hf.2.2.2.1]; exact hns⟩, hf.2.2.1]

/-- The slow-path handler when `Irq::check` fires nothing and the core is stalled: no
instruction is executed, but the power hook and the step check run. -/
theorem slow_path_stalled_eq (c : Iss → Bool)
    (h : Iss → Option iss_insn_t → Option iss_insn_t × Iss) (s : Iss)
    (hst : s.timing.stall_cycles = 0)
    (hdbg : s.irq.req_debug = false ∨ s.state.debug_mode = true)
    (hidle : s.irq.req_irq = -1 ∨ s.irq.irq_enable = 0) (hns : s.exec.stalled ≠ 0) :
    Exec.exec_instr_check_all c h s
      = some (Exec.dbg_unit_step_check
          { Exec.slow_path_entry c s with
            calls := (Exec.slow_path_entry c s).calls ++
              [ext_call.insn_exec_power s.exec.current_insn] }) := by
  have hf := slow_path_entry_fields c s
  have hchk : Irq.check (Exec.slow_path_entry c s) = some (0, Exec.slow_path_entry c s) :=
    (check_fires_nothing_aux (Exec.slow_path_entry c s)
      (by rw [hf.1, hf.2.1]; exact hdbg) (by rw [hf.1]; exact hidle))
  unfold Exec.exec_instr_check_all
  rw [if_pos hst]
  simp only [hchk]
  rw [if_neg (fun hh => hns (by rw [← hf.2.2.2.1]; exact hh.2)), hf.2.2.1]

/-- The slow-path handler when `Irq::check` fires (returns 1): no instruction is executed,
but the power hook and the step check run. -/
theorem slow_path_fired_eq (c : Iss → Bool)
    (h : Iss → Option iss_insn_t → Option iss_insn_t × Iss) (s s3 : Iss)
    (hst : s.timing.stall_cycles = 0)
    (hchk : Irq.check (Exec.slow_path_entry c s) = some (1, s3)) :
    Exec.exec_instr_check_all c h s
      = some (Exec.dbg_unit_step_check
          { s3 with calls := s3.calls ++ [ext_call.insn_exec_power s.exec.current_insn] }) := by
  have hf := slow_path_entry_fields c s
  unfold Exec.exec_instr_check_all
  rw [if_pos hst]
  simp only [hchk]
  rw [if_neg (fun hh => absurd hh.1 (by decide)), hf.2.2.1]


/-- The step check leaves the instruction pointers, the registers and the interrupt state
alone, and the calls it adds go to the GDB server, the clock and the port `halt_status`. -/
theorem dbg_unit_step_check_frame (s : Iss) :
    (Exec.dbg_unit_step_check s).exec = s.exec ∧
    (Exec.dbg_unit_step_check s).csr = s.csr ∧
    (Exec.dbg_unit_step_check s).irq = s.irq ∧
    (Exec.dbg_unit_step_check s).state = s.state ∧
    ∃ l, (Exec.dbg_unit_step_check s).calls = s.calls ++ l ∧
      ext_call.insn_account ∉ l ∧ ∀ i, ext_call.insn_exec i ∉ l := by
  unfold Exec.dbg_unit_step_check DbgUnit.set_halt_mode
  simp only []
  split_ifs
  · exact ⟨rfl, rfl, rfl, rfl, [ext_call.gdbserver_signal], rfl, by simp, by simp⟩
  · exact ⟨rfl, rfl, rfl, rfl,
      [ext_call.clock_release, ext_call.halt_status_itf_sync true], by simp, by simp, by simp⟩
  · exact ⟨rfl, rfl, rfl, rfl, [ext_call.clock_release], rfl, by simp, by simp⟩
  · exact ⟨rfl, rfl, rfl, rfl,
      [ext_call.clock_retain, ext_call.halt_status_itf_sync true], by simp, by simp, by simp⟩
  · exact ⟨rfl, rfl, rfl, rfl, [ext_call.clock_retain], rfl, by simp, by simp⟩
  · exact ⟨rfl, rfl, rfl, rfl, [ext_call.halt_status_itf_sync true], rfl, by simp, by simp⟩
  · exact ⟨rfl, rfl, rfl, rfl, [], by simp, by simp, by simp⟩
  · exact ⟨rfl, rfl, rfl, rfl, [], by simp, by simp, by simp⟩


/-- The interrupt branch of `Irq::check`, field by field. -/
theorem check_accept_fields (s : Iss) (cur : iss_insn_t)
    (hcur : s.exec.current_insn = some cur)
    (hdbg : s.irq.req_debug = false ∨ s.state.debug_mode = true)
    (hreq : s.irq.req_irq ≠ -1) (hen : s.irq.irq_enable ≠ 0) :
    ∃ s3, Irq.check s = some (1, s3) ∧
      s3.exec.current_insn = s.irq.vectors s.irq.req_irq ∧
      s3.csr.epc = cur.addr ∧
      s3.state = s.state ∧ s3.step_mode = s.step_mode ∧
      s3.calls = s.calls ++ [ext_call.irq_ack_itf_sync s.irq.req_irq,
        ext_call.stall_insn_dependency_account 4,
        ext_call.prefetcher_fetch (s.irq.vectors s.irq.req_irq)] :=
  ⟨_, check_accept_eq s cur hcur hdbg hreq hen, rfl, rfl, rfl, rfl, by simp⟩

/-- The debug branch of `Irq::check`, field by field. -/
theorem check_debug_fields (s : Iss) (cur : iss_insn_t)
    (hcur : s.exec.current_insn = some cur)
    (hreq : s.irq.req_debug = true) (hmode : s.state.debug_mode = false) :
    ∃ s3, Irq.check s = some (1, s3) ∧
      s3.exec.current_insn = s.irq.debug_handler ∧
      s3.state.debug_mode = true ∧
      s3.step_mode = s.step_mode ∧ s3.halted = s.halted ∧ s3.do_step = s.do_step ∧
      s3.hit_reg = s.hit_reg ∧ s3.calls = s.calls :=
  ⟨_, check_debug_eq s cur hcur hreq hmode, rfl, rfl, rfl, rfl, rfl, rfl, rfl⟩

/-- The power hook followed by the step check, applied to any state `t`: no instruction is
executed or accounted, the instruction pointers and registers of `t` are kept, and the step
halt is raised exactly when `step_mode` is set and `debug_mode` is clear in `t`. -/
theorem power_then_step_check (t : Iss) (insn : Option iss_insn_t) :
    ∃ r, r = Exec.dbg_unit_step_check
        { t with calls := t.calls ++ [ext_call.insn_exec_power insn] } ∧
      r.exec = t.exec ∧ r.csr = t.csr ∧ r.state = t.state ∧
      (∃ l, r.calls = t.calls ++ l ∧ ext_call.insn_account ∉ l ∧
        ∀ i, ext_call.insn_exec i ∉ l) ∧
      (t.step_mode = true → t.state.debug_mode = false →
        r.halted = true ∧ r.do_step = false ∧ r.hit_reg.testBit 0 = true) ∧
      ((t.step_mode = false ∨ t.state.debug_mode = true) →
        r.halted = t.halted ∧ r.do_step = t.do_step ∧ r.hit_reg = t.hit_reg) := by
  have hfr := dbg_unit_step_check_frame
    { t with calls := t.calls ++ [ext_call.insn_exec_power insn] }
  have hef := dbg_unit_step_check_cases
    { t with calls := t.calls ++ [ext_call.insn_exec_power insn] }
  obtain ⟨fe, fc, _, fs, l, hl, hl1, hl2⟩ := hfr
  refine ⟨_, rfl, fe, fc, fs, ⟨[ext_call.insn_exec_power insn] ++ l, ?_, ?_, ?_⟩, ?_, ?_⟩
  · rw [hl]; simp only [List.append_assoc]
  · simp only [List.mem_append, List.mem_singleton, not_or]
    exact ⟨by simp, hl1⟩
  · intro i
    simp only [List.mem_append, List.mem_singleton, not_or]
    exact ⟨by simp, hl2 i⟩
  · intro h1 h2
    have e := hef.1 h1 h2
    exact ⟨e.2.2.2.2.1, e.1, e.2.2.1⟩
  · intro h1
    rw [hef.2 h1]
    exact ⟨rfl, rfl, rfl⟩


/-- Claim C18, amended. One invocation of the slow-path handler with no stall cycle
pending, `step_mode` set and `debug_mode` clear, from a state with a current instruction:

* when an enabled interrupt is pending, the interrupt is accepted and no instruction is
  executed or accounted (the outcome does not depend on the instruction handler), yet the
  step halt is raised: `halted` is set, `do_step` is cleared, bit 0 of `hit_reg` is set;
* when nothing is due but the core is stalled, no instruction is executed and the step
  halt is raised all the same;
* when nothing is due and the core is not stalled, exactly one instruction is executed
  and accounted, and then the step check runs;
* when a debug request is pending, debug mode is entered, no instruction is executed and
  no step halt is raised.

No invocation executes a second instruction. -/
theorem slow_path_step_halt (c : Iss → Bool)
    (h : Iss → Option iss_insn_t → Option iss_insn_t × Iss) (s : Iss) (cur : iss_insn_t)
    (hst : s.timing.stall_cycles = 0) (hcur : s.exec.current_insn = some cur)
    (hstep : s.step_mode = true) (hmode : s.state.debug_mode = false) :
    (s.irq.req_debug = false → s.irq.req_irq ≠ -1 → s.irq.irq_enable ≠ 0 →
      ∃ r, Exec.exec_instr_check_all c h s = some r ∧
        (∀ h1, Exec.exec_instr_check_all c h1 s = some r) ∧
        (∃ l, r.calls = s.calls ++ l ∧ ext_call.insn_account ∉ l ∧
          ∀ i, ext_call.insn_exec i ∉ l) ∧
        r.exec.current_insn = s.irq.vectors s.irq.req_irq ∧
        r.csr.epc = cur.addr ∧
        r.halted = true ∧ r.do_step = false ∧ r.hit_reg.testBit 0 = true) ∧
    (s.irq.req_debug = false → (s.irq.req_irq = -1 ∨ s.irq.irq_enable = 0) →
      s.exec.stalled ≠ 0 →
      ∃ r, Exec.exec_instr_check_all c h s = some r ∧
        (∀ h1, Exec.exec_instr_check_all c h1 s = some r) ∧
        (∃ l, r.calls = s.calls ++ l ∧ ext_call.insn_account ∉ l ∧
          ∀ i, ext_call.insn_exec i ∉ l) ∧
        r.exec.current_insn = some cur ∧
        r.halted = true ∧ r.do_step = false ∧ r.hit_reg.testBit 0 = true) ∧
    (s.irq.req_debug = false → (s.irq.req_irq = -1 ∨ s.irq.irq_enable = 0) →
      s.exec.stalled = 0 →
      Exec.exec_instr_check_all c h s
        = some (Exec.dbg_unit_step_check
            { Exec.exec_one h (Exec.slow_path_entry c s) with
              calls := (Exec.exec_one h (Exec.slow_path_entry c s)).calls ++
                [ext_call.insn_exec_power (some cur)] }) ∧
      (Exec.exec_one h (Exec.slow_path_entry c s)).calls
        = (h { Exec.slow_path_entry c s with
                calls := s.calls ++ [ext_call.insn_exec_profiling] ++
                  [ext_call.insn_exec (some cur)] } (some cur)).2.calls ++
          [ext_call.prefetcher_fetch
            (h { Exec.slow_path_entry c s with
                  calls := s.calls ++ [ext_call.insn_exec_profiling] ++
                    [ext_call.insn_exec (some cur)] } (some cur)).1] ++
          [ext_call.insn_account] ∧
      (Exec.exec_one h (Exec.slow_path_entry c s)).exec.prev_insn = some cur) ∧
    (s.irq.req_debug = true →
      ∃ r, Exec.exec_instr_check_all c h s = some r ∧
        (∀ h1, Exec.exec_instr_check_all c h1 s = some r) ∧
        (∃ l, r.calls = s.calls ++ l ∧ ext_call.insn_account ∉ l ∧
          ∀ i, ext_call.insn_exec i ∉ l) ∧
        r.state.debug_mode = true ∧
        r.exec.current_insn = s.irq.debug_handler ∧
        r.halted = s.halted ∧ r.do_step = s.do_step ∧ r.hit_reg = s.hit_reg) := by
  have hf := slow_path_entry_fields c s
  have hcur1 : (Exec.slow_path_entry c s).exec.current_insn = some cur := by
    rw [hf.2.2.1]; exact hcur
  refine ⟨?_, ?_, ?_, ?_⟩
  · intro hnd hreq hen
    obtain ⟨s3, hchk, h3i, h3e, h3s, h3m, h3c⟩ :=
      check_accept_fields (Exec.slow_path_entry c s) cur hcur1
        (by rw [hf.1]; exact Or.inl hnd) (by rw [hf.1]; exact hreq) (by rw [hf.1]; exact hen)
    obtain ⟨r, hr, re, rc, _, ⟨l, hl, hl1, hl2⟩, rstep, _⟩ :=
      power_then_step_check s3 s.exec.current_insn
    have key := fun h1 => (slow_path_fired_eq c h1 s s3 hst hchk).trans (congrArg some hr.symm)
    have hh := rstep (h3m.trans (hf.2.2.2.2.2.2.1.trans hstep))
      (by rw [h3s, hf.2.1]; exact hmode)
    refine ⟨r, key h, key,
      ⟨[ext_call.insn_exec_profiling] ++
        [ext_call.irq_ack_itf_sync (Exec.slow_path_entry c s).irq.req_irq,
          ext_call.stall_insn_dependency_account 4,
          ext_call.prefetcher_fetch ((Exec.slow_path_entry c s).irq.vectors
            (Exec.slow_path_entry c s).irq.req_irq)] ++ l, ?_, ?_, ?_⟩,
      ?_, ?_, hh.1, hh.2.1, hh.2.2⟩
    · rw [hl, h3c, hf.2.2.2.2.2.1]
      simp only [List.append_assoc]
    · intro hm
      simp at hm
      exact hl1 hm
    · intro i hm
      simp at hm
      exact hl2 i hm
    · rw [re, h3i, hf.1]
    · rw [rc, h3e]
  · intro hnd hidle hns
    obtain ⟨r, hr, re, _, _, ⟨l, hl, hl1, hl2⟩, rstep, _⟩ :=
      power_then_step_check (Exec.slow_path_entry c s) s.exec.current_insn
    have key := fun h1 =>
      (slow_path_stalled_eq c h1 s hst (Or.inl hnd) hidle hns).trans (congrArg some hr.symm)
    have hh := rstep (hf.2.2.2.2.2.2.1.trans hstep) (by rw [hf.2.1]; exact hmode)
    refine ⟨r, key h, key, ⟨[ext_call.insn_exec_profiling] ++ l, ?_, ?_, ?_⟩,
      ?_, hh.1, hh.2.1, hh.2.2⟩
    · rw [hl, hf.2.2.2.2.2.1]
      simp only [List.append_assoc]
    · intro hm
      simp at hm
      exact hl1 hm
    · intro i hm
      simp at hm
      exact hl2 i hm
    · rw [re, hcur1]
  · intro hnd hidle hns
    refine ⟨?_, ?_, ?_⟩
    · rw [slow_path_idle_eq c h s hst (Or.inl hnd) hidle hns, hcur]
    · show (h { Exec.slow_path_entry c s with
          calls := (Exec.slow_path_entry c s).calls ++
            [ext_call.insn_exec (Exec.slow_path_entry c s).exec.current_insn] }
          (Exec.slow_path_entry c s).exec.current_insn).2.calls ++ _ ++ _ = _
      rw [hcur1, hf.2.2.2.2.2.1]
    · show (Exec.slow_path_entry c s).exec.current_insn = some cur
      exact hcur1
  · intro hd
    obtain ⟨s3, hchk, h3i, h3d, h3m, h3h, h3ds, h3hr, h3c⟩ :=
      check_debug_fields (Exec.slow_path_entry c s) cur hcur1
        (by rw [hf.1]; exact hd) (by rw [hf.2.1]; exact hmode)
    obtain ⟨r, hr, re, _, rs, ⟨l, hl, hl1, hl2⟩, _, rkeep⟩ :=
      power_then_step_check s3 s.exec.current_insn
    have key := fun h1 => (slow_path_fired_eq c h1 s s3 hst hchk).trans (congrArg some hr.symm)
    have hh := rkeep (Or.inr h3d)
    refine ⟨r, key h, key, ⟨[ext_call.insn_exec_profiling] ++ l, ?_, ?_, ?_⟩,
      ?_, ?_, ?_, ?_, ?_⟩
    · rw [hl, h3c, hf.2.2.2.2.2.1]
      simp only [List.append_assoc]
    · intro hm
      simp at hm
      exact hl1 hm
    · intro i hm
      simp at hm
      exact hl2 i hm
    · rw [rs, h3d]
    · rw [re, h3i, hf.1]
    · rw [hh.1, h3h, hf.2.2.2.2.2.2.2.2.1]
    · rw [hh.2.1, h3ds, hf.2.2.2.2.2.2.2.1]
    · rw [hh.2.2, h3hr, hf.2.2.2.2.2.2.2.2.2.1]


/-! ## The legacy wrapper: wake-up and the halt gate -/

/-- The inactive branch of `iss_wrapper::check_state`: it returns, and the core wakes or
stays as it is. -/
theorem check_state_inactive (K1 K2 : Nat) (w : iss_wrapper) (hin : w.is_active_reg = false) :
    ∃ w1, iss_wrapper.check_state K1 K2 w = some w1 ∧
      (w1.is_active_reg = true ↔
        (w.fetch_enable_reg = true ∧ w.halted = false ∧ w.stalled = false ∧
          (w.wfi = false ∨ w.irq_req ≠ -1))) ∧
      (w1.is_active_reg = true →
        w1.queue = w.queue ++ [(wrapper_event.check_all_event, 1 + w.wakeup_latency)] ∧
        w1.wfi = false ∧ w1.wakeup_latency = 0 ∧
        (w.step_mode = true → w1.do_step = true) ∧
        (w.step_mode = false → w1.do_step = w.do_step)) ∧
      (w1.is_active_reg = false →
        w1.wfi = w.wfi ∧ w1.do_step = w.do_step ∧ w1.wakeup_latency = w.wakeup_latency ∧
        w1.queue = w.queue) := by
  unfold iss_wrapper.check_state
  simp only [hin, if_true]
  by_cases hc : w.halted = false ∧ w.fetch_enable_reg = true ∧ w.stalled = false ∧
      (w.wfi = false ∨ w.irq_req ≠ -1)
  · have hc' : w.fetch_enable_reg = true ∧ w.halted = false ∧ w.stalled = false ∧
        (w.wfi = false ∨ w.irq_req ≠ -1) := ⟨hc.2.1, hc.1, hc.2.2.1, hc.2.2.2⟩
    rw [if_pos hc]
    cases hs : w.step_mode with
    | true =>
      simp only [if_true]
      refine ⟨_, rfl, ⟨fun _ => hc', fun _ => rfl⟩, ?_, ?_⟩
      · intro _
        exact ⟨rfl, rfl, rfl, fun _ => rfl, fun h => (by cases h)⟩
      · intro h; cases h
    | false =>
      simp only [Bool.false_eq_true, if_false]
      refine ⟨_, rfl, ⟨fun _ => hc', fun _ => rfl⟩, ?_, ?_⟩
      · intro _
        exact ⟨rfl, rfl, rfl, fun h => (by cases h), fun _ => rfl⟩
      · intro h; cases h
  · rw [if_neg hc]
    refine ⟨_, rfl, ⟨?_, ?_⟩, ?_, ?_⟩
    · intro h; cases h
    · intro h
      exact absurd ⟨h.2.1, h.1, h.2.2.1, h.2.2.2⟩ hc
    · intro h; cases h
    · intro _
      exact ⟨rfl, rfl, rfl, rfl⟩

/-- Claim C19, amended. Wake condition. When `iss_wrapper::check_state` is called with the
core inactive, the core becomes active if and only if `fetch_enable` and not `halted` and
not `stalled` and (not `wfi` or `irq_req != -1`). When it wakes, the loop event
`check_all_event` is enqueued exactly `1 + wakeup_latency` cycles ahead, `wfi` is cleared,
`wakeup_latency` is reset to 0, and `do_step` is set when `step_mode` is set and keeps its
value otherwise. When it does not wake, `is_active`, `wfi`, `do_step` and `wakeup_latency`
are unchanged and nothing is enqueued. -/
theorem check_state_wake (K1 K2 : Nat) (w : iss_wrapper) (hin : w.is_active_reg = false) :
    ∃ w1, iss_wrapper.check_state K1 K2 w = some w1 ∧
      (w1.is_active_reg = true ↔
        (w.fetch_enable_reg = true ∧ w.halted = false ∧ w.stalled = false ∧
          (w.wfi = false ∨ w.irq_req ≠ -1))) ∧
      (w1.is_active_reg = true →
        w1.queue = w.queue ++ [(wrapper_event.check_all_event, 1 + w.wakeup_latency)] ∧
        w1.wfi = false ∧ w1.wakeup_latency = 0 ∧
        (w.step_mode = true → w1.do_step = true) ∧
        (w.step_mode = false → w1.do_step = w.do_step)) ∧
      (w1.is_active_reg = false →
        w1.wfi = w.wfi ∧ w1.do_step = w.do_step ∧ w1.wakeup_latency = w.wakeup_latency ∧
        w1.queue = w.queue) :=
  check_state_inactive K1 K2 w hin


theorem check_state_wake_witness :
    wrapper_idle.is_active_reg = false ∧
    ∃ w1, iss_wrapper.check_state 1 0 wrapper_idle = some w1 ∧
      w1.is_active_reg = true ∧
      w1.queue = [(wrapper_event.check_all_event, 4)] ∧
      w1.wfi = false ∧ w1.wakeup_latency = 0 ∧ w1.do_step = false :=
  ⟨rfl,
    match check_state_wake 1 0 wrapper_idle rfl with
    | ⟨w1, h1, h2, h3, _⟩ =>
      ⟨w1, h1, h2.2 (by decide), (h3 (h2.2 (by decide))).1, (h3 (h2.2 (by decide))).2.1,
        (h3 (h2.2 (by decide))).2.2.1, (h3 (h2.2 (by decide))).2.2.2.2 rfl⟩⟩

/-- Claim C19 fails as stated in its clause on `do_step`: the wake-up sets `do_step` when
`step_mode` is set but never clears it. From an inactive state with `step_mode` clear and
`do_step` still set the core wakes with `do_step` set. -/
theorem check_state_wake_keeps_do_step :
    wrapper_stale_step.is_active_reg = false ∧
    wrapper_stale_step.step_mode = false ∧ wrapper_stale_step.do_step = true ∧
    (iss_wrapper.check_state 1 0 wrapper_stale_step).map
        (fun w => (w.is_active_reg, w.do_step, w.step_mode)) = some (true, true, false) := by
  decide

/-- The frame of `iss_wrapper::check_state`: whenever it returns, the core record is the
one it was given, up to the cycle counter. -/
theorem check_state_cpu (K1 K2 : Nat) (w w1 : iss_wrapper)
    (h : iss_wrapper.check_state K1 K2 w = some w1) :
    w1.cpu.irq = w.cpu.irq ∧ w1.cpu.exec = w.cpu.exec ∧ w1.cpu.decode = w.cpu.decode ∧
    w1.bootaddr_reg = w.bootaddr_reg ∧ w1.halted = w.halted ∧ w1.step_mode = w.step_mode ∧
    w1.hit_reg = w.hit_reg := by
  unfold iss_wrapper.check_state iss_wrapper.halt_core at h
  simp only [] at h
  split_ifs at h <;>
    first
    | (cases h; exact ⟨rfl, rfl, rfl, rfl, rfl, rfl, rfl⟩)
    | (revert h
       cases w.cpu.exec.prev_insn <;> cases w.cpu.exec.current_insn <;>
         simp only [] <;> intro h <;>
         first
         | (cases h)
         | (split_ifs at h <;> cases h <;> exact ⟨rfl, rfl, rfl, rfl, rfl, rfl, rfl⟩))

/-- After `event_cancel` the cancelled event is no longer enqueued. -/
theorem cancel_not_enqueued (w : iss_wrapper) (event : wrapper_event) :
    iss_wrapper.is_enqueued (iss_wrapper.event_cancel w event) event = false := by
  unfold iss_wrapper.is_enqueued iss_wrapper.event_cancel
  simp only [List.any_eq_false, List.mem_filter, decide_eq_true_eq]
  intro e he
  exact he.2

/-- The halt gate of `iss_wrapper::check_state` on an active, halted core with no step in
progress and a current instruction: the core is deactivated, `npc` and `ppc` are recorded
and the loop event that was current is no longer enqueued. -/
theorem check_state_halt_deactivates (K1 K2 : Nat) (w : iss_wrapper) (cur : iss_insn_t)
    (hact : w.is_active_reg = true) (hh : w.halted = true) (hd : w.do_step = false)
    (hcur : w.cpu.exec.current_insn = some cur) :
    ∃ w1, iss_wrapper.check_state K1 K2 w = some w1 ∧
      w1.is_active_reg = false ∧ w1.npc = cur.addr ∧
      w1.ppc = (match w.cpu.exec.prev_insn with
        | none => 0
        | some prev => prev.addr) ∧
      iss_wrapper.is_enqueued w1 w.current_event = false ∧
      w1.do_step = false ∧ w1.halted = true ∧ w1.hit_reg = w.hit_reg := by
  unfold iss_wrapper.check_state iss_wrapper.halt_core
  cases hp : w.cpu.exec.prev_insn with
  | none =>
    simp only [hact, hh, hd, hcur, hp, Bool.true_eq_false, if_false, and_self, if_true]
    split_ifs with hq
    · exact ⟨_, rfl, rfl, rfl, rfl, cancel_not_enqueued _ _, rfl, rfl, rfl⟩
    · exact ⟨_, rfl, rfl, rfl, rfl, by simpa using hq, rfl, rfl, rfl⟩
  | some prev =>
    simp only [hact, hh, hd, hcur, hp, Bool.true_eq_false, if_false, and_self, if_true]
    split_ifs with hq
    · exact ⟨_, rfl, rfl, rfl, rfl, cancel_not_enqueued _ _, rfl, rfl, rfl⟩
    · exact ⟨_, rfl, rfl, rfl, rfl, by simpa using hq, rfl, rfl, rfl⟩


/-- The fields that `iss_wrapper::set_halt_mode` writes and some that it leaves alone. -/
theorem wrapper_set_halt_mode_fields (w : iss_wrapper) (halted : Bool) (cause : Int) :
    (iss_wrapper.set_halt_mode w halted cause).halted = halted ∧
    (iss_wrapper.set_halt_mode w halted cause).halt_cause = cause ∧
    (iss_wrapper.set_halt_mode w halted cause).is_active_reg = w.is_active_reg ∧
    (iss_wrapper.set_halt_mode w halted cause).do_step = w.do_step ∧
    (iss_wrapper.set_halt_mode w halted cause).hit_reg = w.hit_reg ∧
    (iss_wrapper.set_halt_mode w halted cause).cpu = w.cpu ∧
    (iss_wrapper.set_halt_mode w halted cause).step_mode = w.step_mode := by
  unfold iss_wrapper.set_halt_mode
  simp only []
  split_ifs <;> exact ⟨rfl, rfl, rfl, rfl, rfl, rfl, rfl⟩

/-- Claim C20, amended. The halt gate of `iss_wrapper::check_state` on an active, halted
core. With `do_step` false (and a current instruction to read) the core is deactivated,
`npc` becomes the address of `current_insn` and `ppc` the address of `prev_insn`, or 0 if
there is none. With `do_step` true the halt gate is skipped: `npc` and `ppc` are not
written, and the core stays active unless it is in WFI with no interrupt pending
(`irq_req = -1`), in which case the WFI branch puts it to sleep. After the slow-path
instruction of a step, which clears `do_step` and halts the core when `step_mode` is set,
the `check_state` it calls leaves the core inactive, halted, with `do_step` clear. -/
theorem check_state_halt_gate (K1 K2 : Nat) (w : iss_wrapper)
    (hact : w.is_active_reg = true) (hh : w.halted = true) :
    (w.do_step = false → ∀ cur, w.cpu.exec.current_insn = some cur →
      ∃ w1, iss_wrapper.check_state K1 K2 w = some w1 ∧
        w1.is_active_reg = false ∧ w1.npc = cur.addr ∧
        w1.ppc = (match w.cpu.exec.prev_insn with
          | none => 0
          | some prev => prev.addr)) ∧
    (w.do_step = true →
      ∃ w1, iss_wrapper.check_state K1 K2 w = some w1 ∧
        w1.npc = w.npc ∧ w1.ppc = w.ppc ∧ w1.do_step = true ∧
        (w1.is_active_reg = false ↔ (w.wfi = true ∧ w.irq_req = -1))) ∧
    (∀ (switch_to_fast : iss_wrapper → Bool) (func : iss_wrapper → Int × iss_wrapper)
        (v : iss_wrapper),
      (iss_wrapper.exec_instr_common func
        (if switch_to_fast v = true then
          { v with current_event := wrapper_event.instr_event } else v)).step_mode = true →
      ((iss_wrapper.exec_instr_common func
          (if switch_to_fast v = true then
            { v with current_event := wrapper_event.instr_event } else v)).is_active_reg = false ∨
        ∃ cur, (iss_wrapper.exec_instr_common func
          (if switch_to_fast v = true then
            { v with current_event := wrapper_event.instr_event }
            else v)).cpu.exec.current_insn = some cur) →
      ∃ w1, iss_wrapper.exec_instr_check_all K1 K2 switch_to_fast func v = some w1 ∧
        w1.is_active_reg = false ∧ w1.do_step = false ∧ w1.halted = true ∧
        w1.hit_reg.testBit 0 = true) := by
  refine ⟨?_, ?_, ?_⟩
  · intro hd cur hcur
    obtain ⟨w1, h1, h2, h3, h4, _⟩ := check_state_halt_deactivates K1 K2 w cur hact hh hd hcur
    exact ⟨w1, h1, h2, h3, h4⟩
  · intro hd
    unfold iss_wrapper.check_state
    simp only [hact, hh, hd, Bool.true_eq_false, if_false, and_false, and_true]
    cases hw : w.wfi with
    | false =>
      simp only [Bool.false_eq_true, if_false, false_and, iff_false]
      exact ⟨_, rfl, rfl, rfl, rfl, by simp⟩
    | true =>
      by_cases hi : w.irq_req = -1
      · simp only [if_true, hi, true_and]
        split_ifs
        · exact ⟨_, rfl, rfl, rfl, rfl, by simp [iss_wrapper.event_cancel]⟩
        · exact ⟨_, rfl, rfl, rfl, rfl, by simp⟩
      · simp only [if_true, if_neg hi, true_and, hi, iff_false]
        exact ⟨_, rfl, rfl, rfl, rfl, by simp⟩
  · intro sw func v hstep hcase
    unfold iss_wrapper.exec_instr_check_all
    simp only []
    generalize iss_wrapper.exec_instr_common func
      (if sw v = true then { v with current_event := wrapper_event.instr_event } else v)
      = w2 at hstep hcase
    rw [if_pos hstep]
    have hf := wrapper_set_halt_mode_fields
      { w2 with do_step := false, hit_reg := w2.hit_reg ||| 1 } true HALT_CAUSE_HALT
    generalize iss_wrapper.set_halt_mode
      { w2 with do_step := false, hit_reg := w2.hit_reg ||| 1 } true HALT_CAUSE_HALT = w5 at hf
    have hbit : w5.hit_reg.testBit 0 = true := by
      rw [hf.2.2.2.2.1]; exact (or_one_bits w2.hit_reg).1
    cases ha : w5.is_active_reg with
    | false =>
      obtain ⟨w1, h1, h2, _, h4⟩ := check_state_inactive K1 K2 w5 ha
      have hna : w1.is_active_reg = false := by
        cases hb : w1.is_active_reg with
        | false => rfl
        | true =>
          have := (h2.1 hb).2.1
          rw [hf.1] at this; cases this
      have hfr := check_state_cpu K1 K2 w5 w1 h1
      refine ⟨w1, h1, hna, ?_, ?_, ?_⟩
      · rw [(h4 hna).2.1, hf.2.2.2.1]
      · rw [hfr.2.2.2.2.1, hf.1]
      · rw [hfr.2.2.2.2.2.2]; exact hbit
    | true =>
      rcases hcase with hin | ⟨cur, hcur⟩
      · have : w5.is_active_reg = false := by rw [hf.2.2.1]; exact hin
        rw [this] at ha; cases ha
      · obtain ⟨w1, h1, h2, _, _, _, h6, h7, h8⟩ :=
          check_state_halt_deactivates K1 K2 w5 cur ha hf.1 hf.2.2.2.1
            (by rw [hf.2.2.2.2.2.1]; exact hcur)
        exact ⟨w1, h1, h2, h6, h7, by rw [h8]; exact hbit⟩


theorem check_state_halt_gate_witness :
    wrapper_halted.is_active_reg = true ∧ wrapper_halted.halted = true ∧
    wrapper_halted.do_step = false ∧
    ∃ w1, iss_wrapper.check_state 1 0 wrapper_halted = some w1 ∧
      w1.is_active_reg = false ∧ w1.npc = 0x1C008100 ∧ w1.ppc = 0 :=
  ⟨rfl, rfl, rfl,
    (check_state_halt_gate 1 0 wrapper_halted rfl rfl).1 rfl
      { page := 0, addr := 0x1C008100 } rfl⟩

/-- Claim C20 fails as stated in its clause on `do_step`: an active, halted core with
`do_step` set that sits in WFI with no interrupt pending is deactivated by `check_state`
through the WFI branch, and `npc` and `ppc` are not written. -/
theorem check_state_step_wfi_sleeps :
    wrapper_step_wfi.is_active_reg = true ∧ wrapper_step_wfi.halted = true ∧
    wrapper_step_wfi.do_step = true ∧
    wrapper_step_wfi.cpu.exec.current_insn = some { page := 0, addr := 0x1C008100 } ∧
    (iss_wrapper.check_state 1 0 wrapper_step_wfi).map
        (fun w => (w.is_active_reg, w.do_step, w.npc, w.ppc)) = some (false, true, 0, 0) := by
  decide

theorem slow_path_step_halt_witness :
    scenario_step_irq.timing.stall_cycles = 0 ∧ scenario_step_irq.step_mode = true ∧
    scenario_step_irq.state.debug_mode = false ∧
    ∃ r, Exec.exec_instr_check_all (fun _ => false) insn_exec_next scenario_step_irq = some r ∧
      (∃ l, r.calls = scenario_step_irq.calls ++ l ∧ ext_call.insn_account ∉ l ∧
        ∀ i, ext_call.insn_exec i ∉ l) ∧
      r.halted = true ∧ r.do_step = false ∧ r.hit_reg.testBit 0 = true :=
  ⟨rfl, rfl, rfl,
    match (slow_path_step_halt (fun _ => false) insn_exec_next scenario_step_irq
        { page := 0, addr := 0x1C008100 } rfl rfl rfl rfl).1 rfl (by decide) (by decide) with
    | ⟨r, h1, _, h3, _, _, h6, h7, h8⟩ => ⟨r, h1, h3, h6, h7, h8⟩⟩

/-- Claim C18 fails as stated: resumed for a single step with request 7 pending and
enabled, the slow-path handler accepts the interrupt, executes and accounts no instruction
(no `insn_exec`, no `insn_account` among its calls) and raises the step halt all the same:
the core is halted with cause 15, `do_step` is cleared and bit 0 of `hit_reg` is set. -/
theorem step_halt_without_instruction :
    scenario_step_irq.step_mode = true ∧ scenario_step_irq.do_step = true ∧
    scenario_step_irq.halted = false ∧ scenario_step_irq.hit_reg = 6 ∧
    (Exec.exec_instr_check_all (fun _ => false) insn_exec_next scenario_step_irq).map
        (fun r => (r.halted, r.dbgunit.halt_cause, r.do_step, r.hit_reg, r.exec.current_insn,
          r.calls))
      = some (true, 15, false, 7, some { page := 0, addr := 0x1C00801C },
          [ext_call.insn_exec_profiling,
           ext_call.irq_ack_itf_sync 7,
           ext_call.stall_insn_dependency_account 4,
           ext_call.prefetcher_fetch (some { page := 0, addr := 0x1C00801C }),
           ext_call.insn_exec_power (some { page := 0, addr := 0x1C008100 }),
           ext_call.clock_retain,
           ext_call.halt_status_itf_sync true]) :=
  ⟨rfl, rfl, rfl, rfl, rfl⟩

/-! ## The two boot-address paths -/

/-- The base that `Exec::bootaddr_sync` hands to `Irq::vector_table_set`. -/
theorem exec_bootaddr_sync_base (P : Nat) (s : Iss) (value : Nat) (hv : value < 2 ^ 32) :
    (Exec.bootaddr_sync P s value).irq.vector_base = value &&& 0xFFFFFF00 := by
  have hmod : value % 2 ^ 32 = value := Nat.mod_eq_of_lt hv
  have hdef : Exec.bootaddr_sync P s value
      = Irq.vector_table_set P { s with exec.bootaddr_reg := value } (value &&& 0xFFFFFF00) := by
    unfold Exec.bootaddr_sync
    simp only [bootaddr_mask_value, hmod]
  rw [hdef]
  exact (vector_table_set_invariant P _ _).1

/-- The call `iss_wrapper::check_state` returns unless it has to halt an active core whose
`current_insn` is null. -/
theorem check_state_returns (K1 K2 : Nat) (w : iss_wrapper)
    (h : w.is_active_reg = false ∨ w.halted = false ∨ w.do_step = true ∨
      ∃ cur, w.cpu.exec.current_insn = some cur) :
    ∃ w1, iss_wrapper.check_state K1 K2 w = some w1 := by
  cases ha : w.is_active_reg with
  | false =>
    obtain ⟨w1, h1, _⟩ := check_state_inactive K1 K2 w ha
    exact ⟨w1, h1⟩
  | true =>
    by_cases hg : w.halted = true ∧ w.do_step = false
    · rcases h with h | h | h | ⟨cur, hcur⟩
      · rw [ha] at h; cases h
      · rw [hg.1] at h; cases h
      · rw [hg.2] at h; cases h
      · obtain ⟨w1, h1, _⟩ := check_state_halt_deactivates K1 K2 w cur ha hg.1 hg.2 hcur
        exact ⟨w1, h1⟩
    · unfold iss_wrapper.check_state
      simp only [ha, Bool.true_eq_false, if_false, if_neg hg]
      split_ifs <;> dsimp only <;> (try split_ifs) <;> exact ⟨_, rfl⟩

/-- Claim C15. The two boot-address paths differ only in masking. For every 32-bit `value`,
`iss_wrapper::bootaddr_sync(value)` stores `value` and sets the vector base to `value`
unmasked; `iss_wrapper::reset(false)` on a wrapper whose boot address is `value` returns
(whenever its `check_state` has no halted active core with a null `current_insn` to read)
with the vector base `value`; `Exec::bootaddr_sync(value)` sets the vector base to
`value & 0xFFFFFF00`. The two paths give the same vector base exactly when the low 8 bits
of `value` are zero. -/
theorem bootaddr_paths_differ_in_masking (P K1 K2 : Nat)
    (iss_reset : iss_wrapper → iss_wrapper) (w v : iss_wrapper) (s : Iss) (value : Nat)
    (hv : value < 2 ^ 32) (hb : v.bootaddr_reg = value) :
    (iss_wrapper.bootaddr_sync P w value).bootaddr_reg = value ∧
    (iss_wrapper.bootaddr_sync P w value).cpu.irq.vector_base = value ∧
    (∀ v1, iss_wrapper.reset K1 K2 P iss_reset v false = some v1 →
      v1.cpu.irq.vector_base = value) ∧
    ((v.is_active_reg = false ∨ v.halted = false ∨ v.do_step = true ∨
        ∃ cur, (insn_cache_get P v.cpu.decode.insn_cache ((value + 0x80) % 2 ^ 32)).1
          = some cur) →
      ∃ v1, iss_wrapper.reset K1 K2 P iss_reset v false = some v1 ∧
        v1.cpu.irq.vector_base = value) ∧
    (Exec.bootaddr_sync P s value).irq.vector_base = value &&& 0xFFFFFF00 ∧
    ((Exec.bootaddr_sync P s value).irq.vector_base
        = (iss_wrapper.bootaddr_sync P w value).cpu.irq.vector_base ↔ value % 256 = 0) := by
  have hmod : value % 2 ^ 32 = value := Nat.mod_eq_of_lt hv
  have hw : (iss_wrapper.bootaddr_sync P w value).cpu.irq.vector_base = value := by
    show value % 2 ^ 32 = value
    exact hmod
  have hreset : ∀ v1, iss_wrapper.reset K1 K2 P iss_reset v false = some v1 →
      v1.cpu.irq.vector_base = value := by
    intro v1 h1
    unfold iss_wrapper.reset at h1
    simp only [Bool.false_eq_true, if_false] at h1
    have hf := check_state_cpu K1 K2 _ v1 h1
    rw [hf.1]
    exact hb
  refine ⟨hmod, hw, hreset, ?_, exec_bootaddr_sync_base P s value hv, ?_⟩
  · intro hc
    have hex : ∃ v1, iss_wrapper.reset K1 K2 P iss_reset v false = some v1 := by
      unfold iss_wrapper.reset
      simp only [Bool.false_eq_true, if_false]
      apply check_state_returns
      rcases hc with h | h | h | ⟨cur, hcur⟩
      · exact Or.inl h
      · exact Or.inr (Or.inl h)
      · exact Or.inr (Or.inr (Or.inl h))
      · refine Or.inr (Or.inr (Or.inr ⟨cur, ?_⟩))
        unfold iss_irq_set_vector_table
        simp only []
        rw [(vector_table_set_frame P _ _).1]
        rw [← hcur, ← hb]
        rfl
    obtain ⟨v1, h1⟩ := hex
    exact ⟨v1, h1, hreset v1 h1⟩
  · rw [hw, exec_bootaddr_sync_base P s value hv, and_mask_high value hv]
    omega

theorem bootaddr_paths_differ_in_masking_witness :
    (0x1C008080 : Nat) < 2 ^ 32 ∧ wrapper_idle.bootaddr_reg = 0x1C008080 ∧
    (iss_wrapper.bootaddr_sync 8 wrapper_idle 0x1C008080).cpu.irq.vector_base = 0x1C008080 ∧
    (Exec.bootaddr_sync 8 scenario_irq7 0x1C008080).irq.vector_base
      = 0x1C008080 &&& 0xFFFFFF00 ∧
    (∃ v1, iss_wrapper.reset 1 0 8 id wrapper_idle false = some v1 ∧
      v1.cpu.irq.vector_base = 0x1C008080) :=
  ⟨by decide, rfl,
    (bootaddr_paths_differ_in_masking 8 1 0 id wrapper_idle wrapper_idle scenario_irq7
      0x1C008080 (by decide) rfl).2.1,
    (bootaddr_paths_differ_in_masking 8 1 0 id wrapper_idle wrapper_idle scenario_irq7
      0x1C008080 (by decide) rfl).2.2.2.2.1,
    (bootaddr_paths_differ_in_masking 8 1 0 id wrapper_idle wrapper_idle scenario_irq7
      0x1C008080 (by decide) rfl).2.2.2.1 (Or.inl rfl)⟩


/-! ## The instruction cache between flushes -/

theorem insn_page_init_length (n id b : Nat) : (insn_page_init n id b).length = n := by
  induction n generalizing b with
  | zero => rfl
  | succ n ih => simp only [insn_page_init, List.length_cons, ih]

/-- Entry `i` of a page initialised from address `b` has address `b + 2 * i`, computed in
32 bits. -/
theorem insn_page_init_get (n id : Nat) :
    ∀ (b i : Nat), b < 2 ^ 32 → i < n →
      (insn_page_init n id b).get? i = some (insn_init id ((b + 2 * i) % 2 ^ 32)) := by
  induction n with
  | zero => intro b i _ hi; omega
  | succ n ih =>
    intro b i hb hi
    cases i with
    | zero =>
      simp only [insn_page_init, List.get?_cons_zero, Nat.mul_zero, Nat.add_zero,
        Nat.mod_eq_of_lt hb]
    | succ i =>
      simp only [insn_page_init, List.get?_cons_succ]
      rw [ih ((b + 2) % 2 ^ 32) i (Nat.mod_lt _ (by norm_num)) (by omega)]
      congr 2
      omega

/-- The offset of an address in its page: the page base is below the address and the
distance is the address modulo the page size in bytes. -/
theorem page_offset (P x : Nat) (hx : x < 2 ^ 32) :
    ((x >>> P) <<< P) % 2 ^ 32 = x - x % 2 ^ P ∧
    (x + 2 ^ 32 - ((x >>> P) <<< P) % 2 ^ 32) % 2 ^ 32 = x % 2 ^ P := by
  have hq : 0 < 2 ^ P := Nat.two_pow_pos P
  have h1 : (x >>> P) <<< P = x - x % 2 ^ P := by
    rw [Nat.shiftLeft_eq, Nat.shiftRight_eq_div_pow]
    have := Nat.div_add_mod' x (2 ^ P)
    omega
  have h2 : x % 2 ^ P ≤ x := Nat.mod_le _ _
  rw [h1]
  constructor
  · exact Nat.mod_eq_of_lt (by omega)
  · rw [Nat.mod_eq_of_lt (by omega : x - x % 2 ^ P < 2 ^ 32)]
    omega

/-- The slot of an address in its page lies inside the page. -/
theorem page_slot_lt (P x : Nat) : (x % 2 ^ P) >>> 1 < INSN_PAGE_SIZE P := by
  unfold INSN_PAGE_SIZE
  rw [Nat.shiftRight_eq_div_pow]
  cases P with
  | zero => simp [Nat.mod_one]
  | succ p =>
    have h : x % 2 ^ (p + 1) < 2 ^ (p + 1) := Nat.mod_lt _ (Nat.two_pow_pos _)
    simp only [Nat.add_sub_cancel]
    rw [Nat.pow_succ] at h
    omega

/-- The entry that a page as created holds for an address of its range: the entry of the
page's allocation whose address is the address of the slot. -/
theorem page_entry_fresh (P : Nat) (page : iss_insn_page_t) (a : Nat)
    (h : page.insns = insn_page_init (INSN_PAGE_SIZE P) page.id
      ((((a % 2 ^ 32) >>> P) <<< P) % 2 ^ 32)) :
    page_entry P page a
      = some (insn_init page.id (a % 2 ^ 32 - (a % 2 ^ 32 % 2 ^ P) % 2)) := by
  have hx : a % 2 ^ 32 < 2 ^ 32 := Nat.mod_lt _ (by norm_num)
  have ho := page_offset P (a % 2 ^ 32) hx
  unfold page_entry
  rw [h, Nat.mod_mod, ho.2]
  rw [insn_page_init_get _ _ _ _ (Nat.mod_lt _ (by norm_num)) (page_slot_lt P (a % 2 ^ 32))]
  congr 2
  rw [ho.1, Nat.shiftRight_eq_div_pow]
  have h2 : a % 2 ^ 32 % 2 ^ P ≤ a % 2 ^ 32 := Nat.mod_le _ _
  generalize a % 2 ^ 32 % 2 ^ P = r at h2
  generalize a % 2 ^ 32 = x at hx h2
  omega


/-- A miss of `insn_cache_page_get`: the page is allocated, initialised from the base
address of its index and entered into the map. -/
theorem page_get_miss (P : Nat) (c : iss_insn_cache_t) (a : Nat)
    (h : c.pages.lookup ((a % 2 ^ 32) >>> P) = none) :
    insn_cache_page_get P c a
      = ({ id := c.allocated
           insns := insn_page_init (INSN_PAGE_SIZE P) c.allocated
             ((((a % 2 ^ 32) >>> P) <<< P) % 2 ^ 32) },
         { c with
           pages := ((a % 2 ^ 32) >>> P,
             { id := c.allocated
               insns := insn_page_init (INSN_PAGE_SIZE P) c.allocated
                 ((((a % 2 ^ 32) >>> P) <<< P) % 2 ^ 32) }) :: c.pages
           allocated := c.allocated + 1 }) := by
  unfold insn_cache_page_get
  generalize (a % 2 ^ 32) >>> P = idx at h
  simp only [h]

theorem cache_call_run_preserves (P : Nat) (c : iss_insn_cache_t) (call : cache_call)
    (k : Nat) (page : iss_insn_page_t) (h : c.pages.lookup k = some page) :
    (cache_call.run P c call).pages.lookup k = some page := by
  cases call with
  | page_get a => exact page_get_preserves P c a k page h
  | get_insn_from_cache a => exact insn_cache_get_preserves P c a k page h

/-- No sequence of lookups removes or replaces a page. -/
theorem cache_calls_run_preserves (P : Nat) (l : List cache_call) :
    ∀ (c : iss_insn_cache_t) (k : Nat) (page : iss_insn_page_t),
      c.pages.lookup k = some page → (cache_calls_run P c l).pages.lookup k = some page := by
  induction l with
  | nil => intro c k page h; exact h
  | cons call l ih =>
    intro c k page h
    exact ih _ k page (cache_call_run_preserves P c call k page h)

/-- The page handed back by `insn_cache_page_get` is as created, and so is every page of the
cache afterwards, if every page was before. -/
theorem pages_fresh_page_get (P : Nat) (c : iss_insn_cache_t) (a : Nat)
    (hf : pages_fresh P c) :
    pages_fresh P (insn_cache_page_get P c a).2 ∧
    (insn_cache_page_get P c a).1.insns
      = insn_page_init (INSN_PAGE_SIZE P) (insn_cache_page_get P c a).1.id
          ((((a % 2 ^ 32) >>> P) <<< P) % 2 ^ 32) := by
  cases h : c.pages.lookup ((a % 2 ^ 32) >>> P) with
  | some pg =>
    rw [page_get_of_lookup P c a pg h]
    exact ⟨hf, hf _ _ h⟩
  | none =>
    rw [page_get_miss P c a h]
    refine ⟨?_, rfl⟩
    intro k page hk
    by_cases e : k = (a % 2 ^ 32) >>> P
    · subst e
      simp only [List.lookup_cons, beq_self_eq_true] at hk
      cases hk
      rfl
    · have hb : (k == (a % 2 ^ 32) >>> P) = false := by simpa using e
      simp only [List.lookup_cons, hb] at hk
      exact hf k page hk

theorem pages_fresh_get (P : Nat) (c : iss_insn_cache_t) (a : Nat) (hf : pages_fresh P c) :
    pages_fresh P (insn_cache_get P c a).2 ∧
    (insn_cache_get P c a).1
      = some (insn_init (insn_cache_page_get P c a).1.id
          (a % 2 ^ 32 - (a % 2 ^ 32 % 2 ^ P) % 2)) := by
  have h := pages_fresh_page_get P c a hf
  refine ⟨?_, ?_⟩
  · intro k page hk
    exact h.1 k page hk
  · rw [(insn_cache_get_eq P c a).1]
    exact page_entry_fresh P _ a h.2

theorem pages_fresh_run (P : Nat) (l : List cache_call) :
    ∀ c : iss_insn_cache_t, pages_fresh P c → pages_fresh P (cache_calls_run P c l) := by
  induction l with
  | nil => intro c h; exact h
  | cons call l ih =>
    intro c h
    apply ih
    cases call with
    | page_get a => exact (pages_fresh_page_get P c a h).1
    | get_insn_from_cache a => exact (pages_fresh_get P c a h).1

theorem insn_init_undecoded (page addr : Nat) :
    insn_cache_is_decoded (insn_init page addr) = false := by
  simp [insn_cache_is_decoded, insn_init]

/-- An entry of a page of at most `2 ^ 32` bytes has an address below `2 ^ 32`. -/
theorem page_entry_addr_lt (P x i : Nat) (hx : x < 2 ^ 32) (hP : P ≤ 32)
    (hi : i < INSN_PAGE_SIZE P) : ((x >>> P) <<< P) + 2 * i < 2 ^ 32 := by
  rw [Nat.shiftLeft_eq, Nat.shiftRight_eq_div_pow]
  unfold INSN_PAGE_SIZE at hi
  have hsplit : 2 ^ 32 = 2 ^ P * 2 ^ (32 - P) := by
    rw [← Nat.pow_add]; congr 1; omega
  have hk : x / 2 ^ P < 2 ^ (32 - P) := by
    apply Nat.div_lt_of_lt_mul
    rw [← hsplit]; exact hx
  have hm : (x / 2 ^ P + 1) * 2 ^ P ≤ 2 ^ (32 - P) * 2 ^ P :=
    Nat.mul_le_mul_right _ hk
  rw [Nat.mul_comm (2 ^ (32 - P)), ← hsplit, Nat.add_mul, Nat.one_mul] at hm
  cases P with
  | zero =>
    simp only [Nat.pow_zero, Nat.zero_sub] at hi hm ⊢
    omega
  | succ p =>
    simp only [Nat.add_sub_cancel] at hi
    have h2 : 2 ^ (p + 1) = 2 * 2 ^ p := by rw [Nat.pow_succ, Nat.mul_comm]
    rw [h2] at hm ⊢
    generalize x / (2 * 2 ^ p) * (2 * 2 ^ p) = m at hm ⊢
    omega


theorem vector_table_fill_fresh (P base : Nat) :
    ∀ (n i : Nat) (s : Iss), pages_fresh P s.decode.insn_cache →
      pages_fresh P (Irq.vector_table_fill P base n i s).decode.insn_cache := by
  intro n
  induction n with
  | zero => intro i s h; exact h
  | succ n ih =>
    intro i s h
    simp only [Irq.vector_table_fill]
    exact ih (i + 1) _ (pages_fresh_get P _ _ h).1

theorem vector_table_set_fresh (P : Nat) (s : Iss) (base : Nat)
    (h : pages_fresh P s.decode.insn_cache) :
    pages_fresh P (Irq.vector_table_set P s base).decode.insn_cache := by
  show pages_fresh P
    (Irq.vector_table_fill P base 3 32 (Irq.vector_table_fill P base 32 0 s)).decode.insn_cache
  exact vector_table_fill_fresh P base 3 32 _ (vector_table_fill_fresh P base 32 0 s h)

theorem irq_cache_flush_fresh (P : Nat) (s : Iss) (h : pages_fresh P s.decode.insn_cache) :
    pages_fresh P (Irq.cache_flush P s).decode.insn_cache := by
  have h1 := vector_table_set_fresh P s s.irq.vector_base h
  unfold Irq.cache_flush
  generalize Irq.vector_table_set P s s.irq.vector_base = s1 at h1
  exact (pages_fresh_get P _ _ h1).1

/-- After `flush_cache` the cache holds no page. -/
theorem flush_cache_pages (s : Iss) :
    (flush_cache s).decode.insn_cache.pages = [] ∧
    (flush_cache s).decode.insn_cache.current_insn_page = none ∧
    (flush_cache s).decode.insn_cache.allocated = s.decode.insn_cache.allocated ∧
    (flush_cache s).calls = s.calls ++ [ext_call.prefetcher_flush] ∧
    (flush_cache s).exec = s.exec ∧ (flush_cache s).irq = s.irq ∧
    (flush_cache s).config = s.config :=
  ⟨rfl, rfl, rfl, rfl, rfl, rfl, rfl⟩

theorem flush_cache_fresh (P : Nat) (s : Iss) :
    pages_fresh P (flush_cache s).decode.insn_cache := by
  intro k page hk
  rw [(flush_cache_pages s).1] at hk
  cases hk

/-- After `iss_cache_flush` every page of the cache is as created. -/
theorem iss_cache_flush_fresh (P : Nat) (s : Iss) :
    pages_fresh P (iss_cache_flush P s).decode.insn_cache := by
  unfold iss_cache_flush
  exact irq_cache_flush_fresh P _ (flush_cache_fresh P s)

/-! ## Claims on the instruction cache -/

/-- Claim C29. Cache lookups are stable between flushes. Across any sequence of
`insn_cache_page_get` and `insn_cache_get_insn_from_cache` calls, a lookup of an address
with the page index of an earlier lookup returns the page the earlier lookup returned (for
`insn_cache_get_insn_from_cache` it is the page made current), and a second lookup of the
same address returns the same entry. A lookup that hits leaves the cache as it was, map and
allocation count; a lookup that misses enters exactly one page, the one it returns, in front
of the map and leaves every page that was there in place with its entries. -/
theorem cache_lookups_stable (P : Nat) (c : iss_insn_cache_t) (l : List cache_call)
    (a b : Nat) :
    ((a % 2 ^ 32) >>> P = (b % 2 ^ 32) >>> P →
      (insn_cache_page_get P (cache_calls_run P (insn_cache_page_get P c a).2 l) b).1
        = (insn_cache_page_get P c a).1 ∧
      (insn_cache_get_insn_from_cache P
          (cache_calls_run P (insn_cache_get_insn_from_cache P c a).2 l) b).2.current_insn_page
        = (insn_cache_get_insn_from_cache P c a).2.current_insn_page) ∧
    (insn_cache_get_insn_from_cache P
        (cache_calls_run P (insn_cache_get_insn_from_cache P c a).2 l) a).1
      = (insn_cache_get_insn_from_cache P c a).1 ∧
    (∀ page, c.pages.lookup ((a % 2 ^ 32) >>> P) = some page →
      insn_cache_page_get P c a = (page, c) ∧
      (insn_cache_get_insn_from_cache P c a).2.pages = c.pages ∧
      (insn_cache_get_insn_from_cache P c a).2.allocated = c.allocated) ∧
    (c.pages.lookup ((a % 2 ^ 32) >>> P) = none →
      (insn_cache_page_get P c a).2.pages
        = ((a % 2 ^ 32) >>> P, (insn_cache_page_get P c a).1) :: c.pages ∧
      (insn_cache_page_get P c a).2.allocated = c.allocated + 1 ∧
      (insn_cache_get_insn_from_cache P c a).2.pages = (insn_cache_page_get P c a).2.pages ∧
      ∀ k page, c.pages.lookup k = some page →
        (insn_cache_page_get P c a).2.pages.lookup k = some page) := by
  have hpa := page_get_lookup P c a
  refine ⟨?_, ?_, ?_, ?_⟩
  · intro hab
    have h1 := cache_calls_run_preserves P l (insn_cache_page_get P c a).2 _ _ hpa
    have h2 := cache_calls_run_preserves P l (insn_cache_get_insn_from_cache P c a).2 _ _ hpa
    rw [hab] at h1 h2
    constructor
    · rw [page_get_of_lookup P _ b _ h1]
    · show some (insn_cache_page_get P _ b).1 = some (insn_cache_page_get P c a).1
      rw [page_get_of_lookup P _ b _ h2]
  · have h2 := cache_calls_run_preserves P l (insn_cache_get_insn_from_cache P c a).2 _ _ hpa
    show page_entry P (insn_cache_page_get P _ a).1 a = page_entry P (insn_cache_page_get P c a).1 a
    rw [page_get_of_lookup P _ a _ h2]
  · intro page h
    have e := page_get_of_lookup P c a page h
    refine ⟨e, ?_, ?_⟩
    · show (insn_cache_page_get P c a).2.pages = c.pages
      rw [e]
    · show (insn_cache_page_get P c a).2.allocated = c.allocated
      rw [e]
  · intro h
    have e := page_get_miss P c a h
    refine ⟨?_, ?_, rfl, ?_⟩
    · rw [e]
    · rw [e]
    · intro k page hk
      exact page_get_preserves P c a k page hk

theorem cache_lookups_stable_witness :
    (0x1C008100 % 2 ^ 32) >>> 8 = (0x1C0081FE % 2 ^ 32) >>> 8 ∧
    (insn_cache_page_get 8
        (cache_calls_run 8 (insn_cache_page_get 8 scenario_irq7.decode.insn_cache 0x1C008100).2
          [cache_call.page_get 0x2000, cache_call.get_insn_from_cache 0x1C008000])
        0x1C0081FE).1
      = (insn_cache_page_get 8 scenario_irq7.decode.insn_cache 0x1C008100).1 ∧
    scenario_irq7.decode.insn_cache.pages.lookup ((0x1C008100 % 2 ^ 32) >>> 8) = none ∧
    (insn_cache_page_get 8 scenario_irq7.decode.insn_cache 0x1C008100).2.allocated
      = scenario_irq7.decode.insn_cache.allocated + 1 :=
  ⟨by decide,
    ((cache_lookups_stable 8 scenario_irq7.decode.insn_cache
      [cache_call.page_get 0x2000, cache_call.get_insn_from_cache 0x1C008000]
      0x1C008100 0x1C0081FE).1 (by decide)).1,
    rfl,
    ((cache_lookups_stable 8 scenario_irq7.decode.insn_cache [] 0x1C008100 0x1C008100).2.2.2
      rfl).2.1⟩

/-- Claim C30. Page creation. When `insn_cache_page_get` misses for page index `k`, the new
page has `INSN_PAGE_SIZE` entries and its entry `i` is initialised with the guest address
`(k << INSN_PAGE_BITS) + 2 * i` (computed in 32 bits; the sum itself when the page size is
at most `2 ^ 32` bytes) and is undecoded. Hence after a flush, `flush_cache` or the whole
`iss_cache_flush`, and any further lookups, the lookup of any address yields an undecoded
entry. -/
theorem page_creation_undecoded (P : Nat) (c : iss_insn_cache_t) (paddr : Nat)
    (hmiss : c.pages.lookup ((paddr % 2 ^ 32) >>> P) = none) :
    (insn_cache_page_get P c paddr).1.insns.length = INSN_PAGE_SIZE P ∧
    (∀ i, i < INSN_PAGE_SIZE P →
      ∃ e, (insn_cache_page_get P c paddr).1.insns.get? i = some e ∧
        e.addr = ((((paddr % 2 ^ 32) >>> P) <<< P) + 2 * i) % 2 ^ 32 ∧
        (P ≤ 32 → e.addr = (((paddr % 2 ^ 32) >>> P) <<< P) + 2 * i) ∧
        insn_cache_is_decoded e = false) ∧
    (∀ (s : Iss) (l : List cache_call) (a : Nat),
      (∃ e, (insn_cache_get_insn_from_cache P
            (cache_calls_run P (flush_cache s).decode.insn_cache l) a).1 = some e ∧
          insn_cache_is_decoded e = false) ∧
      (∃ e, (insn_cache_get_insn_from_cache P
            (cache_calls_run P (iss_cache_flush P s).decode.insn_cache l) a).1 = some e ∧
          insn_cache_is_decoded e = false)) := by
  have e := page_get_miss P c paddr hmiss
  have hx : paddr % 2 ^ 32 < 2 ^ 32 := Nat.mod_lt _ (by norm_num)
  refine ⟨?_, ?_, ?_⟩
  · rw [e]
    exact insn_page_init_length _ _ _
  · intro i hi
    rw [e]
    refine ⟨_, insn_page_init_get _ _ _ _ (Nat.mod_lt _ (by norm_num)) hi, ?_, ?_,
      insn_init_undecoded _ _⟩
    · show (((paddr % 2 ^ 32) >>> P <<< P) % 2 ^ 32 + 2 * i) % 2 ^ 32 = _
      omega
    · intro hP
      have hlt := page_entry_addr_lt P (paddr % 2 ^ 32) i hx hP hi
      show (((paddr % 2 ^ 32) >>> P <<< P) % 2 ^ 32 + 2 * i) % 2 ^ 32 = _
      generalize (paddr % 2 ^ 32) >>> P <<< P = m at hlt
      omega
  · intro s l a
    constructor
    · have hf := pages_fresh_run P l _ (flush_cache_fresh P s)
      exact ⟨_, (pages_fresh_get P _ a hf).2, insn_init_undecoded _ _⟩
    · have hf := pages_fresh_run P l _ (iss_cache_flush_fresh P s)
      exact ⟨_, (pages_fresh_get P _ a hf).2, insn_init_undecoded _ _⟩

theorem page_creation_undecoded_witness :
    scenario_irq7.decode.insn_cache.pages.lookup ((0x1C008100 % 2 ^ 32) >>> 8) = none ∧
    (insn_cache_page_get 8 scenario_irq7.decode.insn_cache 0x1C008100).1.insns.length
      = INSN_PAGE_SIZE 8 ∧
    3 < INSN_PAGE_SIZE 8 ∧
    (∃ e, (insn_cache_page_get 8 scenario_irq7.decode.insn_cache 0x1C008100).1.insns.get? 3
          = some e ∧
        e.addr = 0x1C008106 ∧ insn_cache_is_decoded e = false) :=
  ⟨rfl,
    (page_creation_undecoded 8 scenario_irq7.decode.insn_cache 0x1C008100 rfl).1,
    by decide,
    match (page_creation_undecoded 8 scenario_irq7.decode.insn_cache 0x1C008100 rfl).2.1 3
        (by decide) with
    | ⟨e, h1, _, h3, h4⟩ => ⟨e, h1, h3 (by decide), h4⟩⟩


/-! ## WFI in the Irq component -/

/-- Claim C21. WFI sleep and wake-up in the Irq component. `Irq::wfi_handle` sets `wfi` and
stalls the loop (one more on the stall count) when `req_irq` is -1 and otherwise changes
nothing. `Irq::irq_req_sync(irq)` always stores `irq` in `req_irq`; it clears `wfi` and
decrements the stall count when the core was in WFI and `irq` is not -1, and otherwise
leaves `wfi` and the stall count as they were: a deassert (`irq = -1`) leaves a sleeping
core asleep. -/
theorem wfi_sleep_and_wake (s : Iss) (irq : Int) :
    (s.irq.req_irq = -1 →
      (Irq.wfi_handle s).exec.wfi = true ∧
      (Irq.wfi_handle s).exec.stalled = s.exec.stalled + 1) ∧
    (s.irq.req_irq ≠ -1 → Irq.wfi_handle s = s) ∧
    (Irq.irq_req_sync s irq).irq.req_irq = irq ∧
    (s.exec.wfi = true → irq ≠ -1 →
      (Irq.irq_req_sync s irq).exec.wfi = false ∧
      (Irq.irq_req_sync s irq).exec.stalled = s.exec.stalled - 1) ∧
    ((s.exec.wfi = false ∨ irq = -1) →
      (Irq.irq_req_sync s irq).exec.wfi = s.exec.wfi ∧
      (Irq.irq_req_sync s irq).exec.stalled = s.exec.stalled) ∧
    (s.exec.wfi = true →
      (Irq.irq_req_sync s (-1)).exec.wfi = true ∧
      (Irq.irq_req_sync s (-1)).exec.stalled = s.exec.stalled ∧
      (Irq.irq_req_sync s (-1)).irq.req_irq = -1) := by
  refine ⟨?_, ?_, ?_, ?_, ?_, ?_⟩
  · intro h
    unfold Irq.wfi_handle
    rw [if_pos h]
    exact ⟨rfl, rfl⟩
  · intro h
    unfold Irq.wfi_handle
    rw [if_neg h]
  · unfold Irq.irq_req_sync
    simp only []
    split_ifs <;> rfl
  · intro hw hi
    unfold Irq.irq_req_sync
    simp only [hw, hi, ne_eq, not_false_eq_true, and_self, if_true]
    split_ifs <;> exact ⟨rfl, rfl⟩
  · intro h
    have hc : ¬ (irq ≠ -1 ∧ s.exec.wfi = true) := by
      rintro ⟨h1, h2⟩
      rcases h with h | h
      · rw [h] at h2; cases h2
      · exact h1 h
    unfold Irq.irq_req_sync
    simp only [if_neg hc]
    split_ifs <;> exact ⟨rfl, rfl⟩
  · intro hw
    unfold Irq.irq_req_sync
    simp only [ne_eq, not_true_eq_false, false_and, and_false, if_false]
    exact ⟨hw, rfl, rfl⟩

theorem wfi_sleep_and_wake_witness :
    scenario_wfi.irq.req_irq = -1 ∧ scenario_wfi.exec.wfi = true ∧ (7 : Int) ≠ -1 ∧
    (Irq.wfi_handle scenario_wfi).exec.stalled = scenario_wfi.exec.stalled + 1 ∧
    (Irq.irq_req_sync scenario_wfi 7).exec.wfi = false ∧
    (Irq.irq_req_sync scenario_wfi 7).exec.stalled = scenario_wfi.exec.stalled - 1 ∧
    (Irq.irq_req_sync scenario_wfi (-1)).exec.wfi = true :=
  ⟨rfl, rfl, by decide,
    ((wfi_sleep_and_wake scenario_wfi 7).1 rfl).2,
    ((wfi_sleep_and_wake scenario_wfi 7).2.2.2.1 rfl (by decide)).1,
    ((wfi_sleep_and_wake scenario_wfi 7).2.2.2.1 rfl (by decide)).2,
    ((wfi_sleep_and_wake scenario_wfi 7).2.2.2.2.2 rfl).1⟩


/-! ## Misaligned accesses -/

theorem addr_mask_value : ADDR_MASK = 0xFFFFFFFC := by decide

theorem and_addr_mask (v : Nat) (h : v < 2 ^ 32) : v &&& 0xFFFFFFFC = v - v % 4 := by
  have hm : (0xFFFFFFFC : Nat) = (2 ^ 30 - 1) <<< 2 := by decide
  have hv : v - v % 4 = (v >>> 2) <<< 2 := by
    rw [Nat.shiftLeft_eq, Nat.shiftRight_eq_div_pow]
    omega
  rw [hv, hm]
  apply Nat.eq_of_testBit_eq
  intro i
  rw [Nat.testBit_and, Nat.testBit_shiftLeft, Nat.testBit_shiftLeft, Nat.testBit_shiftRight,
    Nat.testBit_two_pow_sub_one]
  by_cases h2 : 2 ≤ i
  · by_cases h32 : i < 32
    · have : i - 2 < 30 := by omega
      have e : 2 + (i - 2) = i := by omega
      simp [h2, this, e]
    · have hlt : v < 2 ^ i := lt_of_lt_of_le h (Nat.pow_le_pow_right (by norm_num) (by omega))
      have e : 2 + (i - 2) = i := by omega
      simp [h2, e, Nat.testBit_lt_two_pow hlt]
  · simp [h2]

/-- The split of a misaligned access that crosses a 4-byte boundary. -/
theorem misaligned_split_value (addr : Nat) (size : Int) (ha : addr < 2 ^ 32)
    (h2 : 2 ≤ size) (h4 : size ≤ 4) (hc : 4 < ((addr % 4 : Nat) : Int) + size) :
    misaligned_split addr size
      = ((addr + (4 - addr % 4)) % 2 ^ 32, ((4 - addr % 4 : Nat) : Int),
          size - ((4 - addr % 4 : Nat) : Int)) := by
  have hmod : addr % 2 ^ 32 = addr := Nat.mod_eq_of_lt ha
  have hr : addr % 4 < 4 := Nat.mod_lt _ (by norm_num)
  have hu : to_uim (((addr : Nat) : Int) + size - 1) = (addr + (size.toNat - 1)) % 2 ^ 32 := by
    unfold to_uim
    simp only [ISS_REG_WIDTH]
    omega
  have h1 : to_uim (((addr : Nat) : Int) + size - 1) &&& ADDR_MASK
      = (addr + (4 - addr % 4)) % 2 ^ 32 := by
    rw [hu, addr_mask_value, and_addr_mask _ (Nat.mod_lt _ (by norm_num))]
    omega
  unfold misaligned_split
  simp only [hmod, h1]
  have h0 : ((addr + (4 - addr % 4)) % 2 ^ 32 + 2 ^ 32 - addr) % 2 ^ 32 = 4 - addr % 4 := by
    omega
  rw [h0, to_sim_of_lt_half _ (by omega)]


/-- Claim C22. The misaligned split is an exact partition. For every address and every size
from 2 to 4 whose byte range crosses a 4-byte boundary, `data_misaligned_req` computes
`addr1 = (addr + size - 1) & ~3`, `size0 = addr1 - addr` and `size1 = size - size0` with
`size0 > 0`, `size1 > 0`, `size0 + size1 = size` and `addr + size0 = addr1` (in 32-bit
address arithmetic; as plain numbers when the range ends within the address space), the
first half ends on the boundary and the second starts on it with at most 4 bytes, so
neither crosses a boundary. It records the second access (address `addr1`, size `size1`,
buffer `data_ptr + size0`) and issues the first one at `addr` with `size0` bytes. -/
theorem misaligned_split_partition
    (f : iss_wrapper → Nat → Nat → Int → Bool → io_req_status × iss_wrapper)
    (w : iss_wrapper) (addr data_ptr : Nat) (size : Int) (is_write : Bool)
    (ha : addr < 2 ^ 32) (h2 : 2 ≤ size) (h4 : size ≤ 4)
    (hc : 4 < ((addr % 4 : Nat) : Int) + size) :
    (misaligned_split addr size).1 = to_uim ((addr : Int) + size - 1) &&& 0xFFFFFFFC ∧
    0 < (misaligned_split addr size).2.1 ∧
    0 < (misaligned_split addr size).2.2 ∧
    (misaligned_split addr size).2.1 + (misaligned_split addr size).2.2 = size ∧
    ((addr : Int) + (misaligned_split addr size).2.1) % 2 ^ 32
      = ((misaligned_split addr size).1 : Int) ∧
    ((addr : Int) + size ≤ 2 ^ 32 →
      (addr : Int) + (misaligned_split addr size).2.1 = ((misaligned_split addr size).1 : Int)) ∧
    ((addr % 4 : Nat) : Int) + (misaligned_split addr size).2.1 = 4 ∧
    (misaligned_split addr size).1 % 4 = 0 ∧
    (misaligned_split addr size).2.2 ≤ 4 ∧
    iss_wrapper.data_misaligned_req f w addr data_ptr size is_write
      = (if (f { w with
                  misaligned_access := true
                  misaligned_size := (misaligned_split addr size).2.2
                  misaligned_data := ((data_ptr : Int) + (misaligned_split addr size).2.1).toNat
                  misaligned_addr := (misaligned_split addr size).1
                  misaligned_is_write := is_write
                  calls := w.calls ++
                    [ext_call.data_req_aligned addr data_ptr (misaligned_split addr size).2.1
                      is_write] }
                addr data_ptr (misaligned_split addr size).2.1 is_write).1
              = io_req_status.IO_REQ_OK then
          (some io_req_status.IO_REQ_PENDING,
            { (f { w with
                  misaligned_access := true
                  misaligned_size := (misaligned_split addr size).2.2
                  misaligned_data := ((data_ptr : Int) + (misaligned_split addr size).2.1).toNat
                  misaligned_addr := (misaligned_split addr size).1
                  misaligned_is_write := is_write
                  calls := w.calls ++
                    [ext_call.data_req_aligned addr data_ptr (misaligned_split addr size).2.1
                      is_write] }
                addr data_ptr (misaligned_split addr size).2.1 is_write).2 with
              misaligned_latency :=
                (f { w with
                  misaligned_access := true
                  misaligned_size := (misaligned_split addr size).2.2
                  misaligned_data := ((data_ptr : Int) + (misaligned_split addr size).2.1).toNat
                  misaligned_addr := (misaligned_split addr size).1
                  misaligned_is_write := is_write
                  calls := w.calls ++
                    [ext_call.data_req_aligned addr data_ptr (misaligned_split addr size).2.1
                      is_write] }
                addr data_ptr (misaligned_split addr size).2.1 is_write).2.io_req_latency + 1 })
        else
          (none,
            (f { w with
                  misaligned_access := true
                  misaligned_size := (misaligned_split addr size).2.2
                  misaligned_data := ((data_ptr : Int) + (misaligned_split addr size).2.1).toNat
                  misaligned_addr := (misaligned_split addr size).1
                  misaligned_is_write := is_write
                  calls := w.calls ++
                    [ext_call.data_req_aligned addr data_ptr (misaligned_split addr size).2.1
                      is_write] }
                addr data_ptr (misaligned_split addr size).2.1 is_write).2)) := by
  have hr : addr % 4 < 4 := Nat.mod_lt _ (by norm_num)
  have hmod : addr % 2 ^ 32 = addr := Nat.mod_eq_of_lt ha
  have hfirst : (misaligned_split addr size).1
      = to_uim ((addr : Int) + size - 1) &&& 0xFFFFFFFC := by
    unfold misaligned_split
    simp only [hmod, addr_mask_value]
  have hv := misaligned_split_value addr size ha h2 h4 hc
  refine ⟨hfirst, ?_, ?_, ?_, ?_, ?_, ?_, ?_, ?_, rfl⟩
  · rw [hv]
    show (0 : Int) < ((4 - addr % 4 : Nat) : Int)
    omega
  · rw [hv]
    show (0 : Int) < size - ((4 - addr % 4 : Nat) : Int)
    omega
  · rw [hv]
    show ((4 - addr % 4 : Nat) : Int) + (size - ((4 - addr % 4 : Nat) : Int)) = size
    omega
  · rw [hv]
    show ((addr : Int) + ((4 - addr % 4 : Nat) : Int)) % 2 ^ 32
      = (((addr + (4 - addr % 4)) % 2 ^ 32 : Nat) : Int)
    omega
  · intro hle
    rw [hv]
    show (addr : Int) + ((4 - addr % 4 : Nat) : Int)
      = (((addr + (4 - addr % 4)) % 2 ^ 32 : Nat) : Int)
    omega
  · rw [hv]
    show ((addr % 4 : Nat) : Int) + ((4 - addr % 4 : Nat) : Int) = 4
    omega
  · rw [hv]
    show (addr + (4 - addr % 4)) % 2 ^ 32 % 4 = 0
    omega
  · rw [hv]
    show size - ((4 - addr % 4 : Nat) : Int) ≤ 4
    omega

theorem misaligned_split_partition_witness :
    (0x1C000001 : Nat) < 2 ^ 32 ∧ (2 : Int) ≤ 4 ∧
    (4 : Int) < ((0x1C000001 % 4 : Nat) : Int) + 4 ∧
    misaligned_split 0x1C000001 4 = (0x1C000004, 3, 1) ∧
    (misaligned_split 0x1C000001 4).2.1 + (misaligned_split 0x1C000001 4).2.2 = 4 ∧
    ((0x1C000001 : Nat) : Int) + (misaligned_split 0x1C000001 4).2.1
      = ((misaligned_split 0x1C000001 4).1 : Int) :=
  ⟨by decide, by decide, by decide, by decide,
    (misaligned_split_partition data_port_ok wrapper_running 0x1C000001 0x100 4 false
      (by decide) (by decide) (by decide) (by decide)).2.2.2.1,
    (misaligned_split_partition data_port_ok wrapper_running 0x1C000001 0x100 4 false
      (by decide) (by decide) (by decide) (by decide)).2.2.2.2.2.1 (by decide)⟩


/-- Claim C23, evaluated on the code. A 4-byte load at `0x1C000001` whose first half the data
port refuses: `data_misaligned_req` reaches the end of its body without a `return`, so no
status is handed to the caller, and it leaves the second half armed (`misaligned_access`
set, address `0x1C000004`, size 1); if the instruction then reports a negative cycle count,
`EXEC_INSTR_COMMON` enqueues the event that performs the second half. When the first half
is granted with latency 2, the status is PENDING and `misaligned_latency` is 3. -/
theorem misaligned_first_half_fault :
    wrapper_running.misaligned_access = false ∧
    (iss_wrapper.data_misaligned_req data_port_invalid wrapper_running
        0x1C000001 0x100 4 false).1 = none ∧
    (iss_wrapper.data_misaligned_req data_port_invalid wrapper_running
        0x1C000001 0x100 4 false).2.misaligned_access = true ∧
    (iss_wrapper.data_misaligned_req data_port_invalid wrapper_running
        0x1C000001 0x100 4 false).2.misaligned_addr = 0x1C000004 ∧
    (iss_wrapper.data_misaligned_req data_port_invalid wrapper_running
        0x1C000001 0x100 4 false).2.misaligned_size = 1 ∧
    (iss_wrapper.data_misaligned_req data_port_invalid wrapper_running
        0x1C000001 0x100 4 false).2.calls
      = [ext_call.data_req_aligned 0x1C000001 0x100 3 false] ∧
    (iss_wrapper.exec_instr_common
        (fun w => (-1, (iss_wrapper.data_misaligned_req data_port_invalid w
          0x1C000001 0x100 4 false).2))
        wrapper_running).queue = [(wrapper_event.misaligned_event, 0)] ∧
    (iss_wrapper.data_misaligned_req data_port_ok wrapper_running
        0x1C000001 0x100 4 false).1 = some io_req_status.IO_REQ_PENDING ∧
    (iss_wrapper.data_misaligned_req data_port_ok wrapper_running
        0x1C000001 0x100 4 false).2.misaligned_latency = 3 := by
  decide


/-! ## The debug unit -/

/-- Claim C24. Debug unit width check. For every offset and every request, read or write,
whose size is not the register width in bytes (4), `dbg_unit_req` returns INVALID and hands
back the state and the buffer word it was given: no core or debug state changes. -/
theorem dbg_unit_width_check (api : core_api) (K1 K2 P : Nat) (w : iss_wrapper)
    (req : io_req) (h : req.size ≠ 4) :
    iss_wrapper.dbg_unit_req api K1 K2 P w req
      = some (io_req_status.IO_REQ_INVALID, req.data, w) := by
  have h1 : req.size ≠ ISS_REG_WIDTH / 8 := h
  unfold iss_wrapper.dbg_unit_req
  simp only [if_pos h1]

theorem dbg_unit_width_check_witness :
    (2 : Nat) ≠ 4 ∧
    iss_wrapper.dbg_unit_req api_scenario 1 0 8 wrapper_stopped
        { addr := 0x2000, data := 0xDEAD0000, size := 2, is_write := true }
      = some (io_req_status.IO_REQ_INVALID, 0xDEAD0000, wrapper_stopped) :=
  ⟨by decide,
    dbg_unit_width_check api_scenario 1 0 8 wrapper_stopped
      { addr := 0x2000, data := 0xDEAD0000, size := 2, is_write := true } (by decide)⟩

/-- Claim C25, amended. Debug unit offset check. For every 4-byte request, `dbg_unit_req`
returns INVALID, leaving the state and the buffer alone, for an offset in `0x0080..0x03FF`,
for an offset in `0x0400..0x1FFF` whose register index `(offset - 0x400) / 4` is at least
`ISS_NB_REGS` (or when the core is not halted), for an offset in `0x2000..0x3FFF` other
than `0x2000` and `0x2004`, and for a write to the read-only register `0x000C`. An offset in
`0x0400..0x1FFF` need not be word-aligned: on a halted core the register
`(offset - 0x400) / 4`, rounded down, is accessed and the status is OK when that index is
below `ISS_NB_REGS`. An offset from `0x4000` on, beyond `0x7FFF` too, is handed to the CSR
access with index `(offset - 0x4000) / 4`, and the status is INVALID exactly when that
access reports an error. -/
theorem dbg_unit_offset_check (api : core_api) (K1 K2 P : Nat) (w : iss_wrapper)
    (req : io_req) (hs : req.size = 4) :
    (0x80 ≤ req.addr → req.addr < 0x400 →
      iss_wrapper.dbg_unit_req api K1 K2 P w req
        = some (io_req_status.IO_REQ_INVALID, req.data, w)) ∧
    (0x400 ≤ req.addr → req.addr < 0x2000 →
      (w.halted = false ∨ api.ISS_NB_REGS ≤ (((req.addr - 0x400) / 4 : Nat) : Int)) →
      iss_wrapper.dbg_unit_req api K1 K2 P w req
        = some (io_req_status.IO_REQ_INVALID, req.data, w)) ∧
    (0x400 ≤ req.addr → req.addr < 0x2000 → w.halted = true →
      (((req.addr - 0x400) / 4 : Nat) : Int) < api.ISS_NB_REGS →
      iss_wrapper.dbg_unit_req api K1 K2 P w req
        = (if req.is_write = true then
            some (io_req_status.IO_REQ_OK, req.data,
              api.iss_set_reg w (((req.addr - 0x400) / 4 : Nat) : Int) (req.data % 2 ^ 32))
          else
            some (io_req_status.IO_REQ_OK,
              api.iss_get_reg w (((req.addr - 0x400) / 4 : Nat) : Int), w))) ∧
    (0x2000 ≤ req.addr → req.addr < 0x4000 → req.addr ≠ 0x2000 → req.addr ≠ 0x2004 →
      iss_wrapper.dbg_unit_req api K1 K2 P w req
        = some (io_req_status.IO_REQ_INVALID, req.data, w)) ∧
    (req.addr = 0x0C → req.is_write = true →
      iss_wrapper.dbg_unit_req api K1 K2 P w req
        = some (io_req_status.IO_REQ_INVALID, req.data, w)) ∧
    (0x4000 ≤ req.addr →
      iss_wrapper.dbg_unit_req api K1 K2 P w req
        = (if req.is_write = true then
            some (if (api.iss_csr_write w ((req.addr - 0x4000) / 4) (req.data % 2 ^ 32)).1 = true
                then io_req_status.IO_REQ_INVALID else io_req_status.IO_REQ_OK,
              req.data,
              (api.iss_csr_write w ((req.addr - 0x4000) / 4) (req.data % 2 ^ 32)).2)
          else
            some (if (api.iss_csr_read w ((req.addr - 0x4000) / 4) req.data).1 = true
                then io_req_status.IO_REQ_INVALID else io_req_status.IO_REQ_OK,
              (api.iss_csr_read w ((req.addr - 0x4000) / 4) req.data).2.1,
              (api.iss_csr_read w ((req.addr - 0x4000) / 4) req.data).2.2))) := by
  have h1 : ¬ (req.size ≠ ISS_REG_WIDTH / 8) := fun h => h hs
  have h4 : ¬ (req.size ≠ 4) := fun h => h hs
  refine ⟨?_, ?_, ?_, ?_, ?_, ?_⟩
  · intro ha hb
    unfold iss_wrapper.dbg_unit_req
    simp only [if_neg h1]
    rw [if_neg (by omega), if_neg (by omega), if_neg (by omega), if_neg (by omega)]
  · intro ha hb hc
    unfold iss_wrapper.dbg_unit_req
    simp only [if_neg h1]
    rw [if_neg (by omega), if_neg (by omega), if_pos (by omega)]
    rcases hc with hc | hc
    · rw [if_pos hc]
    · by_cases hh : w.halted = false
      · rw [if_pos hh]
      · rw [if_neg hh, if_pos (ge_iff_le.mpr hc)]
  · intro ha hb hh hc
    unfold iss_wrapper.dbg_unit_req
    simp only [if_neg h1]
    rw [if_neg (by omega), if_neg (by omega), if_pos (by omega)]
    rw [if_neg (by rw [hh]; exact Bool.noConfusion), if_neg (by omega)]
  · intro ha hb hc hd
    unfold iss_wrapper.dbg_unit_req
    simp only [if_neg h1]
    rw [if_neg (by omega), if_pos (by omega)]
    by_cases hh : w.halted = false
    · rw [if_pos hh]
    · rw [if_neg hh, if_neg hc, if_neg hd]
  · intro ha hw
    unfold iss_wrapper.dbg_unit_req
    simp only [if_neg h1]
    rw [if_neg (by omega), if_neg (by omega), if_neg (by omega), if_pos (by omega)]
    rw [if_neg (by omega), if_neg (by omega), if_pos ha, if_pos hw]
  · intro ha
    unfold iss_wrapper.dbg_unit_req
    simp only [if_neg h1]
    rw [if_pos (by omega), if_neg h4]
    split_ifs <;> rfl


theorem dbg_unit_offset_check_witness :
    (4 : Nat) = 4 ∧ (0x80 : Nat) ≤ 0x100 ∧ (0x100 : Nat) < 0x400 ∧
    iss_wrapper.dbg_unit_req api_scenario 1 0 8 wrapper_stopped
        { addr := 0x100, data := 0, size := 4, is_write := false }
      = some (io_req_status.IO_REQ_INVALID, 0, wrapper_stopped) :=
  ⟨rfl, by decide, by decide,
    (dbg_unit_offset_check api_scenario 1 0 8 wrapper_stopped
      { addr := 0x100, data := 0, size := 4, is_write := false } rfl).1
      (by decide) (by decide)⟩

/-- Claim C25 fails as stated: the offset `0x0401`, which is not word-aligned, is accepted.
On a halted core a 4-byte read at `0x0401` returns OK with the value of register 0. -/
theorem dbg_unit_unaligned_offset_accepted :
    wrapper_stopped.halted = true ∧ api_scenario.ISS_NB_REGS = 32 ∧
    (iss_wrapper.dbg_unit_req api_scenario 1 0 8 wrapper_stopped
        { addr := 0x0401, data := 0x55, size := 4, is_write := false }).map
      (fun r => (r.1, r.2.1))
      = some (io_req_status.IO_REQ_OK, api_scenario.iss_get_reg wrapper_stopped 0) := by
  decide

/-- Bit 0 and bit 16 of a word as `dbg_unit_req` extracts them. -/
theorem dbg_ctrl_bits (v : Nat) (hv : v < 2 ^ 32) :
    decide ((v % 2 ^ 32) &&& 1 ≠ 0) = v.testBit 0 ∧
    decide (((v % 2 ^ 32) >>> 16) &&& 1 ≠ 0) = v.testBit 16 ∧
    (if v.testBit 16 = true then 1 else 0) = (v >>> 16) &&& 1 ∧
    (if v.testBit 0 = true then 1 else 0) = v &&& 1 := by
  have hmod : v % 2 ^ 32 = v := Nat.mod_eq_of_lt hv
  rw [hmod, Nat.and_one_is_mod, Nat.and_one_is_mod, Nat.shiftRight_eq_div_pow,
    Nat.testBit_to_div_mod, Nat.testBit_to_div_mod]
  simp only [Nat.pow_zero, Nat.div_one]
  have h0 : v % 2 = 0 ∨ v % 2 = 1 := by omega
  have h16 : v / 65536 % 2 = 0 ∨ v / 65536 % 2 = 1 := by omega
  rcases h0 with h0 | h0 <;> rcases h16 with h16 | h16 <;> simp [h0, h16]


/-- A 4-byte write to offset 0 of the debug unit: the halt mode and the step mode are set
from bits 16 and 0 of the word, then `check_state` runs. -/
theorem dbg_ctrl_write_eq (api : core_api) (K1 K2 P : Nat) (w : iss_wrapper) (req : io_req)
    (hs : req.size = 4) (ha : req.addr = 0) (hw : req.is_write = true) :
    iss_wrapper.dbg_unit_req api K1 K2 P w req
      = (match iss_wrapper.check_state K1 K2
            { iss_wrapper.set_halt_mode w
                (decide (((req.data % 2 ^ 32) >>> 16) &&& 1 ≠ 0)) HALT_CAUSE_HALT with
              step_mode := decide ((req.data % 2 ^ 32) &&& 1 ≠ 0) } with
        | none => none
        | some w3 => some (io_req_status.IO_REQ_OK, req.data, w3)) := by
  have h1 : ¬ (req.size ≠ ISS_REG_WIDTH / 8) := fun h => h hs
  unfold iss_wrapper.dbg_unit_req
  simp only [if_neg h1]
  rw [if_neg (by omega), if_neg (by omega), if_neg (by omega), if_pos (by omega), if_pos ha,
    if_pos hw]

/-- A 4-byte read of offset 0 of the debug unit. -/
theorem dbg_ctrl_read_eq (api : core_api) (K1 K2 P : Nat) (w : iss_wrapper) (req : io_req)
    (hs : req.size = 4) (ha : req.addr = 0) (hw : req.is_write = false) :
    iss_wrapper.dbg_unit_req api K1 K2 P w req
      = some (io_req_status.IO_REQ_OK,
          ((if w.halted = true then 1 else 0) <<< 16) ||| (if w.step_mode = true then 1 else 0),
          w) := by
  have h1 : ¬ (req.size ≠ ISS_REG_WIDTH / 8) := fun h => h hs
  unfold iss_wrapper.dbg_unit_req
  simp only [if_neg h1]
  rw [if_neg (by omega), if_neg (by omega), if_neg (by omega), if_pos (by omega), if_pos ha,
    if_neg (by rw [hw]; exact Bool.noConfusion)]

/-- Claim C26. Debug control register round trip. For every 32-bit value `v`, a 4-byte
write of `v` to offset `0x0000` (on a core whose `current_insn` is not null, which
`check_state` may read) returns OK, sets `step_mode` to bit 0 of `v` and `halted` to bit 16
of `v`, and a read of offset `0x0000` that follows returns `(bit16(v) << 16) | bit0(v)`.
The other bits of `v` are ignored: a word with the same bits 0 and 16 leads to the same
state. -/
theorem dbg_ctrl_round_trip (api : core_api) (K1 K2 P : Nat) (w : iss_wrapper) (v d : Nat)
    (cur : iss_insn_t) (hv : v < 2 ^ 32) (hcur : w.cpu.exec.current_insn = some cur) :
    ∃ w1,
      iss_wrapper.dbg_unit_req api K1 K2 P w
          { addr := 0, data := v, size := 4, is_write := true }
        = some (io_req_status.IO_REQ_OK, v, w1) ∧
      w1.step_mode = v.testBit 0 ∧ w1.halted = v.testBit 16 ∧
      iss_wrapper.dbg_unit_req api K1 K2 P w1
          { addr := 0, data := d, size := 4, is_write := false }
        = some (io_req_status.IO_REQ_OK, (((v >>> 16) &&& 1) <<< 16) ||| (v &&& 1), w1) ∧
      ∀ v2, v2 < 2 ^ 32 → v2.testBit 0 = v.testBit 0 → v2.testBit 16 = v.testBit 16 →
        iss_wrapper.dbg_unit_req api K1 K2 P w
            { addr := 0, data := v2, size := 4, is_write := true }
          = some (io_req_status.IO_REQ_OK, v2, w1) := by
  have hb := dbg_ctrl_bits v hv
  have hf := wrapper_set_halt_mode_fields w (v.testBit 16) HALT_CAUSE_HALT
  have key : ∀ x, x < 2 ^ 32 →
      iss_wrapper.dbg_unit_req api K1 K2 P w
          { addr := 0, data := x, size := 4, is_write := true }
        = (match iss_wrapper.check_state K1 K2
              { iss_wrapper.set_halt_mode w (x.testBit 16) HALT_CAUSE_HALT with
                step_mode := x.testBit 0 } with
          | none => none
          | some w3 => some (io_req_status.IO_REQ_OK, x, w3)) := by
    intro x hx
    have hbx := dbg_ctrl_bits x hx
    rw [dbg_ctrl_write_eq api K1 K2 P w _ rfl rfl rfl]
    simp only [hbx.1, hbx.2.1]
  obtain ⟨w1, h1⟩ := check_state_returns K1 K2
    { iss_wrapper.set_halt_mode w (v.testBit 16) HALT_CAUSE_HALT with
      step_mode := v.testBit 0 }
    (Or.inr (Or.inr (Or.inr ⟨cur, by
      show (iss_wrapper.set_halt_mode w (v.testBit 16) HALT_CAUSE_HALT).cpu.exec.current_insn
        = some cur
      rw [hf.2.2.2.2.2.1]; exact hcur⟩)))
  have hfr := check_state_cpu K1 K2 _ w1 h1
  have hstep : w1.step_mode = v.testBit 0 := hfr.2.2.2.2.2.1
  have hhalt : w1.halted = v.testBit 16 := by
    rw [hfr.2.2.2.2.1]; exact hf.1
  refine ⟨w1, ?_, hstep, hhalt, ?_, ?_⟩
  · rw [key v hv, h1]
  · rw [dbg_ctrl_read_eq api K1 K2 P w1 _ rfl rfl rfl, hstep, hhalt, hb.2.2.1, hb.2.2.2]
  · intro v2 hv2 e0 e16
    rw [key v2 hv2, e0, e16, h1]

theorem dbg_ctrl_round_trip_witness :
    (0x00010001 : Nat) < 2 ^ 32 ∧
    wrapper_idle.cpu.exec.current_insn = some { page := 0, addr := 0x1C008100 } ∧
    ∃ w1,
      iss_wrapper.dbg_unit_req api_scenario 1 0 8 wrapper_idle
          { addr := 0, data := 0x00010001, size := 4, is_write := true }
        = some (io_req_status.IO_REQ_OK, 0x00010001, w1) ∧
      w1.step_mode = true ∧ w1.halted = true ∧
      iss_wrapper.dbg_unit_req api_scenario 1 0 8 w1
          { addr := 0, data := 0, size := 4, is_write := false }
        = some (io_req_status.IO_REQ_OK, 0x00010001, w1) :=
  ⟨by decide, rfl,
    match dbg_ctrl_round_trip api_scenario 1 0 8 wrapper_idle 0x00010001 0
        { page := 0, addr := 0x1C008100 } (by decide) rfl with
    | ⟨w1, h1, h2, h3, h4, _⟩ => ⟨w1, h1, h2, h3, h4⟩⟩


/-- The call `iss_wrapper::check_state` does not set `wfi`, and it writes `npc` and `ppc`
only when it halts an active core with no step in progress. -/
theorem check_state_wfi_npc (K1 K2 : Nat) (w w1 : iss_wrapper)
    (h : iss_wrapper.check_state K1 K2 w = some w1) :
    (w.wfi = false → w1.wfi = false) ∧
    ((w.is_active_reg = false ∨ w.halted = false ∨ w.do_step = true) →
      w1.npc = w.npc ∧ w1.ppc = w.ppc) := by
  cases ha : w.is_active_reg with
  | false =>
    obtain ⟨w2, h2, hiff, hwake, hstay⟩ := check_state_inactive K1 K2 w ha
    rw [h] at h2
    cases h2
    have hnp : w1.npc = w.npc ∧ w1.ppc = w.ppc := by
      unfold iss_wrapper.check_state at h
      simp only [ha, if_true] at h
      split_ifs at h <;> cases h <;> exact ⟨rfl, rfl⟩
    refine ⟨?_, fun _ => hnp⟩
    intro hw
    cases hb : w1.is_active_reg with
    | true => exact (hwake hb).2.1
    | false => rw [(hstay hb).1]; exact hw
  | true =>
    by_cases hg : w.halted = true ∧ w.do_step = false
    · unfold iss_wrapper.check_state iss_wrapper.halt_core at h
      simp only [ha, Bool.true_eq_false, if_false, if_pos hg] at h
      refine ⟨?_, ?_⟩
      · intro hw
        revert h
        cases w.cpu.exec.prev_insn <;> cases w.cpu.exec.current_insn <;>
          simp only [] <;> intro h <;>
          first
          | (cases h)
          | (split_ifs at h <;> cases h <;> first | rfl | exact hw)
      · intro hq
        rcases hq with hq | hq | hq
        · cases hq
        · rw [hg.1] at hq; cases hq
        · rw [hg.2] at hq; cases hq
    · unfold iss_wrapper.check_state at h
      simp only [ha, Bool.true_eq_false, if_false, if_neg hg] at h
      have key : (w.wfi = false → w1.wfi = false) ∧ w1.npc = w.npc ∧ w1.ppc = w.ppc := by
        split_ifs at h <;> (try dsimp only at h) <;> (try split_ifs at h) <;> cases h <;>
          exact ⟨fun hw => (by first | rfl | exact hw), rfl, rfl⟩
      exact ⟨key.1, fun _ => key.2⟩

/-- A 4-byte write to offset `0x2000` of the debug unit on a halted core: the cache is
flushed, `npc` and the program counter are set, `wfi` is cleared, then `check_state` runs. -/
theorem npc_write_eq (api : core_api) (K1 K2 P : Nat) (w : iss_wrapper) (req : io_req)
    (hs : req.size = 4) (ha : req.addr = 0x2000) (hw : req.is_write = true)
    (hh : w.halted = true) :
    iss_wrapper.dbg_unit_req api K1 K2 P w req
      = (match iss_wrapper.check_state K1 K2
            { iss_pc_set P { iss_wrapper.iss_cache_flush P w with npc := req.data % 2 ^ 32 }
                (req.data % 2 ^ 32) with
              wfi := false } with
        | none => none
        | some w5 => some (io_req_status.IO_REQ_OK, req.data, w5)) := by
  have h1 : ¬ (req.size ≠ ISS_REG_WIDTH / 8) := fun h => h hs
  unfold iss_wrapper.dbg_unit_req
  simp only [if_neg h1]
  rw [if_neg (by omega), if_pos (by omega), if_neg (by rw [hh]; exact Bool.noConfusion),
    if_pos ha, if_pos hw]

/-- A 4-byte access to the range `0x2000..0x3FFF` of the debug unit on a core that is not
halted is refused and changes nothing. -/
theorem npc_access_not_halted (api : core_api) (K1 K2 P : Nat) (w : iss_wrapper)
    (req : io_req) (hs : req.size = 4) (ha : 0x2000 ≤ req.addr) (hb : req.addr < 0x4000)
    (hh : w.halted = false) :
    iss_wrapper.dbg_unit_req api K1 K2 P w req
      = some (io_req_status.IO_REQ_INVALID, req.data, w) := by
  have h1 : ¬ (req.size ≠ ISS_REG_WIDTH / 8) := fun h => h hs
  unfold iss_wrapper.dbg_unit_req
  simp only [if_neg h1]
  rw [if_neg (by omega), if_pos (by omega), if_pos hh]

/-- The tail of the debug write to `NPC`, from any state `w0` in which the cache returns an
entry for the value written: `npc` and the program counter are set, `wfi` is cleared and
`check_state` returns. -/
theorem npc_write_core (K1 K2 P : Nat) (w0 : iss_wrapper) (x : Nat) (e : iss_insn_t)
    (hh : w0.halted = true)
    (hget : (insn_cache_get P w0.cpu.decode.insn_cache (x % 2 ^ 32)).1 = some e) :
    ∃ w1,
      iss_wrapper.check_state K1 K2
          { iss_pc_set P { w0 with npc := x } x with wfi := false } = some w1 ∧
      w1.cpu.exec.current_insn = some e ∧
      w1.cpu.decode.insn_cache = (insn_cache_get P w0.cpu.decode.insn_cache (x % 2 ^ 32)).2 ∧
      w1.wfi = false ∧ w1.halted = true ∧
      ((w0.is_active_reg = false ∨ w0.do_step = true) → w1.npc = x) ∧
      (w0.is_active_reg = true → w0.do_step = false → w1.npc = e.addr) := by
  generalize hw4 : ({ iss_pc_set P { w0 with npc := x } x with wfi := false } : iss_wrapper)
    = w4
  have hcur : w4.cpu.exec.current_insn = some e := by
    rw [← hw4]; exact hget
  have hcache : w4.cpu.decode.insn_cache
      = (insn_cache_get P w0.cpu.decode.insn_cache (x % 2 ^ 32)).2 := by
    rw [← hw4]; rfl
  have hflags : w4.wfi = false ∧ w4.halted = true ∧ w4.npc = x ∧
      w4.is_active_reg = w0.is_active_reg ∧ w4.do_step = w0.do_step := by
    rw [← hw4]
    exact ⟨rfl, hh, rfl, rfl, rfl⟩
  obtain ⟨w1, h1⟩ := check_state_returns K1 K2 w4 (Or.inr (Or.inr (Or.inr ⟨_, hcur⟩)))
  have hfr := check_state_cpu K1 K2 w4 w1 h1
  have hwn := check_state_wfi_npc K1 K2 w4 w1 h1
  refine ⟨w1, h1, ?_, ?_, hwn.1 hflags.1, ?_, ?_, ?_⟩
  · rw [hfr.2.1, hcur]
  · rw [hfr.2.2.1, hcache]
  · rw [hfr.2.2.2.2.1]; exact hflags.2.1
  · intro hq
    have := (hwn.2 (by
      rcases hq with hq | hq
      · exact Or.inl (hflags.2.2.2.1.trans hq)
      · exact Or.inr (Or.inr (hflags.2.2.2.2.trans hq)))).1
    rw [this]; exact hflags.2.2.1
  · intro hact hstep
    obtain ⟨w2, h2, _, hnpc, _⟩ := check_state_halt_deactivates K1 K2 w4 e
      (hflags.2.2.2.1.trans hact) hflags.2.1 (hflags.2.2.2.2.trans hstep) hcur
    rw [h1] at h2
    cases h2
    exact hnpc

/-- The legacy flush changes the core record only. -/
theorem wrapper_cache_flush_fields (P : Nat) (w : iss_wrapper) :
    (iss_wrapper.iss_cache_flush P w).cpu = iss_cache_flush P w.cpu ∧
    (iss_wrapper.iss_cache_flush P w).halted = w.halted ∧
    (iss_wrapper.iss_cache_flush P w).is_active_reg = w.is_active_reg ∧
    (iss_wrapper.iss_cache_flush P w).do_step = w.do_step := by
  unfold iss_wrapper.iss_cache_flush
  exact ⟨rfl, rfl, rfl, rfl⟩

/-- The debug write of `v` to `NPC` on a halted core, in every state of the other flags: the
write returns OK; `current_insn` is the entry that the flushed cache returns for `v`, an
undecoded entry whose address is `v` with bit 0 cleared; the cache is the flushed cache
after that lookup; `wfi` is clear and the core still halted. The register `npc` holds `v`,
except that on a core still active with no step in progress `check_state` halts the core
and records the address of the entry. -/
theorem npc_write_halted (api : core_api) (K1 K2 P : Nat) (w : iss_wrapper) (v : Nat)
    (hv : v < 2 ^ 32) (hh : w.halted = true) :
    ∃ w1 e,
      iss_wrapper.dbg_unit_req api K1 K2 P w
          { addr := 0x2000, data := v, size := 4, is_write := true }
        = some (io_req_status.IO_REQ_OK, v, w1) ∧
      w1.cpu.exec.current_insn = some e ∧
      (insn_cache_get P (iss_cache_flush P w.cpu).decode.insn_cache v).1 = some e ∧
      e.addr = v - (v % 2 ^ P) % 2 ∧
      insn_cache_is_decoded e = false ∧
      w1.cpu.decode.insn_cache
        = (insn_cache_get P (iss_cache_flush P w.cpu).decode.insn_cache v).2 ∧
      w1.wfi = false ∧ w1.halted = true ∧
      ((w.is_active_reg = false ∨ w.do_step = true) → w1.npc = v) ∧
      (w.is_active_reg = true → w.do_step = false → w1.npc = e.addr) := by
  have hmod : v % 2 ^ 32 = v := Nat.mod_eq_of_lt hv
  have hfl := wrapper_cache_flush_fields P w
  have hfresh := iss_cache_flush_fresh P w.cpu
  have hget' := (pages_fresh_get P _ v hfresh).2
  rw [hmod] at hget'
  obtain ⟨e, he, hea, hed⟩ : ∃ e,
      (insn_cache_get P (iss_cache_flush P w.cpu).decode.insn_cache v).1 = some e ∧
      e.addr = v - (v % 2 ^ P) % 2 ∧ insn_cache_is_decoded e = false :=
    ⟨_, hget', rfl, insn_init_undecoded _ _⟩
  have hget0 : (insn_cache_get P (iss_wrapper.iss_cache_flush P w).cpu.decode.insn_cache
      (v % 2 ^ 32 % 2 ^ 32)).1 = some e := by
    rw [hfl.1, hmod, hmod]; exact he
  obtain ⟨w1, h1, h2, h3, h4, h5, h6, h7⟩ :=
    npc_write_core K1 K2 P (iss_wrapper.iss_cache_flush P w) (v % 2 ^ 32) e
      (hfl.2.1.trans hh) hget0
  rw [hfl.1, hmod, hmod] at h3
  rw [hfl.2.2.1, hfl.2.2.2, hmod] at h6
  rw [hfl.2.2.1, hfl.2.2.2] at h7
  refine ⟨w1, e, ?_, h2, he, hea, hed, h3, h4, h5, h6, h7⟩
  rw [npc_write_eq api K1 K2 P w _ rfl rfl rfl hh]
  show (match iss_wrapper.check_state K1 K2
      { iss_pc_set P { iss_wrapper.iss_cache_flush P w with npc := v % 2 ^ 32 }
          (v % 2 ^ 32) with wfi := false } with
    | none => none
    | some w5 => some (io_req_status.IO_REQ_OK, v, w5)) = _
  rw [h1]


/-- Claim C28, amended. The NPC write is honoured on a halted core, whatever its other
flags (running, stopped, or asleep in WFI): for every 32-bit value `v` a 4-byte debug write
of `v` to offset `0x2000` returns OK, makes `current_insn`, the next instruction to
execute, the cache entry of address `v` and clears `wfi`. On a core that is not halted, in
WFI or not, the write returns INVALID and changes nothing. -/
theorem npc_write_needs_halt (api : core_api) (K1 K2 P : Nat) (w : iss_wrapper) (v : Nat)
    (hv : v < 2 ^ 32) :
    (w.halted = true →
      ∃ w1 e,
        iss_wrapper.dbg_unit_req api K1 K2 P w
            { addr := 0x2000, data := v, size := 4, is_write := true }
          = some (io_req_status.IO_REQ_OK, v, w1) ∧
        w1.cpu.exec.current_insn = some e ∧
        (insn_cache_get P (iss_cache_flush P w.cpu).decode.insn_cache v).1 = some e ∧
        e.addr = v - (v % 2 ^ P) % 2 ∧
        w1.wfi = false) ∧
    (w.halted = false →
      iss_wrapper.dbg_unit_req api K1 K2 P w
          { addr := 0x2000, data := v, size := 4, is_write := true }
        = some (io_req_status.IO_REQ_INVALID, v, w)) := by
  constructor
  · intro hh
    obtain ⟨w1, e, h1, h2, h3, h4, _, _, h7, _⟩ := npc_write_halted api K1 K2 P w v hv hh
    exact ⟨w1, e, h1, h2, h3, h4, h7⟩
  · intro hh
    exact npc_access_not_halted api K1 K2 P w _ rfl (Nat.le_refl 0x2000)
      (show (0x2000 : Nat) < 0x4000 by decide) hh

theorem npc_write_needs_halt_witness :
    (0xDEAD0000 : Nat) < 2 ^ 32 ∧ wrapper_halted.halted = true ∧
    wrapper_halted.is_active_reg = true ∧
    ∃ w1 e,
      iss_wrapper.dbg_unit_req api_scenario 1 0 8 wrapper_halted
          { addr := 0x2000, data := 0xDEAD0000, size := 4, is_write := true }
        = some (io_req_status.IO_REQ_OK, 0xDEAD0000, w1) ∧
      w1.cpu.exec.current_insn = some e ∧ e.addr = 0xDEAD0000 ∧ w1.wfi = false :=
  ⟨by decide, rfl, rfl,
    match (npc_write_needs_halt api_scenario 1 0 8 wrapper_halted 0xDEAD0000 (by decide)).1
        rfl with
    | ⟨w1, e, h1, h2, _, h4, h5⟩ => ⟨w1, e, h1, h2, h4, h5⟩⟩

/-- Claim C28 fails as stated: on a core asleep in WFI that is not halted, the debug write
of `0xDEAD0000` to offset `0x2000` returns INVALID and changes nothing: `current_insn` is
still the entry of `0x1C008100`, `npc` is still 0 and `wfi` is still set. -/
theorem npc_write_refused_in_wfi :
    wrapper_wfi_asleep.wfi = true ∧ wrapper_wfi_asleep.halted = false ∧
    wrapper_wfi_asleep.is_active_reg = false ∧
    (iss_wrapper.dbg_unit_req api_scenario 1 0 8 wrapper_wfi_asleep
        { addr := 0x2000, data := 0xDEAD0000, size := 4, is_write := true }).map
      (fun r => (r.1, r.2.1, r.2.2.npc, r.2.2.wfi, r.2.2.cpu.exec.current_insn))
      = some (io_req_status.IO_REQ_INVALID, 0xDEAD0000, 0, true,
          some { page := 0, addr := 0x1C008100 }) := by
  decide


/-! ## Clock retain and release -/

/-- One call of `set_halt_mode`: the balance of retain and release calls moves with the
halt flag, `halted` is the value passed and `halt_cause` the cause passed. -/
theorem set_halt_mode_balance (w : iss_wrapper) (h : Bool) (cause : Int) :
    clock_balance (iss_wrapper.set_halt_mode w h cause).calls
      = clock_balance w.calls + (if h = true then 1 else 0)
          - (if w.halted = true then 1 else 0) ∧
    (iss_wrapper.set_halt_mode w h cause).halted = h ∧
    (iss_wrapper.set_halt_mode w h cause).halt_cause = cause := by
  unfold iss_wrapper.set_halt_mode clock_balance
  cases hw : w.halted <;> cases h <;> cases hb : w.halt_status_itf_bound <;>
    simp [hw, hb, List.count_append] <;> omega

/-- The balance over a sequence of calls, from any starting state. -/
theorem set_halt_mode_seq_balance (l : List (Bool × Int)) :
    ∀ w : iss_wrapper,
      clock_balance (set_halt_mode_seq w l).calls
        = clock_balance w.calls + (if (set_halt_mode_seq w l).halted = true then 1 else 0)
            - (if w.halted = true then 1 else 0) := by
  induction l with
  | nil =>
    intro w
    show clock_balance w.calls
      = clock_balance w.calls + (if w.halted = true then 1 else 0)
          - (if w.halted = true then 1 else 0)
    split_ifs <;> omega
  | cons p l ih =>
    intro w
    have h1 := set_halt_mode_balance w p.1 p.2
    have h2 := ih (iss_wrapper.set_halt_mode w p.1 p.2)
    have e : set_halt_mode_seq w (p :: l)
        = set_halt_mode_seq (iss_wrapper.set_halt_mode w p.1 p.2) l := rfl
    rw [e, h2, h1.1, h1.2.1]
    split_ifs <;> omega

theorem set_halt_mode_seq_append (w : iss_wrapper) (l1 l2 : List (Bool × Int)) :
    set_halt_mode_seq w (l1 ++ l2) = set_halt_mode_seq (set_halt_mode_seq w l1) l2 := by
  unfold set_halt_mode_seq
  rw [List.foldl_append]

/-- Claim C35. Clock retain/release balance. For every finite sequence of
`set_halt_mode(h, cause)` calls starting from `halted = false`, the number of `retain()`
calls minus the number of `release()` calls made by the sequence is 1 if the core ends
halted and 0 otherwise; this holds after every prefix, so the balance is never negative and
never above 1; `halted` equals the last `h` passed and `halt_cause` the last cause passed,
whether or not the call changed `halted`. -/
theorem clock_retain_release_balance (w : iss_wrapper) (l : List (Bool × Int))
    (h0 : w.halted = false) :
    clock_balance (set_halt_mode_seq w l).calls - clock_balance w.calls
      = (if (set_halt_mode_seq w l).halted = true then 1 else 0) ∧
    (∀ l1 l2, l = l1 ++ l2 →
      0 ≤ clock_balance (set_halt_mode_seq w l1).calls - clock_balance w.calls ∧
      clock_balance (set_halt_mode_seq w l1).calls - clock_balance w.calls ≤ 1) ∧
    (∀ l0 h cause, l = l0 ++ [(h, cause)] →
      (set_halt_mode_seq w l).halted = h ∧ (set_halt_mode_seq w l).halt_cause = cause) := by
  have key : ∀ l1, clock_balance (set_halt_mode_seq w l1).calls - clock_balance w.calls
      = (if (set_halt_mode_seq w l1).halted = true then 1 else 0) := by
    intro l1
    have := set_halt_mode_seq_balance l1 w
    rw [h0] at this
    simp only [Bool.false_eq_true, if_false] at this
    omega
  refine ⟨key l, ?_, ?_⟩
  · intro l1 l2 _
    rw [key l1]
    split_ifs <;> omega
  · intro l0 h cause hl
    rw [hl, set_halt_mode_seq_append]
    have := set_halt_mode_balance (set_halt_mode_seq w l0) h cause
    exact ⟨this.2.1, this.2.2⟩

theorem clock_retain_release_balance_witness :
    wrapper_idle.halted = false ∧
    clock_balance (set_halt_mode_seq wrapper_idle [(true, 15), (true, 3), (false, 15),
        (true, 4)]).calls - clock_balance wrapper_idle.calls = 1 ∧
    (set_halt_mode_seq wrapper_idle [(true, 15), (true, 3), (false, 15), (true, 4)]).halted
      = true ∧
    (set_halt_mode_seq wrapper_idle [(true, 15), (true, 3), (false, 15), (true, 4)]).halt_cause
      = 4 :=
  ⟨rfl,
    (clock_retain_release_balance wrapper_idle [(true, 15), (true, 3), (false, 15), (true, 4)]
      rfl).1,
    ((clock_retain_release_balance wrapper_idle [(true, 15), (true, 3), (false, 15), (true, 4)]
      rfl).2.2 [(true, 15), (true, 3), (false, 15)] true 4 rfl).1,
    ((clock_retain_release_balance wrapper_idle [(true, 15), (true, 3), (false, 15), (true, 4)]
      rfl).2.2 [(true, 15), (true, 3), (false, 15)] true 4 rfl).2⟩


/-! ## The activity invariant of the legacy wrapper -/

/-- The call `iss_wrapper::check_state` writes none of `fetch_enable`, `stalled`, `irq_req`. -/
theorem check_state_flags (K1 K2 : Nat) (w w1 : iss_wrapper)
    (h : iss_wrapper.check_state K1 K2 w = some w1) :
    w1.fetch_enable_reg = w.fetch_enable_reg ∧ w1.stalled = w.stalled ∧
    w1.irq_req = w.irq_req := by
  unfold iss_wrapper.check_state iss_wrapper.halt_core at h
  simp only [] at h
  split_ifs at h <;>
    first
    | (cases h; exact ⟨rfl, rfl, rfl⟩)
    | (revert h
       cases w.cpu.exec.prev_insn <;> cases w.cpu.exec.current_insn <;>
         simp only [] <;> intro h <;>
         first
         | (cases h)
         | (split_ifs at h <;> cases h <;> exact ⟨rfl, rfl, rfl⟩))

/-- What `check_state` leaves behind: an active core has `wfi` clear and is halted only
while stepping; an inactive core does not meet the wake condition. -/
theorem check_state_settled (K1 K2 : Nat) (w w1 : iss_wrapper)
    (h : iss_wrapper.check_state K1 K2 w = some w1) :
    (w1.is_active_reg = true → w1.wfi = false ∧ (w1.halted = true → w1.do_step = true)) ∧
    (w1.is_active_reg = false → ¬ wake_condition w1) := by
  have hcpu := check_state_cpu K1 K2 w w1 h
  have hfl := check_state_flags K1 K2 w w1 h
  cases ha : w.is_active_reg with
  | false =>
    obtain ⟨w2, h2, hiff, hwake, hstay⟩ := check_state_inactive K1 K2 w ha
    rw [h] at h2
    cases h2
    constructor
    · intro hb
      refine ⟨(hwake hb).2.1, ?_⟩
      intro hh
      rw [hcpu.2.2.2.2.1, (hiff.1 hb).2.1] at hh
      cases hh
    · intro hb hc
      have hne : ¬ (w1.is_active_reg = true) := by rw [hb]; exact Bool.noConfusion
      apply hne
      apply hiff.2
      unfold wake_condition at hc
      rw [hcpu.2.2.2.2.1, hfl.1, hfl.2.1, hfl.2.2, (hstay hb).1] at hc
      exact ⟨hc.2.1, hc.1, hc.2.2.1, hc.2.2.2⟩
  | true =>
    by_cases hg : w.halted = true ∧ w.do_step = false
    · have hin : w1.is_active_reg = false := by
        unfold iss_wrapper.check_state iss_wrapper.halt_core at h
        simp only [ha, Bool.true_eq_false, if_false, if_pos hg] at h
        revert h
        cases w.cpu.exec.prev_insn <;> cases w.cpu.exec.current_insn <;>
          simp only [] <;> intro h <;>
          first
          | (cases h)
          | (split_ifs at h <;> cases h <;> rfl)
      constructor
      · intro hb; rw [hin] at hb; cases hb
      · intro _ hc
        unfold wake_condition at hc
        rw [hcpu.2.2.2.2.1, hg.1] at hc
        cases hc.1
    · unfold iss_wrapper.check_state at h
      simp only [ha, Bool.true_eq_false, if_false, if_neg hg] at h
      have hgate : w.halted = true → w.do_step = true := by
        intro hh
        cases hd : w.do_step with
        | true => rfl
        | false => exact absurd ⟨hh, hd⟩ hg
      unfold wake_condition
      cases hw : w.wfi with
      | false =>
        simp only [hw, Bool.false_eq_true, if_false, if_true] at h
        cases h
        exact ⟨fun _ => ⟨rfl, hgate⟩, fun hb => Bool.noConfusion hb⟩
      | true =>
        by_cases hi : w.irq_req = -1
        · simp only [hw, if_true, hi] at h
          split_ifs at h <;> cases h
          · refine ⟨fun hb => Bool.noConfusion hb, fun _ hc => ?_⟩
            rcases hc.2.2.2 with hc | hc
            · exact Bool.noConfusion hc
            · exact hc rfl
          · refine ⟨fun hb => Bool.noConfusion hb, fun _ hc => ?_⟩
            rcases hc.2.2.2 with hc | hc
            · exact Bool.noConfusion hc
            · exact hc rfl
        · simp only [hw, if_true, if_neg hi] at h
          cases h
          exact ⟨fun _ => ⟨rfl, hgate⟩, fun hb => Bool.noConfusion hb⟩


/-- A state as `check_state` leaves it is a fixed point of `check_state` on the flags. -/
theorem check_state_stable (K1 K2 : Nat) (w1 : iss_wrapper)
    (hs1 : w1.is_active_reg = true →
      w1.wfi = false ∧ (w1.halted = true → w1.do_step = true))
    (hs2 : w1.is_active_reg = false → ¬ wake_condition w1) :
    ∃ w2, iss_wrapper.check_state K1 K2 w1 = some w2 ∧
      w2.is_active_reg = w1.is_active_reg ∧ w2.wfi = w1.wfi ∧ w2.do_step = w1.do_step ∧
      w2.wakeup_latency = w1.wakeup_latency ∧ w2.npc = w1.npc ∧ w2.ppc = w1.ppc := by
  cases ha : w1.is_active_reg with
  | false =>
    obtain ⟨w2, h2, hiff, _, hstay⟩ := check_state_inactive K1 K2 w1 ha
    have hin : w2.is_active_reg = false := by
      cases hb : w2.is_active_reg with
      | false => rfl
      | true =>
        have hc := hiff.1 hb
        exact absurd ⟨hc.2.1, hc.1, hc.2.2.1, hc.2.2.2⟩ (hs2 ha)
    have hn := (check_state_wfi_npc K1 K2 w1 w2 h2).2 (Or.inl ha)
    exact ⟨w2, h2, hin, (hstay hin).1, (hstay hin).2.1, (hstay hin).2.2.1, hn.1, hn.2⟩
  | true =>
    have h1 := hs1 ha
    have hg : ¬ (w1.halted = true ∧ w1.do_step = false) := by
      rintro ⟨hh, hd⟩
      rw [h1.2 hh] at hd
      cases hd
    unfold iss_wrapper.check_state
    simp only [ha, Bool.true_eq_false, if_false, if_neg hg, h1.1, Bool.false_eq_true]
    exact ⟨_, rfl, rfl, rfl, rfl, rfl, rfl, rfl⟩

/-- Claim C34. Activity invariant of the legacy wrapper. After every call of
`iss_wrapper::check_state`, from any flag state (with `current_insn` not null where
`halt_core` reads it), if `is_active` is true then `wfi` is false and the core is not
halted unless `do_step` is set; and a second call of `check_state` right after changes none
of `is_active`, `wfi`, `do_step`, `wakeup_latency`, `npc` and `ppc`. -/
theorem check_state_activity_invariant (K1 K2 : Nat) (w : iss_wrapper)
    (hret : w.is_active_reg = false ∨ w.halted = false ∨ w.do_step = true ∨
      ∃ cur, w.cpu.exec.current_insn = some cur) :
    ∃ w1, iss_wrapper.check_state K1 K2 w = some w1 ∧
      (w1.is_active_reg = true →
        w1.wfi = false ∧ (w1.halted = true → w1.do_step = true)) ∧
      ∃ w2, iss_wrapper.check_state K1 K2 w1 = some w2 ∧
        w2.is_active_reg = w1.is_active_reg ∧ w2.wfi = w1.wfi ∧ w2.do_step = w1.do_step ∧
        w2.wakeup_latency = w1.wakeup_latency ∧ w2.npc = w1.npc ∧ w2.ppc = w1.ppc := by
  obtain ⟨w1, h1⟩ := check_state_returns K1 K2 w hret
  have hs := check_state_settled K1 K2 w w1 h1
  exact ⟨w1, h1, hs.1, check_state_stable K1 K2 w1 hs.1 hs.2⟩

theorem check_state_activity_invariant_witness :
    wrapper_step_wfi.is_active_reg = true ∧ wrapper_step_wfi.do_step = true ∧
    ∃ w1, iss_wrapper.check_state 1 0 wrapper_step_wfi = some w1 ∧
      (w1.is_active_reg = true →
        w1.wfi = false ∧ (w1.halted = true → w1.do_step = true)) ∧
      ∃ w2, iss_wrapper.check_state 1 0 w1 = some w2 ∧
        w2.is_active_reg = w1.is_active_reg ∧ w2.wfi = w1.wfi ∧ w2.do_step = w1.do_step ∧
        w2.wakeup_latency = w1.wakeup_latency ∧ w2.npc = w1.npc ∧ w2.ppc = w1.ppc :=
  ⟨rfl, rfl,
    check_state_activity_invariant 1 0 wrapper_step_wfi (Or.inr (Or.inr (Or.inl rfl)))⟩


/-! ## Initialisation of the vector table -/

/-- The loop of `Irq::build` clears the slots 0 to 31 and leaves every other slot as it
was. -/
theorem irq_build_slots (s : Iss) (i : Int) :
    (0 ≤ i → i < 32 → (Irq.build s).irq.vectors i = none) ∧
    (32 ≤ i → (Irq.build s).irq.vectors i = s.irq.vectors i) := by
  unfold Irq.build
  constructor
  · intro h0 h1
    show (if 0 ≤ i ∧ i < 32 then none else s.irq.vectors i) = none
    rw [if_pos ⟨h0, h1⟩]
  · intro h
    show (if 0 ≤ i ∧ i < 32 then none else s.irq.vectors i) = s.irq.vectors i
    rw [if_neg (by omega)]

/-- Claim C36, evaluated on the code. From a core whose table memory holds a stray pointer,
`Irq::build` clears the slots 0 to 31 only: the exception slots 32, 33 and 34 still hold
the stray pointer, and `iss_except_raise` (built without `PRIV_1_10`), which tests slot
`32 + id` against NULL, returns it for exception 1 as the handler to run. -/
theorem irq_build_leaves_exception_slots :
    (Irq.build scenario_unbuilt).irq.vectors 0 = none ∧
    (Irq.build scenario_unbuilt).irq.vectors 31 = none ∧
    (Irq.build scenario_unbuilt).irq.vectors 32 = some { page := 99, addr := 0xBAD0 } ∧
    (Irq.build scenario_unbuilt).irq.vectors 33 = some { page := 99, addr := 0xBAD0 } ∧
    (Irq.build scenario_unbuilt).irq.vectors 34 = some { page := 99, addr := 0xBAD0 } ∧
    (iss_except_raise false 3 8 (Irq.build scenario_unbuilt) 1).map (fun r => r.1)
      = some (some (some { page := 99, addr := 0xBAD0 })) := by
  decide

/-! ## The request line: wrapper against component -/

/-- The legacy `irq_req_sync` wakes a sleeping core for every value of `irq`: `wfi` is
cleared before `check_state` runs, so the wake condition holds whenever the core is not
halted, fetch is enabled and the core is not stalled. -/
theorem wrapper_irq_req_sync_wakes (K1 K2 : Nat) (w : iss_wrapper) (irq : Int)
    (hin : w.is_active_reg = false) (hh : w.halted = false)
    (hf : w.fetch_enable_reg = true) (hs : w.stalled = false) :
    ∃ w1, iss_wrapper.irq_req_sync K1 K2 w irq = some w1 ∧
      w1.is_active_reg = true ∧ w1.wfi = false ∧ w1.irq_req = irq := by
  unfold iss_wrapper.irq_req_sync
  simp only []
  generalize hw4 : ({ iss_irq_req (iss_wrapper.irq_check { w with irq_req := irq }) irq with
      wfi := false } : iss_wrapper) = w4
  have hflags : w4.is_active_reg = false ∧ w4.halted = false ∧ w4.fetch_enable_reg = true ∧
      w4.stalled = false ∧ w4.wfi = false ∧ w4.irq_req = irq := by
    rw [← hw4]
    exact ⟨hin, hh, hf, hs, rfl, rfl⟩
  obtain ⟨w1, h1, hiff, hwake, _⟩ := check_state_inactive K1 K2 w4 hflags.1
  have hact : w1.is_active_reg = true :=
    hiff.2 ⟨hflags.2.2.1, hflags.2.1, hflags.2.2.2.1, Or.inl hflags.2.2.2.2.1⟩
  have hfl := check_state_flags K1 K2 w4 w1 h1
  exact ⟨w1, h1, hact, (hwake hact).2.1, hfl.2.2.trans hflags.2.2.2.2.2⟩

/-- Claim C37, evaluated on the code. On a core asleep in WFI the deassert
`iss_wrapper::irq_req_sync(-1)` clears `wfi` and wakes the core, whereas
`Irq::irq_req_sync(-1)` leaves `wfi` set and the stall count as it was. For request 7 the
two agree: both clear `wfi` and wake the core. -/
theorem wrapper_deassert_wakes_sleeping_core :
    wrapper_wfi_asleep.is_active_reg = false ∧ wrapper_wfi_asleep.wfi = true ∧
    (iss_wrapper.irq_req_sync 1 0 wrapper_wfi_asleep (-1)).map
        (fun w => (w.is_active_reg, w.wfi, w.irq_req)) = some (true, false, -1) ∧
    scenario_wfi.exec.wfi = true ∧ scenario_wfi.exec.stalled = 1 ∧
    (Irq.irq_req_sync scenario_wfi (-1)).exec.wfi = true ∧
    (Irq.irq_req_sync scenario_wfi (-1)).exec.stalled = 1 ∧
    (iss_wrapper.irq_req_sync 1 0 wrapper_wfi_asleep 7).map
        (fun w => (w.is_active_reg, w.wfi, w.irq_req)) = some (true, false, 7) ∧
    (Irq.irq_req_sync scenario_wfi 7).exec.wfi = false ∧
    (Irq.irq_req_sync scenario_wfi 7).exec.stalled = 0 := by
  decide


/-! ## Consistency of signed division and remainder -/

/-- The C remainder has the sign of the dividend and is smaller than the divisor in
absolute value. -/
theorem tmod_bounds (a b : Int) (hb : b ≠ 0) :
    (0 ≤ a → 0 ≤ Int.tmod a b ∧ (Int.tmod a b).natAbs < b.natAbs) ∧
    (a ≤ 0 → Int.tmod a b ≤ 0 ∧ (Int.tmod a b).natAbs < b.natAbs) := by
  have hpos : 0 < b.natAbs := Int.natAbs_pos.mpr hb
  have key : ∀ m : Nat,
      Int.tmod (Int.ofNat m) b = ((m % b.natAbs : Nat) : Int) ∧
      Int.tmod (Int.negSucc m) b = -(((m + 1) % b.natAbs : Nat) : Int) := by
    intro m
    cases b with
    | ofNat n => exact ⟨rfl, rfl⟩
    | negSucc n => exact ⟨rfl, rfl⟩
  cases a with
  | ofNat m =>
    have hlt : m % b.natAbs < b.natAbs := Nat.mod_lt _ hpos
    rw [(key m).1]
    constructor
    · intro _
      exact ⟨Int.ofNat_nonneg _, by simpa using hlt⟩
    · intro h
      have hm : m = 0 := by
        have : (Int.ofNat m) = (m : Int) := rfl
        omega
      subst hm
      simp [hpos]
  | negSucc m =>
    have hlt : (m + 1) % b.natAbs < b.natAbs := Nat.mod_lt _ hpos
    rw [(key m).2]
    constructor
    · intro h
      have : Int.negSucc m < 0 := Int.negSucc_lt_zero m
      omega
    · intro _
      refine ⟨by omega, ?_⟩
      rw [Int.natAbs_neg]
      simpa using hlt

/-- Away from the overflow case, `div_exec` and `rem_exec` hand the host quotient and
remainder of the signed operands to `REG_SET`, and these are consistent: the quotient times
the divisor plus the remainder is the dividend, the remainder is smaller than the divisor in
absolute value, and it is zero or has the sign of the dividend. -/
theorem div_rem_consistent (w0 w1 : Nat) (hb : to_sim w1 ≠ 0)
    (hov : ¬ (to_sim w0 = SIM_MIN ∧ to_sim w1 = -1)) :
    (div_exec w0 w1).reg_set = some (to_uim (Int.tdiv (to_sim w0) (to_sim w1))) ∧
    (rem_exec w0 w1).reg_set = some (to_uim (Int.tmod (to_sim w0) (to_sim w1))) ∧
    Int.tdiv (to_sim w0) (to_sim w1) * to_sim w1 + Int.tmod (to_sim w0) (to_sim w1)
      = to_sim w0 ∧
    (Int.tmod (to_sim w0) (to_sim w1)).natAbs < (to_sim w1).natAbs ∧
    (0 ≤ to_sim w0 → 0 ≤ Int.tmod (to_sim w0) (to_sim w1)) ∧
    (to_sim w0 ≤ 0 → Int.tmod (to_sim w0) (to_sim w1) ≤ 0) := by
  have hn0 := to_ull_to_sim_ne w0
  have hn1 := to_ull_to_sim_ne w1
  have hb' := tmod_bounds (to_sim w0) (to_sim w1) hb
  refine ⟨?_, ?_, Int.tdiv_add_tmod' _ _, ?_, fun h => (hb'.1 h).1, fun h => (hb'.2 h).1⟩
  · unfold div_exec host_div
    simp only [if_neg hb, hn0, hn1, false_and, if_false, if_neg hov, Option.map_some']
  · unfold rem_exec host_rem
    simp only [if_neg hb, hn0, hn1, false_and, if_false, if_neg hov, Option.map_some']
  · rcases Int.le_total 0 (to_sim w0) with h | h
    · exact (hb'.1 h).2
    · exact (hb'.2 h).2

/-- Claim C33, evaluated on the code. For the dividend `INT_MIN` and the divisor -1 the
overflow guards do not match and the handlers reach the host `/` and `%`, which have no
value there: no quotient and no remainder is written, so the relation `q * b + r = a` has
nothing to hold of. The other case the claim names, dividend -1 and divisor `INT_MIN`, is
computed by the host operators: quotient 0 and remainder -1. -/
theorem div_rem_inconsistent_at_overflow :
    to_sim 0x80000000 = SIM_MIN ∧ to_sim 0xFFFFFFFF = -1 ∧
    (div_exec 0x80000000 0xFFFFFFFF).reg_set = none ∧
    (rem_exec 0x80000000 0xFFFFFFFF).reg_set = none ∧
    host_div SIM_MIN (-1) = none ∧ host_rem SIM_MIN (-1) = none ∧
    (div_exec 0xFFFFFFFF 0x80000000).reg_set = some 0 ∧
    (rem_exec 0xFFFFFFFF 0x80000000).reg_set = some 0xFFFFFFFF := by
  decide


/-! ## The full flush -/

theorem pages_since_page_get (n P : Nat) (c : iss_insn_cache_t) (a : Nat)
    (h : pages_since n c) : pages_since n (insn_cache_page_get P c a).2 := by
  cases hl : c.pages.lookup ((a % 2 ^ 32) >>> P) with
  | some pg =>
    rw [page_get_of_lookup P c a pg hl]
    exact h
  | none =>
    rw [page_get_miss P c a hl]
    refine ⟨Nat.le_succ_of_le h.1, ?_⟩
    intro k page hk
    by_cases e : k = (a % 2 ^ 32) >>> P
    · subst e
      simp only [List.lookup_cons, beq_self_eq_true] at hk
      cases hk
      exact ⟨h.1, Nat.lt_succ_self _⟩
    · have hb : (k == (a % 2 ^ 32) >>> P) = false := by simpa using e
      simp only [List.lookup_cons, hb] at hk
      have := h.2 k page hk
      exact ⟨this.1, Nat.lt_succ_of_lt this.2⟩

theorem pages_since_get (n P : Nat) (c : iss_insn_cache_t) (a : Nat)
    (h : pages_since n c) : pages_since n (insn_cache_get P c a).2 :=
  pages_since_page_get n P c a h

theorem vector_table_fill_since (n0 P base : Nat) :
    ∀ (n i : Nat) (s : Iss), pages_since n0 s.decode.insn_cache →
      pages_since n0 (Irq.vector_table_fill P base n i s).decode.insn_cache := by
  intro n
  induction n with
  | zero => intro i s h; exact h
  | succ n ih =>
    intro i s h
    simp only [Irq.vector_table_fill]
    exact ih (i + 1) _ (pages_since_get n0 P _ _ h)

theorem vector_table_set_since (n0 P : Nat) (s : Iss) (base : Nat)
    (h : pages_since n0 s.decode.insn_cache) :
    pages_since n0 (Irq.vector_table_set P s base).decode.insn_cache := by
  show pages_since n0
    (Irq.vector_table_fill P base 3 32 (Irq.vector_table_fill P base 32 0 s)).decode.insn_cache
  exact vector_table_fill_since n0 P base 3 32 _ (vector_table_fill_since n0 P base 32 0 s h)

theorem irq_cache_flush_since (n0 P : Nat) (s : Iss)
    (h : pages_since n0 s.decode.insn_cache) :
    pages_since n0 (Irq.cache_flush P s).decode.insn_cache := by
  have h1 := vector_table_set_since n0 P s s.irq.vector_base h
  unfold Irq.cache_flush
  generalize Irq.vector_table_set P s s.irq.vector_base = s1 at h1
  exact pages_since_get n0 P _ _ h1

/-- The method `Irq::cache_flush` makes no call to a collaborator and leaves the instruction
pointers of the execution loop alone. -/
theorem irq_cache_flush_frame (P : Nat) (s : Iss) :
    (Irq.cache_flush P s).calls = s.calls ∧ (Irq.cache_flush P s).exec = s.exec := by
  have h1 := vector_table_set_frame P s s.irq.vector_base
  unfold Irq.cache_flush
  generalize Irq.vector_table_set P s s.irq.vector_base = s1 at h1
  exact ⟨h1.2.2.2, h1.1⟩

/-- After `Irq::cache_flush` on a cache whose pages are as created, every slot of the table
and the debug handler point to an entry of a page that is in the cache. -/
theorem irq_cache_flush_entries (P : Nat) (s : Iss) (hf : pages_fresh P s.decode.insn_cache) :
    (∀ i : Nat, i < 35 →
      ∃ e, (Irq.cache_flush P s).irq.vectors (i : Int) = some e ∧
        insn_in_cache (Irq.cache_flush P s).decode.insn_cache e) ∧
    (∃ e, (Irq.cache_flush P s).irq.debug_handler = some e ∧
      insn_in_cache (Irq.cache_flush P s).decode.insn_cache e) := by
  have hres := vector_table_set_resolved P s s.irq.vector_base
  have hf1 := vector_table_set_fresh P s s.irq.vector_base hf
  unfold Irq.cache_flush
  generalize Irq.vector_table_set P s s.irq.vector_base = s1 at hres hf1
  constructor
  · intro i hi
    obtain ⟨page, h1, h2⟩ := hres i hi
    have h3 := insn_cache_get_preserves P s1.decode.insn_cache s1.config.debug_handler _ page h1
    have h4 := page_entry_fresh P page ((s.irq.vector_base + i * 4) % 2 ^ 32) (hf1 _ page h1)
    refine ⟨_, h2.trans h4, _, page, h3, rfl, ?_⟩
    exact List.get?_mem (show page.insns.get? _ = some _ from h4)
  · have hget := pages_fresh_get P s1.decode.insn_cache s1.config.debug_handler hf1
    have hpg := pages_fresh_page_get P s1.decode.insn_cache s1.config.debug_handler hf1
    have hlk := page_get_lookup P s1.decode.insn_cache s1.config.debug_handler
    have h4 := page_entry_fresh P _ s1.config.debug_handler hpg.2
    refine ⟨_, hget.2, _, _, hlk, rfl, ?_⟩
    exact List.get?_mem (show _ = some _ from h4)


/-- A second lookup of an address returns the entry the first one returned. -/
theorem insn_cache_get_again (P : Nat) (c : iss_insn_cache_t) (a : Nat) :
    (insn_cache_get P (insn_cache_get P c a).2 a).1 = (insn_cache_get P c a).1 := by
  rw [insn_cache_get_of_lookup P (insn_cache_get P c a).2 a (insn_cache_page_get P c a).1
    (page_get_lookup P c a)]
  exact (insn_cache_get_eq P c a).1.symm

/-- After `Irq::cache_flush` the debug handler is the entry the cache returns for the
configured address. -/
theorem irq_cache_flush_debug_handler (P : Nat) (s : Iss) :
    (Irq.cache_flush P s).config = s.config ∧
    (Irq.cache_flush P s).irq.debug_handler
      = (insn_cache_get P (Irq.cache_flush P s).decode.insn_cache s.config.debug_handler).1 := by
  have h1 := (vector_table_set_frame P s s.irq.vector_base).2.2.1
  unfold Irq.cache_flush
  generalize Irq.vector_table_set P s s.irq.vector_base = s1 at h1
  refine ⟨h1, ?_⟩
  rw [← h1]
  exact (insn_cache_get_again P s1.decode.insn_cache s1.config.debug_handler).symm

/-- Every page the cache holds after `iss_cache_flush` was allocated during the call. -/
theorem iss_cache_flush_since (P : Nat) (s : Iss) :
    pages_since s.decode.insn_cache.allocated (iss_cache_flush P s).decode.insn_cache := by
  obtain ⟨hp1, _, hp3, _⟩ := flush_cache_pages s
  unfold iss_cache_flush
  generalize flush_cache s = t at hp1 hp3
  apply irq_cache_flush_since
  show pages_since _ t.decode.insn_cache
  refine ⟨by rw [hp3], ?_⟩
  intro k page hk
  rw [hp1] at hk
  cases hk

/-- The function `iss_cache_flush` leaves the instruction pointers of the execution loop,
`current_insn` and `prev_insn`, as they were, for every state. -/
theorem iss_cache_flush_exec (P : Nat) (s : Iss) :
    (iss_cache_flush P s).exec = s.exec := by
  have h := (flush_cache_pages s).2.2.2.2.1
  unfold iss_cache_flush
  generalize flush_cache s = t at h
  rw [(irq_cache_flush_frame P _).2]
  exact h

/-- An entry of a page of the cache belongs to a page allocated at or after `n` when every
page of the cache is. -/
theorem insn_in_cache_since (n : Nat) (c : iss_insn_cache_t) (e : iss_insn_t)
    (h : pages_since n c) (he : insn_in_cache c e) : n ≤ e.page := by
  obtain ⟨k, page, hk, hid, _⟩ := he
  rw [← hid]
  exact (h.2 k page hk).1

/-- Claim C31. Full flush. Inside `iss_cache_flush`, `flush_cache` removes every page of the
cache and clears the current-page shortcut; the whole call flushes the prefetcher and
re-enables all breakpoints, in that order and with no other call; every page the cache holds
afterwards was allocated during the call; `vector_base` is kept, each of the 35 vector slots
and `debug_handler` equal what the cache returns for their address and point to an entry of
a page that is in the cache. The function `iss_cache_vflush` clears the shortcut and leaves
the pages, the allocation count and the rest of the core as they were. -/
theorem full_flush (P : Nat) (s : Iss) :
    (flush_cache s).decode.insn_cache.pages = [] ∧
    (flush_cache s).decode.insn_cache.current_insn_page = none ∧
    (iss_cache_flush P s).calls
      = s.calls ++ [ext_call.prefetcher_flush, ext_call.gdbserver_enable_all_breakpoints] ∧
    pages_since s.decode.insn_cache.allocated (iss_cache_flush P s).decode.insn_cache ∧
    (iss_cache_flush P s).irq.vector_base = s.irq.vector_base ∧
    (∀ i : Nat, i < 35 →
      (iss_cache_flush P s).irq.vectors (i : Int)
        = (insn_cache_get P (iss_cache_flush P s).decode.insn_cache
            ((s.irq.vector_base + i * 4) % 2 ^ 32)).1 ∧
      ∃ e, (iss_cache_flush P s).irq.vectors (i : Int) = some e ∧
        insn_in_cache (iss_cache_flush P s).decode.insn_cache e) ∧
    (iss_cache_flush P s).irq.debug_handler
      = (insn_cache_get P (iss_cache_flush P s).decode.insn_cache s.config.debug_handler).1 ∧
    (∃ e, (iss_cache_flush P s).irq.debug_handler = some e ∧
      insn_in_cache (iss_cache_flush P s).decode.insn_cache e) ∧
    (iss_cache_vflush s).decode.insn_cache.current_insn_page = none ∧
    (iss_cache_vflush s).decode.insn_cache.pages = s.decode.insn_cache.pages ∧
    (iss_cache_vflush s).decode.insn_cache.allocated = s.decode.insn_cache.allocated ∧
    (iss_cache_vflush s).irq = s.irq ∧ (iss_cache_vflush s).exec = s.exec ∧
    (iss_cache_vflush s).calls = s.calls := by
  have hsince := iss_cache_flush_since P s
  have hp := flush_cache_pages s
  obtain ⟨hp1, hp2, hp3, hp4, _, hp6, hp7⟩ := hp
  refine ⟨hp1, hp2, ?_, ?_, ?_, ?_, ?_, ?_, rfl, rfl, rfl, rfl, rfl, rfl⟩
  all_goals unfold iss_cache_flush at hsince ⊢
  all_goals generalize flush_cache s = t at hp1 hp2 hp3 hp4 hp6 hp7 hsince
  · rw [(irq_cache_flush_frame P _).1]
    show t.calls ++ [ext_call.gdbserver_enable_all_breakpoints] = _
    rw [hp4, List.append_assoc]
    rfl
  · exact hsince
  · rw [(cache_flush_invariant P _).1]
    show t.irq.vector_base = _
    rw [hp6]
  · intro i hi
    have hf : pages_fresh P t.decode.insn_cache := by
      intro k page hk
      rw [hp1] at hk
      cases hk
    refine ⟨?_, (irq_cache_flush_entries P _ hf).1 i hi⟩
    have h := (cache_flush_invariant P
      { t with calls := t.calls ++ [ext_call.gdbserver_enable_all_breakpoints] })
    rw [h.1] at h
    have h2 := h.2 i hi
    rw [← hp6]
    exact h2
  · have h := (irq_cache_flush_debug_handler P
      { t with calls := t.calls ++ [ext_call.gdbserver_enable_all_breakpoints] }).2
    rw [← hp7]
    exact h
  · have hf : pages_fresh P t.decode.insn_cache := by
      intro k page hk
      rw [hp1] at hk
      cases hk
    exact (irq_cache_flush_entries P _ hf).2

theorem full_flush_witness :
    (3 : Nat) < 35 ∧
    ((iss_cache_flush 8 scenario_irq7).irq.vectors ((3 : Nat) : Int)
        = (insn_cache_get 8 (iss_cache_flush 8 scenario_irq7).decode.insn_cache
            ((scenario_irq7.irq.vector_base + 3 * 4) % 2 ^ 32)).1 ∧
      ∃ e, (iss_cache_flush 8 scenario_irq7).irq.vectors ((3 : Nat) : Int) = some e ∧
        insn_in_cache (iss_cache_flush 8 scenario_irq7).decode.insn_cache e) :=
  ⟨by decide, (full_flush 8 scenario_irq7).2.2.2.2.2.1 3 (by decide)⟩


/-! ## The current instruction across a flush -/

/-- Claim C32, evaluated on the code. The core has fetched at `0x1C008100`: `current_insn`
is an entry of page allocation 1, which is in the cache. After `Decode::flush_cache_sync`
`current_insn` is still that pointer, while the cache holds the one page the re-resolution
of the vectors and the debug handler created, allocation 2, so the pointer refers to an
entry of no page of the cache; `Exec::exec_instr` then hands that pointer to
`insn_exec_fast` and `insn_exec_power` with no lookup in between. -/
theorem flush_cache_sync_leaves_stale_current_insn :
    scenario_fetched.exec.current_insn = some { page := 1, addr := 0x1C008100 } ∧
    insn_in_cache scenario_fetched.decode.insn_cache { page := 1, addr := 0x1C008100 } ∧
    (Decode.flush_cache_sync 8 scenario_fetched true).exec.current_insn
      = some { page := 1, addr := 0x1C008100 } ∧
    (Decode.flush_cache_sync 8 scenario_fetched true).decode.insn_cache.pages.map
      (fun p => (p.1, p.2.id)) = [(0x1C0080, 2)] ∧
    ¬ insn_in_cache (Decode.flush_cache_sync 8 scenario_fetched true).decode.insn_cache
      { page := 1, addr := 0x1C008100 } ∧
    (Exec.exec_instr insn_exec_next (Decode.flush_cache_sync 8 scenario_fetched true)).calls
      = [ext_call.prefetcher_fetch (some { page := 1, addr := 0x1C008100 }),
         ext_call.prefetcher_flush, ext_call.gdbserver_enable_all_breakpoints,
         ext_call.insn_exec_profiling,
         ext_call.insn_exec_fast (some { page := 1, addr := 0x1C008100 }),
         ext_call.prefetcher_fetch (some { page := 1, addr := 0x1C008102 }),
         ext_call.insn_exec_power (some { page := 1, addr := 0x1C008100 })] := by
  refine ⟨by decide, ?_, by decide, by decide, ?_, rfl⟩
  · exact ⟨0x1C0081, _, page_get_lookup 8 scenario_irq7.decode.insn_cache 0x1C008100, rfl,
      by decide⟩
  · intro h
    have h2 := insn_in_cache_since 2 _ _
      (iss_cache_flush_since 8 scenario_fetched) h
    exact absurd h2 (by decide)

end Gvsoc
